import Mathlib

/-!
# aeon loader: image ETL pipeline, sequential block iterator, batch loader

A shallow embedding of `loader/src/etl_image.cpp`, `loader/src/etl_multicrop.hpp`,
`loader/src/block_iterator_sequential.cpp` and `loader/src/nds_batch_loader.cpp`,
followed by theorems about it.

Conventions of the embedding:

* `float` values are rationals (`ℚ`): every finite float is a rational, and the
  geometry only uses `+ - * /` and comparisons. Where a number of the document is
  stored in a `float` and then compared (`multicrop_scales`), the rounding of the
  store is `to_float`.
* C++ exceptions are `Except error _`; a constructor that throws yields no object.
* Random draws are explicit inputs (`image.draws`), one field per call of a
  distribution on the engine.
* Pixel matrices (`cv::Mat`) are lists of rows of pixels, a pixel being the list
  of its channel values.
* Destination memory is a total map from element index to value.
-/

set_option linter.dupNamespace false

namespace nervana

/-! ## Common types -/

/-- The exception types: the two thrown by the sources and the one OpenCV throws
when an assertion fails. -/
inductive error where
  | runtime_error (msg : String)
  | invalid_argument (msg : String)
  | cv_exception (msg : String)
deriving DecidableEq, Repr

/-- Parameters of a `std::uniform_real_distribution` or `std::uniform_int_distribution`:
the bounds `a()` and `b()`. -/
structure uniform_distribution (α : Type) where
  a : α
  b : α
deriving DecidableEq, Repr

/-- Parameters of a `std::normal_distribution<float>`. -/
structure normal_distribution where
  mean : ℚ
  stddev : ℚ
deriving DecidableEq, Repr

/-- Parameter of a `std::bernoulli_distribution`. -/
structure bernoulli_distribution where
  p : ℚ
deriving DecidableEq, Repr

/-- Output element type selected by `type_string`: OpenCV depth code, element size
in bytes and the range of integers the element type represents. -/
structure output_type where
  cv_type : Nat
  size : Nat
  lo : Int
  hi : Int
deriving DecidableEq, Repr

/-- Result of `add_shape_type`: the output shape and the output element type. -/
structure shape_type where
  shape : List Nat
  otype : output_type
deriving DecidableEq, Repr

/-- Modelled from the spec: `add_shape_type` (interface.hpp, not among the sources)
records the shape together with the element type that `type_string` selects. The
table of element types is the parameter `otypes`; a name it does not know is an
error. -/
def add_shape_type (otypes : String → Option output_type) (shape : List Nat)
    (type_string : String) : Except error shape_type :=
  match otypes type_string with
  | some t => .ok { shape := shape, otype := t }
  | none => .error (.runtime_error "unknown output type")

/-- The two element types used by the loader tests of `test_image.cpp`:
`uint8_t` (CV_8U) and `uint32_t` (written through CV_32S). -/
def test_otypes (s : String) : Option output_type :=
  if s = "uint8_t" then some { cv_type := 0, size := 1, lo := 0, hi := 255 }
  else if s = "uint32_t" then some { cv_type := 4, size := 4, lo := -2147483648, hi := 2147483647 }
  else none

/-! ## image::config -/

/-- Modelled from the spec: the configuration document handed to `image::config`,
one optional entry per declared field (`config_list` is declared in
etl_image.hpp, which is not among the sources). The field types follow the
declarations repeated in `etl_multicrop.hpp` under "Stuff from image::config". -/
structure image.document where
  height : Option Nat := none
  width : Option Nat := none
  seed : Option Int := none
  type_string : Option String := none
  do_area_scale : Option Bool := none
  channel_major : Option Bool := none
  channels : Option Nat := none
  scale : Option (uniform_distribution ℚ) := none
  angle : Option (uniform_distribution Int) := none
  lighting : Option normal_distribution := none
  horizontal_distortion : Option (uniform_distribution ℚ) := none
  photometric : Option (uniform_distribution ℚ) := none
  crop_offset : Option (uniform_distribution ℚ) := none
  flip_enable : Option Bool := none
  center : Option Bool := none
deriving DecidableEq, Repr

/-- The members of `image::config` that etl_image.cpp reads and writes, parsed
fields and derived fields, and the shape type recorded by `add_shape_type`
(absent until then). The class is declared in etl_image.hpp, which is not among
the sources; types and defaults are those repeated in `etl_multicrop.hpp`. -/
structure image.config where
  height : Nat
  width : Nat
  seed : Int
  type_string : String
  do_area_scale : Bool
  channel_major : Bool
  channels : Nat
  scale : uniform_distribution ℚ
  angle : uniform_distribution Int
  lighting : normal_distribution
  horizontal_distortion : uniform_distribution ℚ
  photometric : uniform_distribution ℚ
  crop_offset : uniform_distribution ℚ
  flip_distribution : bernoulli_distribution
  flip_enable : Bool
  center : Bool
  shape_type : Option shape_type
deriving DecidableEq, Repr

/-- Modelled from the spec: the field parsing of `image::config` (`info->parse(js)`
over `config_list`, then `verify_config`; interface.hpp and etl_image.hpp are not
among the sources). A required field that is absent is an `invalid_argument`
(as `TEST(image, missing_config_arg)` expects); an optional field that is absent
keeps its default. -/
def image.config.parse (js : image.document) : Except error image.config :=
  match js.height, js.width with
  | none, _ => .error (.invalid_argument "Required Argument: height not set")
  | some _, none => .error (.invalid_argument "Required Argument: width not set")
  | some h, some w =>
    .ok {
      height := h
      width := w
      seed := js.seed.getD 0
      type_string := js.type_string.getD "uint8_t"
      do_area_scale := js.do_area_scale.getD false
      channel_major := js.channel_major.getD true
      channels := js.channels.getD 3
      scale := js.scale.getD ⟨1, 1⟩
      angle := js.angle.getD ⟨0, 0⟩
      lighting := js.lighting.getD ⟨0, 0⟩
      horizontal_distortion := js.horizontal_distortion.getD ⟨1, 1⟩
      photometric := js.photometric.getD ⟨0, 0⟩
      crop_offset := js.crop_offset.getD ⟨1/2, 1/2⟩
      flip_distribution := ⟨0⟩
      flip_enable := js.flip_enable.getD false
      center := js.center.getD true
      shape_type := none }

/-- The method `image::config::validate` (etl_image.cpp lines 52-62). -/
def image.config.validate (c : image.config) : Except error Unit :=
  if c.crop_offset.a > c.crop_offset.b then
    .error (.invalid_argument "invalid crop_offset")
  else if c.width ≤ 0 then
    .error (.invalid_argument "invalid width")
  else if c.height ≤ 0 then
    .error (.invalid_argument "invalid height")
  else .ok ()

/-- The derivation step of the constructor (etl_image.cpp lines 32-47) up to the
call of `add_shape_type`: flip distribution, crop offset, and the shape. -/
def image.config.derive (c : image.config) : image.config × List Nat :=
  let c1 := if c.flip_enable then { c with flip_distribution := ⟨1/2⟩ } else c
  let c2 := if !c1.center then { c1 with crop_offset := ⟨0, 1⟩ } else c1
  let shape := if c2.channel_major then [c2.channels, c2.height, c2.width]
               else [c2.height, c2.width, c2.channels]
  (c2, shape)

/-- The constructor `image::config::config(nlohmann::json js)` (etl_image.cpp lines
21-50). `none` is the null document. -/
def image.config.config (otypes : String → Option output_type)
    (js : Option image.document) : Except error image.config :=
  match js with
  | none => .error (.runtime_error "missing image config in json config")
  | some d => do
    let c ← image.config.parse d
    let (c2, shape) := image.config.derive c
    let st ← add_shape_type otypes shape c2.type_string
    let c3 := { c2 with shape_type := some st }
    image.config.validate c3
    pure c3

/-! ## image::extractor -/

/-- The members of `image::extractor` set by its constructor. -/
structure image.extractor where
  _pixel_type : Nat
  _color_mode : Nat
deriving DecidableEq, Repr

/-- The constructor `image::extractor::extractor` (etl_image.cpp lines 77-88).
`CV_MAKETYPE(CV_8U, cn)` is `(cn - 1) * 8`; `CV_LOAD_IMAGE_GRAYSCALE` is 0 and
`CV_LOAD_IMAGE_COLOR` is 1. -/
def image.extractor.extractor (cfg : image.config) : Except error image.extractor :=
  if !(cfg.channels == 1 || cfg.channels == 3) then
    .error (.runtime_error "Unsupported number of channels in image")
  else
    .ok { _pixel_type := (cfg.channels - 1) * 8,
          _color_mode := if cfg.channels == 1 then 0 else 1 }

/-! ## block_iterator_sequential -/

/-- The members of `block_iterator_sequential`: the block count taken from the
loader at construction and the current index. -/
structure block_iterator_sequential where
  _count : Nat
  _i : Nat
deriving DecidableEq, Repr

/-- The constructor (block_iterator_sequential.cpp lines 21-24); `blockCount` is
what `_loader->blockCount()` returns. -/
def block_iterator_sequential.construct (blockCount : Nat) :
    block_iterator_sequential :=
  { _count := blockCount, _i := 0 }

/-- The method `block_iterator_sequential::reset` (lines 34-37). -/
def block_iterator_sequential.reset (s : block_iterator_sequential) :
    block_iterator_sequential :=
  { s with _i := 0 }

/-- The method `block_iterator_sequential::read` (lines 26-32). The result is the
block index passed to `_loader->loadBlock` and the state afterwards. The counters
are unsigned machine integers of `bits` bits (their declaration is in the header,
which is not among the sources), so the increment wraps at `2 ^ bits`. -/
def block_iterator_sequential.read (bits : Nat) (s : block_iterator_sequential) :
    Nat × block_iterator_sequential :=
  let s1 : block_iterator_sequential := { s with _i := (s._i + 1) % 2 ^ bits }
  (s._i, if s1._i == s1._count then s1.reset else s1)

/-- The state after `k` successive calls of `read`, with the list of block indices
requested from the loader, in call order. -/
def block_iterator_sequential.reads (bits : Nat) :
    Nat → block_iterator_sequential → List Nat × block_iterator_sequential
  | 0, s => ([], s)
  | k + 1, s =>
    let r := block_iterator_sequential.reads bits k s
    let q := block_iterator_sequential.read bits r.2
    (r.1 ++ [q.1], q.2)

/-! ## Geometry (cv::Size2f, cv::Point2f and the crop-box helpers) -/

/-- The OpenCV type `cv::Size2f`. -/
structure Size2f where
  width : ℚ
  height : ℚ
deriving DecidableEq, Repr

/-- The OpenCV type `cv::Point2f`. -/
structure Point2f where
  x : ℚ
  y : ℚ
deriving DecidableEq, Repr

/-- The OpenCV type `cv::Size2i`. -/
structure Size2i where
  width : Int
  height : Int
deriving DecidableEq, Repr

/-- The OpenCV type `cv::Rect`: integer origin and size. -/
structure Rect where
  x : Int
  y : Int
  width : Int
  height : Int
deriving DecidableEq, Repr

/-- Modelled from the spec: `image::cropbox_max_proportional` (image.cpp, not among
the sources), by the formula of the spec: with `r = out.width / out.height` the
candidate width is `in.height * r`; if it is at most `in.width` the result is
`(candidate, in.height)`, else `(in.width, in.width / r)`. -/
def image.cropbox_max_proportional (in_size out_size : Size2f) : Size2f :=
  let r := out_size.width / out_size.height
  let candidate := in_size.height * r
  if candidate ≤ in_size.width then
    { width := candidate, height := in_size.height }
  else
    { width := in_size.width, height := in_size.width / r }

/-- Modelled from the spec: `image::cropbox_linear_scale` (image.cpp, not among the
sources) multiplies both dimensions by the factor. -/
def image.cropbox_linear_scale (in_size : Size2f) (scale : ℚ) : Size2f :=
  { width := in_size.width * scale, height := in_size.height * scale }

/-- Modelled from the spec: `image::cropbox_shift` (image.cpp, not among the
sources) places the box inside `in_size` at normalized offsets: 0 is flush against
the minimum edge, 1 flush against the maximum edge, linear in between. -/
def image.cropbox_shift (in_size crop_box : Size2f) (xoff yoff : ℚ) : Point2f :=
  { x := (in_size.width - crop_box.width) * xoff,
    y := (in_size.height - crop_box.height) * yoff }

/-- Conversion of a `float` to `int` as OpenCV does it when a `cv::Rect` is built
from a `cv::Point2f` and a `cv::Size2f` (`cvRound`): the nearest integer, ties to
the even one. -/
def cvRound (q : ℚ) : Int :=
  let f := ⌊q⌋
  let d := q - f
  if d < 1/2 then f
  else if 1/2 < d then f + 1
  else if f % 2 = 0 then f
  else f + 1

/-! ## image::params and image::param_factory -/

/-- The members of `image::params` that `make_params` sets and `transform` reads
(the class is declared in etl_image.hpp, which is not among the sources). A
freshly constructed value has empty jitter vectors. -/
structure image.params where
  cropbox : Rect
  output_size : Size2i
  angle : Int
  flip : Bool
  lighting : List ℚ
  color_noise_std : ℚ
  photometric : List ℚ
deriving DecidableEq, Repr

/-- The values drawn from the random engine `_dre` by one call of `make_params`,
in call order: angle, flip, scale, horizontal distortion, the two crop offsets,
three lighting values and three photometric values. -/
structure image.draws where
  angle : Int
  flip : Bool
  scale : ℚ
  horizontal_distortion : ℚ
  c_off_x : ℚ
  c_off_y : ℚ
  lighting : ℚ × ℚ × ℚ
  photometric : ℚ × ℚ × ℚ
deriving DecidableEq, Repr

/-- Lines 169-185 of `make_params` (etl_image.cpp): the crop box as `float` origin
and size, before it is stored in the integer `cv::Rect`. `in_size` is what
`input->get_image_size()` returns. -/
def image.param_factory.make_cropbox (_cfg : image.config) (_dre : image.draws)
    (in_size_i : Size2i) : Except error (Point2f × Size2f) :=
  let in_size : Size2f := { width := in_size_i.width, height := in_size_i.height }
  let scale := _dre.scale
  let horizontal_distortion := _dre.horizontal_distortion
  let out_shape : Size2f :=
    { width := _cfg.width * horizontal_distortion, height := _cfg.height }
  let cropbox_size := image.cropbox_max_proportional in_size out_shape
  if _cfg.do_area_scale then
    .error (.runtime_error "area scale not implemented")
  else
    let cropbox_size := image.cropbox_linear_scale cropbox_size scale
    let c_off_x := _dre.c_off_x
    let c_off_y := _dre.c_off_y
    let cropbox_origin := image.cropbox_shift in_size cropbox_size c_off_x c_off_y
    .ok (cropbox_origin, cropbox_size)

/-- The method `image::param_factory::make_params` (etl_image.cpp lines 156-200). -/
def image.param_factory.make_params (_cfg : image.config) (_dre : image.draws)
    (in_size_i : Size2i) : Except error image.params := do
  let output_size : Size2i := { width := _cfg.width, height := _cfg.height }
  let angle := _dre.angle
  let flip := _dre.flip
  let (cropbox_origin, cropbox_size) ← image.param_factory.make_cropbox _cfg _dre in_size_i
  let cropbox : Rect :=
    { x := cvRound cropbox_origin.x, y := cvRound cropbox_origin.y,
      width := cvRound cropbox_size.width, height := cvRound cropbox_size.height }
  let (lighting, color_noise_std) :=
    if _cfg.lighting.stddev != 0 then
      ([_dre.lighting.1, _dre.lighting.2.1, _dre.lighting.2.2], _cfg.lighting.stddev)
    else (([] : List ℚ), (0 : ℚ))
  let photometric :=
    if _cfg.photometric.a != _cfg.photometric.b then
      [_dre.photometric.1, _dre.photometric.2.1, _dre.photometric.2.2]
    else []
  pure { cropbox := cropbox, output_size := output_size, angle := angle, flip := flip,
         lighting := lighting, color_noise_std := color_noise_std,
         photometric := photometric }

/-! ## cv::Mat -/

/-- An 8-bit `cv::Mat`: the header (rows, cols, channels) and the pixel data as a
list of rows, a row being a list of pixels and a pixel the list of its channel
values. -/
structure Mat where
  rows : Nat
  cols : Nat
  channels : Nat
  data : List (List (List Nat))
deriving DecidableEq, Repr

/-- The header agrees with the data: `rows` rows of `cols` pixels of `channels`
values, each value an 8-bit unsigned number. -/
def Mat.wf (m : Mat) : Prop :=
  m.data.length = m.rows ∧
    ∀ r ∈ m.data, r.length = m.cols ∧ ∀ p ∈ r, p.length = m.channels ∧ ∀ v ∈ p, v < 256

instance Mat.wf.decidable (m : Mat) : Decidable m.wf :=
  inferInstanceAs (Decidable (m.data.length = m.rows ∧
    ∀ r ∈ m.data, r.length = m.cols ∧ ∀ p ∈ r, p.length = m.channels ∧ ∀ v ∈ p, v < 256))

/-- The method `cv::Mat::size()`: width is `cols`, height is `rows`. -/
def Mat.size (m : Mat) : Size2i :=
  { width := m.cols, height := m.rows }

/-- The method `cv::Mat::total()`: the number of pixels. -/
def Mat.total (m : Mat) : Nat :=
  m.rows * m.cols

/-- The pixel at row `y`, column `x` (`image.at<cv::Vec3b>(y, x)`), when there is one. -/
def Mat.pixel (m : Mat) (y x : Nat) : Option (List Nat) :=
  (m.data[y]?).bind (fun r => r[x]?)

/-- The region of interest `m(r)` of OpenCV: the assertion of `cv::Mat::Mat(const
Mat&, const Rect&)` and then the `r.height` rows from `r.y` on, of each the
`r.width` pixels from `r.x` on. -/
def Mat.roi (m : Mat) (r : Rect) : Except error Mat :=
  if 0 ≤ r.x ∧ 0 ≤ r.width ∧ r.x + r.width ≤ m.cols ∧
      0 ≤ r.y ∧ 0 ≤ r.height ∧ r.y + r.height ≤ m.rows then
    .ok { rows := r.height.toNat, cols := r.width.toNat, channels := m.channels,
          data := ((m.data.drop r.y.toNat).take r.height.toNat).map
            (fun row => (row.drop r.x.toNat).take r.width.toNat) }
  else
    .error (.cv_exception "roi assertion failed")

/-- The call `cv::flip(src, dst, 1)`: every row is reversed. -/
def cv_flip_horizontal (m : Mat) : Mat :=
  { m with data := m.data.map List.reverse }

/-- The OpenCV operations that change pixel values by interpolation or colour
arithmetic; they are parameters of the model. -/
structure cv_ops where
  warpAffine : Mat → Int → Mat
  resize : Mat → Size2i → Mat
  cbsjitter : Mat → List ℚ → Mat
  lighting : Mat → List ℚ → ℚ → Mat

/-- Modelled from the spec: `image::rotate` (image.cpp, not among the sources).
Rotation by angle 0 leaves the image as it is (`TEST(image,passthrough)`); any
other angle goes through OpenCV. -/
def image.rotate (ops : cv_ops) (input : Mat) (angle : Int) : Mat :=
  if angle = 0 then input else ops.warpAffine input angle

/-- Modelled from the spec: `image::resize` (image.cpp, not among the sources).
Resizing to the size the image already has leaves it as it is
(`TEST(image,passthrough)`, `TEST(image,transform_crop)`); any other size goes
through OpenCV. -/
def image.resize (ops : cv_ops) (input : Mat) (size : Size2i) : Mat :=
  if size = input.size then input else ops.resize input size

/-- Modelled from the spec: `image::photometric::cbsjitter` (image.cpp, not among
the sources): contrast, brightness and saturation jitter, a no-op if the vector
is empty. -/
def image.photometric.cbsjitter (ops : cv_ops) (inout : Mat) (photometric : List ℚ) : Mat :=
  if photometric = [] then inout else ops.cbsjitter inout photometric

/-- Modelled from the spec: `image::photometric::lighting` (image.cpp, not among
the sources): additive lighting noise, a no-op if the vector is empty. -/
def image.photometric.lighting (ops : cv_ops) (inout : Mat) (lighting : List ℚ)
    (color_noise_std : ℚ) : Mat :=
  if lighting = [] then inout else ops.lighting inout lighting color_noise_std

/-! ## image::decoded -/

/-- Modelled from the spec: the class `image::decoded` (etl_image.hpp, not among
the sources) holds an ordered sequence of image matrices. -/
structure image.decoded where
  _images : List Mat
deriving DecidableEq, Repr

/-- Modelled from the spec: the check behind the invariant of `image::decoded`
(etl_image.hpp, not among the sources): every image has the size of the first. -/
def image.decoded.all_images_are_same_size (images : List Mat) : Bool :=
  match images with
  | [] => true
  | m :: rest => rest.all (fun x => x.size == m.size)

/-- Modelled from the spec: `image::decoded::add(const std::vector<cv::Mat>&)`
(etl_image.hpp, not among the sources). The images are appended and the result is
`true` when all images then held have one size; otherwise the result is `false`
and the object is left as it was. -/
def image.decoded.add_list (d : image.decoded) (images : List Mat) : Bool × image.decoded :=
  if image.decoded.all_images_are_same_size (d._images ++ images) then
    (true, { _images := d._images ++ images })
  else
    (false, d)

/-- Modelled from the spec: `image::decoded::add(cv::Mat)` (etl_image.hpp, not
among the sources): as `add_list` with the one image. -/
def image.decoded.add (d : image.decoded) (img : Mat) : Bool × image.decoded :=
  image.decoded.add_list d [img]

/-- Modelled from the spec: `image::decoded::get_image_count` (etl_image.hpp, not
among the sources): the number of images held. -/
def image.decoded.get_image_count (d : image.decoded) : Nat :=
  d._images.length

/-- Modelled from the spec: `image::decoded::get_image` (etl_image.hpp, not among
the sources): the image at an index, when there is one. -/
def image.decoded.get_image (d : image.decoded) (i : Nat) : Option Mat :=
  d._images[i]?

/-- Modelled from the spec: `image::decoded::get_image_size` (etl_image.hpp, not
among the sources): the size of the images held, read off the first one. -/
def image.decoded.get_image_size (d : image.decoded) : Option Size2i :=
  d._images.head?.map Mat.size

/-! ## image::transformer -/

/-- The body of the loop of `image::transformer::transform` (etl_image.cpp lines
130-146) for one image. -/
def image.transformer.transform_one (ops : cv_ops) (img_xform : image.params) (m : Mat) :
    Except error Mat := do
  let rotatedImage := image.rotate ops m img_xform.angle
  let croppedImage ← Mat.roi rotatedImage img_xform.cropbox
  let resizedImage := image.resize ops croppedImage img_xform.output_size
  let resizedImage := image.photometric.cbsjitter ops resizedImage img_xform.photometric
  let resizedImage := image.photometric.lighting ops resizedImage img_xform.lighting
    img_xform.color_noise_std
  if img_xform.flip then
    pure (cv_flip_horizontal resizedImage)
  else
    pure resizedImage

/-- The loop of `image::transformer::transform` (lines 128-147): the list
`finalImageList`. -/
def image.transformer.transform_all (ops : cv_ops) (img_xform : image.params) :
    List Mat → Except error (List Mat)
  | [] => .ok []
  | m :: rest => do
    let r ← image.transformer.transform_one ops img_xform m
    let rs ← image.transformer.transform_all ops img_xform rest
    pure (r :: rs)

/-- The method `image::transformer::transform` (etl_image.cpp lines 124-154). The
result `none` is the null pointer returned when `add` reports a size mismatch. -/
def image.transformer.transform (ops : cv_ops) (img_xform : image.params)
    (img : image.decoded) : Except error (Option image.decoded) := do
  let finalImageList ← image.transformer.transform_all ops img_xform img._images
  let rc : image.decoded := { _images := [] }
  let r := rc.add_list finalImageList
  if r.1 == false then
    pure none
  else
    pure (some r.2)

/-- The invariant of `image::decoded`: all images held have one width and height. -/
def image.decoded.uniform (d : image.decoded) : Prop :=
  ∀ a ∈ d._images, ∀ b ∈ d._images, a.size = b.size

instance image.decoded.uniform.decidable (d : image.decoded) : Decidable d.uniform :=
  inferInstanceAs (Decidable (∀ a ∈ d._images, ∀ b ∈ d._images, a.size = b.size))

/-- The function `generate_indexed_image` of test_image.cpp, for any dimensions:
the pixel at `(row, col)` holds `(col, row, 0)` as 8-bit values. -/
def generate_indexed_image_of (rows cols : Nat) : Mat :=
  { rows := rows, cols := cols, channels := 3,
    data := (List.range rows).map (fun row =>
      (List.range cols).map (fun col => [col % 256, row % 256, 0])) }

/-- The function `generate_indexed_image` of test_image.cpp (256 x 256). -/
def generate_indexed_image : Mat :=
  generate_indexed_image_of 256 256

/-- A choice of the OpenCV operations that leaves every image as it is; used only
where those operations are not reached. -/
def cv_ops.unchanged : cv_ops :=
  { warpAffine := fun m _ => m, resize := fun m _ => m, cbsjitter := fun m _ => m,
    lighting := fun m _ _ => m }

/-! ## image::loader -/

/-- Destination memory behind `outlist[0]`: the value of the element that starts at
a byte offset from `outbuf`. -/
def memory : Type := Nat → Int

/-- One store of an element at a byte offset. -/
def memory.write (m : memory) (offset : Nat) (v : Int) : memory :=
  fun o => if o = offset then v else m o

/-- A sequence of stores, in order. -/
def memory.apply_writes (m : memory) (ws : List (Nat × Int)) : memory :=
  ws.foldl (fun acc w => acc.write w.1 w.2) m

/-- A `cv::Mat` header placed over destination memory (`target.emplace_back(size,
type, pointer)`): size, channel count and the byte offset of its data pointer. -/
structure Mat_view where
  rows : Nat
  cols : Nat
  channels : Nat
  base : Nat
deriving DecidableEq, Repr

/-- The value of channel `c` of the pixel at row `y`, column `x` (unchecked read). -/
def Mat.value (m : Mat) (y x c : Nat) : Nat :=
  ((m.data.getD y []).getD x []).getD c 0

/-- Numeric conversion of an 8-bit value to the output element type
(`cv::saturate_cast`): the value clamped to the range of the type. -/
def output_type.convert (t : output_type) (v : Nat) : Int :=
  max t.lo (min t.hi (v : Int))

/-- The matrix that holds channel `k`, counting channels through the list of
matrices as `cv::mixChannels` does, and the channel index inside it. -/
def locate_channel {α : Type} (channels : α → Nat) : List α → Nat → Option (α × Nat)
  | [], _ => none
  | a :: rest, k =>
    if k < channels a then some (a, k)
    else locate_channel channels rest (k - channels a)

/-- The pairs `(from, to)` of a flat `from_to` vector. -/
def from_to_pairs : List Nat → List (Nat × Nat)
  | f :: t :: rest => (f, t) :: from_to_pairs rest
  | _ => []

/-- The stores that copy channel `sc` of `s` into channel `tc` of the view `t`,
pixel by pixel in row-major order, converting each value. -/
def copy_channel_writes (ot : output_type) (s : Mat) (sc : Nat) (t : Mat_view) (tc : Nat) :
    List (Nat × Int) :=
  (List.range s.rows).flatMap (fun y =>
    (List.range s.cols).map (fun x =>
      (t.base + ((y * t.cols + x) * t.channels + tc) * ot.size, ot.convert (s.value y x sc))))

/-- The stores of one call of `convert_mix_channels`. -/
def image.convert_mix_channels_writes (ot : output_type) (source : List Mat)
    (target : List Mat_view) (from_to : List Nat) : List (Nat × Int) :=
  (from_to_pairs from_to).flatMap (fun ft =>
    match locate_channel Mat.channels source ft.1,
          locate_channel Mat_view.channels target ft.2 with
    | some (s, sc), some (t, tc) => copy_channel_writes ot s sc t tc
    | _, _ => [])

/-- Modelled from the spec: `image::convert_mix_channels` (image.cpp, not among the
sources): the copy-and-convert primitive. For each pair of `from_to` it copies
the source channel to the target channel, converting every element to the output
element type. -/
def image.convert_mix_channels (ot : output_type) (source : List Mat)
    (target : List Mat_view) (from_to : List Nat) (mem : memory) : memory :=
  mem.apply_writes (image.convert_mix_channels_writes ot source target from_to)

/-- The targets and the channel map that the body of the loop of
`image::loader::load` builds for image `i` (etl_image.cpp lines 212-231). -/
def image.loader.targets (_cfg : image.config) (ot : output_type) (image_size : Nat)
    (i : Nat) (img : Mat) : List Mat_view × List Nat :=
  let element_size := ot.size
  let outbuf_i := i * image_size
  if _cfg.channel_major then
    ((List.range _cfg.channels).map (fun ch =>
        { rows := img.rows, cols := img.cols, channels := 1,
          base := outbuf_i + ch * img.total * element_size }),
      (List.range _cfg.channels).flatMap (fun ch => [ch, ch]))
  else
    ([{ rows := img.rows, cols := img.cols, channels := _cfg.channels, base := outbuf_i }],
      (List.range _cfg.channels).flatMap (fun ch => [ch, ch]))

/-- The body of the loop of `image::loader::load` for image `i` (lines 212-232). -/
def image.loader.load_image (_cfg : image.config) (ot : output_type) (image_size : Nat)
    (outbuf : memory) (i : Nat) (img : Mat) : memory :=
  let tf := image.loader.targets _cfg ot image_size i img
  image.convert_mix_channels ot [img] tf.1 tf.2 outbuf

/-- The method `image::loader::load` (etl_image.cpp lines 202-234). There is no
result when the configuration holds no shape type or the input holds no image
(`get_image(0)` on an empty vector). Sizes are mathematical integers. -/
def image.loader.load (_cfg : image.config) (outbuf : memory) (input : image.decoded) :
    Option memory :=
  match _cfg.shape_type, input.get_image 0 with
  | some st, some img =>
    let ot := st.otype
    let element_size := ot.size
    let image_size := img.channels * img.total * element_size
    some ((List.range input.get_image_count).foldl (fun mem i =>
      match input.get_image i with
      | some img => image.loader.load_image _cfg ot image_size mem i img
      | none => mem) outbuf)
  | _, _ => none

/-- The configuration of `TEST(image,passthrough)` as constructed: width 512,
height 256, every other field at its default. -/
def passthrough_config : image.config :=
  { height := 256, width := 512, seed := 0, type_string := "uint8_t",
    do_area_scale := false, channel_major := true, channels := 3, scale := ⟨1, 1⟩,
    angle := ⟨0, 0⟩, lighting := ⟨0, 0⟩, horizontal_distortion := ⟨1, 1⟩,
    photometric := ⟨0, 0⟩, crop_offset := ⟨1/2, 1/2⟩, flip_distribution := ⟨0⟩,
    flip_enable := false, center := true,
    shape_type := some ⟨[3, 256, 512], ⟨0, 1, 0, 255⟩⟩ }

/-- One outcome of the draws of `make_params`: no rotation, no flip, scale 1/2, no
horizontal distortion, both crop offsets 1/4. -/
def quarter_offset_draws : image.draws :=
  { angle := 0, flip := false, scale := 1/2, horizontal_distortion := 1,
    c_off_x := 1/4, c_off_y := 1/4, lighting := (0, 0, 0), photometric := (0, 0, 0) }

/-- The configuration of `TEST(image,convert_split)` as constructed: width 10,
height 10, 3 channels, channel-major, element type `uint32_t`. -/
def convert_split_config : image.config :=
  { height := 10, width := 10, seed := 0, type_string := "uint32_t",
    do_area_scale := false, channel_major := true, channels := 3, scale := ⟨1, 1⟩,
    angle := ⟨0, 0⟩, lighting := ⟨0, 0⟩, horizontal_distortion := ⟨1, 1⟩,
    photometric := ⟨0, 0⟩, crop_offset := ⟨1/2, 1/2⟩, flip_distribution := ⟨0⟩,
    flip_enable := false, center := true,
    shape_type := some ⟨[3, 10, 10], ⟨4, 4, -2147483648, 2147483647⟩⟩ }

/-! ## multicrop::config -/

/-- The conversion of a number to `float` (IEEE 754 single precision, round to
nearest, ties to even): the significand has 24 bits, so a number with binary
exponent `e` is rounded to a multiple of `2 ^ (e - 23)`, and below `2 ^ (-126)`
to a multiple of `2 ^ (-149)`. A number beyond the largest `float`, which the
conversion takes to an infinity, stays finite here; it compares with 0 and 1 as
the infinity does. -/
def to_float (q : ℚ) : ℚ :=
  let a := |q|
  let e : Int := max (Int.log 2 a) (-126)
  let quantum : ℚ := (2 : ℚ) ^ (e - 23)
  let n : Int := cvRound (a / quantum)
  if q < 0 then -((n : ℚ) * quantum) else (n : ℚ) * quantum

/-- The configuration document handed to `multicrop::config`: one optional entry
per field of `config_list` (etl_multicrop.hpp lines 97-119). The entries of
`multicrop_scales` are the numbers of the json array. -/
structure multicrop.document where
  height : Option Nat := none
  width : Option Nat := none
  seed : Option Int := none
  scale : Option (uniform_distribution ℚ) := none
  angle : Option (uniform_distribution Int) := none
  lighting : Option normal_distribution := none
  horizontal_distortion : Option (uniform_distribution ℚ) := none
  photometric : Option (uniform_distribution ℚ) := none
  crop_offset : Option (uniform_distribution ℚ) := none
  flip : Option Bool := none
  type_string : Option String := none
  do_area_scale : Option Bool := none
  channel_major : Option Bool := none
  channels : Option Nat := none
  multicrop_scales : Option (List ℚ) := none
  crops_per_scale : Option Int := none
  include_flips : Option Bool := none
deriving DecidableEq, Repr

/-- The members of `multicrop::config` (etl_multicrop.hpp lines 36-62) and the
shape type recorded by `add_shape_type`. -/
structure multicrop.config where
  multicrop_scales : List ℚ
  crops_per_scale : Int
  include_flips : Bool
  height : Nat
  width : Nat
  seed : Int
  type_string : String
  do_area_scale : Bool
  channel_major : Bool
  channels : Nat
  scale : uniform_distribution ℚ
  angle : uniform_distribution Int
  lighting : normal_distribution
  horizontal_distortion : uniform_distribution ℚ
  photometric : uniform_distribution ℚ
  crop_offset : uniform_distribution ℚ
  flip_distribution : bernoulli_distribution
  flip : Bool
  offsets : List Point2f
  output_size : Size2i
  shape_type : Option shape_type
deriving DecidableEq, Repr

/-- Modelled from the spec: the field parsing of `multicrop::config`
(`info->parse(js)` over `config_list`, then `verify_config`; interface.hpp is not
among the sources). A required field that is absent is an `invalid_argument`; an
optional field that is absent keeps the default of its declaration (lines 40-58).
The member `multicrop_scales` is a `std::vector<float>` (line 37), so each number
of the document is stored converted to `float`. -/
def multicrop.config.parse (js : multicrop.document) : Except error multicrop.config :=
  match js.height, js.width, js.multicrop_scales with
  | none, _, _ => .error (.invalid_argument "Required Argument: height not set")
  | some _, none, _ => .error (.invalid_argument "Required Argument: width not set")
  | some _, some _, none =>
    .error (.invalid_argument "Required Argument: multicrop_scales not set")
  | some h, some w, some scales =>
    .ok {
      multicrop_scales := scales.map to_float
      crops_per_scale := js.crops_per_scale.getD 5
      include_flips := js.include_flips.getD true
      height := h
      width := w
      seed := js.seed.getD 0
      type_string := js.type_string.getD "uint8_t"
      do_area_scale := js.do_area_scale.getD false
      channel_major := js.channel_major.getD true
      channels := js.channels.getD 3
      scale := js.scale.getD ⟨1, 1⟩
      angle := js.angle.getD ⟨0, 0⟩
      lighting := js.lighting.getD ⟨0, 0⟩
      horizontal_distortion := js.horizontal_distortion.getD ⟨1, 1⟩
      photometric := js.photometric.getD ⟨0, 0⟩
      crop_offset := js.crop_offset.getD ⟨1/2, 1/2⟩
      flip_distribution := ⟨0⟩
      flip := js.flip.getD false
      offsets := []
      output_size := ⟨0, 0⟩
      shape_type := none }

/-- The method `multicrop::config::validate` (etl_multicrop.hpp lines 121-132). -/
def multicrop.config.validate (c : multicrop.config) : Except error Unit :=
  if c.crops_per_scale ≠ 5 ∧ c.crops_per_scale ≠ 1 then
    .error (.invalid_argument "crops_per_scale must be 1 or 5")
  else if c.multicrop_scales.all (fun s => decide (0 < s) && decide (s < 1)) then
    .ok ()
  else
    .error (.invalid_argument "multicrop_scales values must be between 0.0 and 1.0")

/-- The value of `num_views` (etl_multicrop.hpp line 89): the product is formed in
`size_t` and stored in a `uint32_t`, that is, taken modulo `2 ^ 32`. -/
def multicrop.config.num_views (c : multicrop.config) : Nat :=
  ((c.crops_per_scale * (c.multicrop_scales.length : Int) *
      (if c.include_flips then 2 else 1)) % 2 ^ 32).toNat

/-- The derivation step of the constructor (etl_multicrop.hpp lines 75-89): the
offsets, the flip distribution and the output size. The sides of the output size
are kept as numbers; the `int` members of `cv::Size2i` hold them unchanged as
long as `height` and `width` are below `2 ^ 31`. -/
def multicrop.config.derive (c : multicrop.config) : multicrop.config :=
  let offsets : List Point2f := c.offsets ++ [⟨1/2, 1/2⟩]
  let c1 := { c with offsets := offsets }
  let c2 := if c1.flip then { c1 with flip_distribution := ⟨1/2⟩ } else c1
  let c3 :=
    if c2.crops_per_scale == 5 then
      { c2 with offsets := c2.offsets ++ [⟨0, 0⟩, ⟨0, 1⟩, ⟨1, 0⟩, ⟨1, 1⟩] }
    else c2
  { c3 with output_size := { width := c3.height, height := c3.width } }

/-- The constructor `multicrop::config::config(nlohmann::json js)`
(etl_multicrop.hpp lines 64-93). `none` is the null document. -/
def multicrop.config.config (otypes : String → Option output_type)
    (js : Option multicrop.document) : Except error multicrop.config :=
  match js with
  | none => .error (.runtime_error "missing multicrop config in json config")
  | some d => do
    let c ← multicrop.config.parse d
    let c1 := multicrop.config.derive c
    let st ← add_shape_type otypes [c1.num_views] c1.type_string
    let c2 := { c1 with shape_type := some st }
    multicrop.config.validate c2
    pure c2

/-! ## multicrop::transformer -/

/-- Modelled from the spec: `multicrop::transformer::transform`
(etl_multicrop.cpp, not among the sources). For each configured scale, in declared
order, and for each offset of the configuration, in order, the crop of the source
image at that scale and offset, resized to the output size, is appended; right
after it, if flips are included, its horizontal mirror image. The crop-and-resize
of one view goes through OpenCV and is the parameter `view`; the sampled params are
ignored. There is no result when the input holds no image. -/
def multicrop.transformer.transform (view : ℚ → Point2f → Mat → Mat)
    (_cfg : multicrop.config) (input : image.decoded) : Option image.decoded :=
  match input.get_image 0 with
  | none => none
  | some src =>
    some { _images := _cfg.multicrop_scales.flatMap (fun s =>
      _cfg.offsets.flatMap (fun o =>
        if _cfg.include_flips then [view s o src, cv_flip_horizontal (view s o src)]
        else [view s o src])) }

/-- The first multicrop document of `TEST(image, multi_crop)`: one scale, one crop
per scale, flips left at their default (included). -/
def multi_crop_center_document : multicrop.document :=
  { height := some 224, width := some 224, multicrop_scales := some [7/8],
    crops_per_scale := some 1 }

/-- The second multicrop document of `TEST(image, multi_crop)`: one scale, crops per
scale left at the default 5, no flips. -/
def multi_crop_no_flip_document : multicrop.document :=
  { height := some 224, width := some 224, multicrop_scales := some [7/8],
    include_flips := some false }

/-- The fields of a multicrop configuration parsed from a document that gives only
height 224, width 224, the scale 7/8 and the two local options. -/
def multi_crop_parsed (crops_per_scale : Int) (include_flips : Bool) : multicrop.config :=
  { multicrop_scales := [7/8], crops_per_scale := crops_per_scale,
    include_flips := include_flips, height := 224, width := 224, seed := 0,
    type_string := "uint8_t", do_area_scale := false, channel_major := true, channels := 3,
    scale := ⟨1, 1⟩, angle := ⟨0, 0⟩, lighting := ⟨0, 0⟩, horizontal_distortion := ⟨1, 1⟩,
    photometric := ⟨0, 0⟩, crop_offset := ⟨1/2, 1/2⟩, flip_distribution := ⟨0⟩,
    flip := false, offsets := [], output_size := ⟨0, 0⟩, shape_type := none }

/-- The configuration constructed from `multi_crop_center_document`. -/
def multi_crop_center_config : multicrop.config :=
  { multicrop.config.derive (multi_crop_parsed 1 true) with
    shape_type := some ⟨[(multicrop.config.derive (multi_crop_parsed 1 true)).num_views],
      ⟨0, 1, 0, 255⟩⟩ }

/-- The configuration constructed from `multi_crop_no_flip_document`. -/
def multi_crop_no_flip_config : multicrop.config :=
  { multicrop.config.derive (multi_crop_parsed 5 false) with
    shape_type := some ⟨[(multicrop.config.derive (multi_crop_parsed 5 false)).num_views],
      ⟨0, 1, 0, 255⟩⟩ }

/-! ## Supports of the distributions -/

/-- The values one draw from a `std::bernoulli_distribution` can give: `true` only
if `p > 0`, `false` only if `p < 1`. -/
def bernoulli_distribution.can_draw (d : bernoulli_distribution) (b : Bool) : Prop :=
  (b = true → 0 < d.p) ∧ (b = false → d.p < 1)

instance bernoulli_distribution.can_draw.decidable (d : bernoulli_distribution) (b : Bool) :
    Decidable (d.can_draw b) :=
  inferInstanceAs (Decidable ((b = true → 0 < d.p) ∧ (b = false → d.p < 1)))

/-- The values one draw from a uniform distribution with bounds `a` and `b` can
give: those between the bounds (so the bound itself when `a = b`). -/
def uniform_distribution.can_draw {α : Type} [LE α] (d : uniform_distribution α) (x : α) :
    Prop :=
  d.a ≤ x ∧ x ≤ d.b

/-- The draws that one call of `make_params` can get from the distributions of the
configuration (the lighting values, drawn from a normal distribution, are not
restricted). -/
def image.draws.admissible (cfg : image.config) (dre : image.draws) : Prop :=
  cfg.angle.can_draw dre.angle ∧
    cfg.flip_distribution.can_draw dre.flip ∧
    cfg.scale.can_draw dre.scale ∧
    cfg.horizontal_distortion.can_draw dre.horizontal_distortion ∧
    cfg.crop_offset.can_draw dre.c_off_x ∧
    cfg.crop_offset.can_draw dre.c_off_y ∧
    cfg.photometric.can_draw dre.photometric.1 ∧
    cfg.photometric.can_draw dre.photometric.2.1 ∧
    cfg.photometric.can_draw dre.photometric.2.2

instance uniform_distribution.can_draw.decidable {α : Type} [LE α]
    [DecidableRel (fun a b : α => a ≤ b)] (d : uniform_distribution α) (x : α) :
    Decidable (d.can_draw x) :=
  inferInstanceAs (Decidable (d.a ≤ x ∧ x ≤ d.b))

instance image.draws.admissible.decidable (cfg : image.config) (dre : image.draws) :
    Decidable (dre.admissible cfg) :=
  inferInstanceAs (Decidable (cfg.angle.can_draw dre.angle ∧
    cfg.flip_distribution.can_draw dre.flip ∧
    cfg.scale.can_draw dre.scale ∧
    cfg.horizontal_distortion.can_draw dre.horizontal_distortion ∧
    cfg.crop_offset.can_draw dre.c_off_x ∧
    cfg.crop_offset.can_draw dre.c_off_y ∧
    cfg.photometric.can_draw dre.photometric.1 ∧
    cfg.photometric.can_draw dre.photometric.2.1 ∧
    cfg.photometric.can_draw dre.photometric.2.2))

/-- The two calls a client can make on a `block_iterator_sequential`. -/
inductive block_iterator_sequential.call where
  | read
  | reset
deriving DecidableEq, Repr

/-- One call on the iterator: the block indices it requests from the loader
(`read` requests one, `reset` none) and the state afterwards. -/
def block_iterator_sequential.perform (bits : Nat) (c : block_iterator_sequential.call)
    (s : block_iterator_sequential) : List Nat × block_iterator_sequential :=
  match c with
  | .read => ([(s.read bits).1], (s.read bits).2)
  | .reset => ([], s.reset)

/-! ## Scale-shape helper -/

/-- The C function `round` followed by the conversion to `int`: the nearest
integer, ties away from zero. -/
def round_half_away (q : ℚ) : Int :=
  if 0 ≤ q then ⌊q + 1/2⌋ else ⌈q - 1/2⌉

/-- Modelled from the spec: `image::calculate_scale_shape` (image.cpp, not among
the sources; called by `TEST(image,calculate_scale_shape)`). The shorter side is
scaled to `min_size`; if that would push the longer side past `max_size`, the
scale is instead the one that takes the longer side to `max_size`. The result is
the scale factor and the size with both sides rounded to the nearest integer. -/
def image.calculate_scale_shape (size : Size2i) (min_size max_size : Int) : ℚ × Size2i :=
  let im_size_min := min size.width size.height
  let im_size_max := max size.width size.height
  let im_scale : ℚ := (min_size : ℚ) / (im_size_min : ℚ)
  let im_scale : ℚ :=
    if im_scale * (im_size_max : ℚ) > (max_size : ℚ) then (max_size : ℚ) / (im_size_max : ℚ)
    else im_scale
  (im_scale,
    { width := round_half_away ((size.width : ℚ) * im_scale),
      height := round_half_away ((size.height : ℚ) * im_scale) })

/-- The only outcome of the draws of `make_params` under the configuration of
`TEST(image,passthrough)`, whose distributions are all degenerate (the lighting
and photometric values are not drawn). -/
def passthrough_draws : image.draws :=
  { angle := 0, flip := false, scale := 1, horizontal_distortion := 1,
    c_off_x := 1/2, c_off_y := 1/2, lighting := (0, 0, 0), photometric := (0, 0, 0) }

/-! ## NDSBatchLoader -/

/-- The callback `write_data` (nds_batch_loader.cpp lines 27-34). `ptr` is the
memory at the pointer, as bytes; the stream is the sequence of bytes written to
the `stringstream` so far. The string `data` is the first `size * nmemb` bytes;
`stream << data << endl` appends them and then the newline character (byte 10).
The result is the returned count and the stream afterwards. -/
def write_data (ptr : List Nat) (size nmemb : Nat) (stream : List Nat) : Nat × List Nat :=
  let data := ptr.take (size * nmemb)
  (size * nmemb, stream ++ data ++ [10])

/-- What `curl_easy_perform` does with the write callback during one transfer:
it hands every chunk of the response body to the callback, in order, with
`size = 1` and `nmemb` the length of the chunk, the stream being carried along. -/
def curl_deliver (chunks : List (List Nat)) (stream : List Nat) : List Nat :=
  chunks.foldl (fun s chunk => (write_data chunk 1 chunk.length s).2) stream

/-- The method `NDSBatchLoader::get` (nds_batch_loader.cpp lines 65-91). The
transfer itself is libcurl's: `chunks` are the pieces in which it delivers the
response body and `res_ok` says whether `curl_easy_perform` returned `CURLE_OK`.
The result is the stream afterwards, or the exception thrown. -/
def NDSBatchLoader.get (chunks : List (List Nat)) (res_ok : Bool) (stream : List Nat) :
    Except error (List Nat) :=
  let stream := curl_deliver chunks stream
  if !res_ok then
    .error (.runtime_error "HTTP GET failed")
  else
    .ok stream

/-- A configuration as `image::config` constructs it from a document with width
30, height 30, `lighting` `(0, 0.1)` (as in `TEST(image, config)`) and
`photometric` `[-0.1, 0.1]`: both jitter distributions are non-degenerate. -/
def jitter_config : image.config :=
  { height := 30, width := 30, seed := 0, type_string := "uint8_t",
    do_area_scale := false, channel_major := true, channels := 3, scale := ⟨1, 1⟩,
    angle := ⟨0, 0⟩, lighting := ⟨0, 1/10⟩, horizontal_distortion := ⟨1, 1⟩,
    photometric := ⟨-1/10, 1/10⟩, crop_offset := ⟨1/2, 1/2⟩, flip_distribution := ⟨0⟩,
    flip_enable := false, center := true,
    shape_type := some ⟨[3, 30, 30], ⟨0, 1, 0, 255⟩⟩ }

/-- One outcome of the draws of `make_params` under `jitter_config`: three
lighting values and three photometric values (these within `[-0.1, 0.1]`). -/
def jitter_draws : image.draws :=
  { angle := 0, flip := false, scale := 1, horizontal_distortion := 1,
    c_off_x := 1/2, c_off_y := 1/2, lighting := (1/20, -3/100, 1/50),
    photometric := (1/20, -1/20, 0) }

/-! # Theorems -/

/-! ## image::config and image::extractor -/

theorem image.config.derive_width (c : image.config) :
    (image.config.derive c).1.width = c.width := by
  unfold image.config.derive
  by_cases h1 : c.flip_enable <;> by_cases h2 : c.center <;> simp [h1, h2]

theorem image.config.derive_height (c : image.config) :
    (image.config.derive c).1.height = c.height := by
  unfold image.config.derive
  by_cases h1 : c.flip_enable <;> by_cases h2 : c.center <;> simp [h1, h2]

theorem image.config.derive_channels (c : image.config) :
    (image.config.derive c).1.channels = c.channels := by
  unfold image.config.derive
  by_cases h1 : c.flip_enable <;> by_cases h2 : c.center <;> simp [h1, h2]

/-- A successful construction is: parse, derive, shape type found, validate passed. -/
theorem image.config.config_ok_iff (otypes : String → Option output_type)
    (d : image.document) (cfg : image.config) :
    image.config.config otypes (some d) = .ok cfg ↔
      ∃ c st, image.config.parse d = .ok c ∧
        add_shape_type otypes (image.config.derive c).2 (image.config.derive c).1.type_string
          = .ok st ∧
        cfg = { (image.config.derive c).1 with shape_type := some st } ∧
        image.config.validate cfg = .ok () := by
  unfold image.config.config
  constructor
  · intro h
    cases hp : image.config.parse d with
    | error e => simp [hp, bind, Except.bind] at h
    | ok c =>
      cases hs : add_shape_type otypes (image.config.derive c).2
          (image.config.derive c).1.type_string with
      | error e => simp [hp, hs, bind, Except.bind] at h
      | ok st =>
        cases hv : image.config.validate
            { (image.config.derive c).1 with shape_type := some st } with
        | error e => simp [hp, hs, hv, bind, Except.bind] at h
        | ok u =>
          simp [hp, hs, hv, bind, Except.bind, pure, Except.pure] at h
          exact ⟨c, st, rfl, hs, h.symm, by rw [← h]; exact hv⟩
  · rintro ⟨c, st, hp, hs, rfl, hv⟩
    simp [hp, hs, hv, bind, Except.bind, pure, Except.pure]

theorem image.config.validate_ok_iff (c : image.config) :
    image.config.validate c = .ok () ↔
      c.crop_offset.a ≤ c.crop_offset.b ∧ 0 < c.width ∧ 0 < c.height := by
  unfold image.config.validate
  split_ifs with h1 h2 h3
  · simp only [reduceCtorEq, false_iff, not_and]
    intro h; exact absurd h (not_le.mpr h1)
  · simp only [reduceCtorEq, false_iff, not_and]
    intro _ h; omega
  · simp only [reduceCtorEq, false_iff, not_and]
    intro _ _; omega
  · simp only [true_iff]
    exact ⟨not_lt.mp h1, by omega, by omega⟩

/-- C1: for every configuration document, constructing `image::config` raises an
error whenever the parsed width is `<= 0`, or the parsed height is `<= 0`, or the
crop-offset distribution left after derivation has lower bound above its upper
bound; and every `image::config` that constructs successfully has `width > 0`,
`height > 0` and crop-offset lower bound `<=` upper bound. -/
theorem image_config_construction_validates (otypes : String → Option output_type)
    (js : Option image.document) :
    (∀ d c, js = some d → image.config.parse d = .ok c →
      (c.width ≤ 0 ∨ c.height ≤ 0 ∨
        (image.config.derive c).1.crop_offset.a > (image.config.derive c).1.crop_offset.b) →
      ∃ e, image.config.config otypes js = .error e) ∧
    (∀ cfg, image.config.config otypes js = .ok cfg →
      0 < cfg.width ∧ 0 < cfg.height ∧ cfg.crop_offset.a ≤ cfg.crop_offset.b) := by
  have key : ∀ cfg, image.config.config otypes js = .ok cfg →
      0 < cfg.width ∧ 0 < cfg.height ∧ cfg.crop_offset.a ≤ cfg.crop_offset.b := by
    intro cfg h
    cases js with
    | none => simp [image.config.config] at h
    | some d =>
      obtain ⟨c, st, _, _, _, hv⟩ := (image.config.config_ok_iff otypes d cfg).mp h
      have := (image.config.validate_ok_iff cfg).mp hv
      exact ⟨this.2.1, this.2.2, this.1⟩
  refine ⟨?_, key⟩
  intro d c hjs hp hbad
  subst hjs
  cases hres : image.config.config otypes (some d) with
  | error e => exact ⟨e, rfl⟩
  | ok cfg =>
    exfalso
    obtain ⟨c2, st, hp2, _, hcfg, _⟩ := (image.config.config_ok_iff otypes d cfg).mp hres
    have hc : c2 = c := by
      rw [hp] at hp2
      exact (Except.ok.inj hp2).symm
    subst hc
    obtain ⟨hw, hh, hco⟩ := key cfg hres
    have e1 : cfg.width = c2.width := by rw [hcfg]; exact image.config.derive_width c2
    have e2 : cfg.height = c2.height := by rw [hcfg]; exact image.config.derive_height c2
    have e3 : cfg.crop_offset = (image.config.derive c2).1.crop_offset := by rw [hcfg]
    rw [e1] at hw
    rw [e2] at hh
    rw [e3] at hco
    rcases hbad with h | h | h
    · omega
    · omega
    · exact absurd hco (not_le.mpr h)

/-- C1 at a concrete document: width 0 with every other field valid is rejected. -/
theorem image_config_construction_validates_witness :
    ∃ e, image.config.config test_otypes (some { height := some 10, width := some 0 })
      = .error e :=
  (image_config_construction_validates test_otypes
      (some { height := some 10, width := some 0 })).1
    { height := some 10, width := some 0 }
    { height := 10, width := 0, seed := 0, type_string := "uint8_t", do_area_scale := false,
      channel_major := true, channels := 3, scale := ⟨1, 1⟩, angle := ⟨0, 0⟩,
      lighting := ⟨0, 0⟩, horizontal_distortion := ⟨1, 1⟩, photometric := ⟨0, 0⟩,
      crop_offset := ⟨1/2, 1/2⟩, flip_distribution := ⟨0⟩, flip_enable := false,
      center := true, shape_type := none }
    rfl rfl (Or.inl (le_refl 0))

theorem image.config.parse_channels (d : image.document) (n : Option Nat) (c : image.config)
    (h : image.config.parse d = .ok c) :
    image.config.parse { d with channels := n } = .ok { c with channels := n.getD 3 } := by
  unfold image.config.parse at h ⊢
  cases hh : d.height with
  | none => simp [hh] at h
  | some hv =>
    cases hw : d.width with
    | none => simp [hh, hw] at h
    | some wv =>
      simp only [hh, hw, Except.ok.injEq] at h ⊢
      rw [← h]

theorem image.config.parse_channels_error (d : image.document) (n : Option Nat) (e : error)
    (h : image.config.parse d = .error e) :
    image.config.parse { d with channels := n } = .error e := by
  unfold image.config.parse at h ⊢
  cases hh : d.height with
  | none => simpa [hh] using h
  | some hv =>
    cases hw : d.width with
    | none => simpa [hh, hw] using h
    | some wv => simp [hh, hw] at h

/-- The outcome of validation, of the shape-type lookup and of the construction as
a whole does not depend on the channel count. -/
theorem image.config.config_channels_irrelevant (otypes : String → Option output_type)
    (d : image.document) (n : Option Nat) :
    (∃ c, image.config.config otypes (some { d with channels := n }) = .ok c) ↔
      (∃ c, image.config.config otypes (some d) = .ok c) := by
  have step : ∀ (d1 : image.document) (m : Option Nat),
      (∃ c, image.config.config otypes (some d1) = .ok c) →
      (∃ c, image.config.config otypes (some { d1 with channels := m }) = .ok c) := by
    intro d1 m ⟨cfg, h⟩
    obtain ⟨c, st, hp, hs, hcfg, hv⟩ := (image.config.config_ok_iff otypes d1 cfg).mp h
    have hp2 := image.config.parse_channels d1 m c hp
    have hts : (image.config.derive { c with channels := m.getD 3 }).1.type_string
        = (image.config.derive c).1.type_string := by
      unfold image.config.derive
      by_cases h1 : c.flip_enable <;> by_cases h2 : c.center <;> simp [h1, h2]
    have hco : (image.config.derive { c with channels := m.getD 3 }).1.crop_offset
        = (image.config.derive c).1.crop_offset := by
      unfold image.config.derive
      by_cases h1 : c.flip_enable <;> by_cases h2 : c.center <;> simp [h1, h2]
    obtain ⟨t, ht⟩ : ∃ t, otypes (image.config.derive c).1.type_string = some t := by
      unfold add_shape_type at hs
      cases ho : otypes (image.config.derive c).1.type_string with
      | none => simp [ho] at hs
      | some t => exact ⟨t, rfl⟩
    have hv2 := (image.config.validate_ok_iff cfg).mp hv
    rw [hcfg] at hv2
    simp only [image.config.derive_width, image.config.derive_height] at hv2
    refine ⟨_, (image.config.config_ok_iff otypes _ _).mpr
      ⟨_, ⟨(image.config.derive { c with channels := m.getD 3 }).2, t⟩, hp2, ?_, rfl, ?_⟩⟩
    · unfold add_shape_type
      rw [hts, ht]
    · rw [image.config.validate_ok_iff]
      simp only [image.config.derive_width, image.config.derive_height, hco]
      exact hv2
  constructor
  · intro h
    have := step { d with channels := n } d.channels h
    simpa using this
  · exact step d n

/-- Sufficient conditions for the construction to succeed, with the value built. -/
theorem image.config.config_ok_of (otypes : String → Option output_type)
    (d : image.document) (c : image.config) (t : output_type)
    (hp : image.config.parse d = .ok c)
    (ht : otypes (image.config.derive c).1.type_string = some t)
    (hco : (image.config.derive c).1.crop_offset.a ≤ (image.config.derive c).1.crop_offset.b)
    (hw : 0 < c.width) (hh : 0 < c.height) :
    image.config.config otypes (some d) =
      .ok { (image.config.derive c).1 with shape_type := some ⟨(image.config.derive c).2, t⟩ } := by
  refine (image.config.config_ok_iff otypes d _).mpr ⟨c, ⟨(image.config.derive c).2, t⟩, hp, ?_, rfl, ?_⟩
  · unfold add_shape_type
    rw [ht]
  · rw [image.config.validate_ok_iff]
    simp only [image.config.derive_width, image.config.derive_height]
    exact ⟨hco, hw, hh⟩

/-- C2, as stated, fails: a document with 2 channels (all other fields valid)
constructs an `image::config`, and the configuration holds 2 channels. -/
theorem image_config_accepts_two_channels :
    ∃ cfg, image.config.config test_otypes
        (some { height := some 10, width := some 10, channels := some 2 }) = .ok cfg ∧
      cfg.channels = 2 ∧ ¬ (cfg.channels = 1 ∨ cfg.channels = 3) :=
  ⟨_, image.config.config_ok_of test_otypes _
      { height := 10, width := 10, seed := 0, type_string := "uint8_t",
        do_area_scale := false, channel_major := true, channels := 2, scale := ⟨1, 1⟩,
        angle := ⟨0, 0⟩, lighting := ⟨0, 0⟩, horizontal_distortion := ⟨1, 1⟩,
        photometric := ⟨0, 0⟩, crop_offset := ⟨1/2, 1/2⟩, flip_distribution := ⟨0⟩,
        flip_enable := false, center := true, shape_type := none }
      ⟨0, 1, 0, 255⟩ rfl (by decide) (le_refl _) (by decide) (by decide),
    rfl, by decide⟩

/-- C2, amended: the channel count is not checked when `image::config` is
constructed (whether construction succeeds does not depend on it); it is checked
when an `image::extractor` is constructed from the configuration, which succeeds
exactly when the channel count is 1 or 3 and raises an error for every other
value. -/
theorem image_extractor_checks_channels :
    (∀ (otypes : String → Option output_type) (d : image.document) (n : Option Nat),
      (∃ c, image.config.config otypes (some { d with channels := n }) = .ok c) ↔
        (∃ c, image.config.config otypes (some d) = .ok c)) ∧
    (∀ cfg : image.config,
      (∃ x, image.extractor.extractor cfg = .ok x) ↔ (cfg.channels = 1 ∨ cfg.channels = 3)) ∧
    (∀ cfg : image.config, ¬ (cfg.channels = 1 ∨ cfg.channels = 3) →
      ∃ e, image.extractor.extractor cfg = .error e) := by
  refine ⟨image.config.config_channels_irrelevant, ?_, ?_⟩
  · intro cfg
    unfold image.extractor.extractor
    by_cases h : cfg.channels = 1 ∨ cfg.channels = 3
    · rcases h with h | h <;> simp [h]
    · have h1 : cfg.channels ≠ 1 := fun e => h (Or.inl e)
      have h3 : cfg.channels ≠ 3 := fun e => h (Or.inr e)
      simp [h1, h3]
  · intro cfg h
    unfold image.extractor.extractor
    have h1 : cfg.channels ≠ 1 := fun e => h (Or.inl e)
    have h3 : cfg.channels ≠ 3 := fun e => h (Or.inr e)
    simp [h1, h3]

/-- C2 amended, at a concrete configuration: the 4-channel configuration built from
a valid document is refused by the extractor. -/
theorem image_extractor_checks_channels_witness :
    ∃ e, image.extractor.extractor
      { height := 10, width := 10, seed := 0, type_string := "uint8_t",
        do_area_scale := false, channel_major := true, channels := 4, scale := ⟨1, 1⟩,
        angle := ⟨0, 0⟩, lighting := ⟨0, 0⟩, horizontal_distortion := ⟨1, 1⟩,
        photometric := ⟨0, 0⟩, crop_offset := ⟨1/2, 1/2⟩, flip_distribution := ⟨0⟩,
        flip_enable := false, center := true,
        shape_type := some ⟨[4, 10, 10], ⟨0, 1, 0, 255⟩⟩ } = .error e :=
  image_extractor_checks_channels.2.2 _ (by decide)

/-! ## block_iterator_sequential -/

/-- One `read` in a state whose index is below the block count. -/
theorem block_iterator_sequential.read_in_range (bits N i : Nat)
    (hN : N < 2 ^ bits) (hi : i < N) :
    block_iterator_sequential.read bits { _count := N, _i := i } =
      (i, { _count := N, _i := (i + 1) % N }) := by
  have hlt : i + 1 < 2 ^ bits := by omega
  unfold block_iterator_sequential.read
  simp only [Nat.mod_eq_of_lt hlt, beq_iff_eq]
  by_cases h : i + 1 = N
  · subst h
    simp [block_iterator_sequential.reset]
  · have h2 : i + 1 < N := by omega
    simp [h, Nat.mod_eq_of_lt h2]

/-- The state after `k` reads of a fresh iterator over `N` blocks. -/
theorem block_iterator_sequential.reads_state (bits N : Nat) (hN1 : 1 ≤ N)
    (hN : N < 2 ^ bits) (k : Nat) :
    (block_iterator_sequential.reads bits k
      (block_iterator_sequential.construct N)).2 =
      { _count := N, _i := k % N } := by
  induction k with
  | zero =>
    simp [block_iterator_sequential.reads,
      block_iterator_sequential.construct]
  | succ k ih =>
    have hk : k % N < N := Nat.mod_lt _ (by omega)
    simp only [block_iterator_sequential.reads, ih,
      block_iterator_sequential.read_in_range bits N (k % N) hN hk]
    have e : (k % N + 1) % N = (k + 1) % N := by
      rw [Nat.add_mod (k % N) 1 N, Nat.mod_mod, ← Nat.add_mod]
    rw [e]

/-- C3: for every block count `N >= 1` (representable in the counter type) and
every `k`, on a freshly constructed iterator the `k`-th call of `read` (0-based)
asks the loader for block `k mod N` and leaves the index at `(k+1) mod N`; after
exactly `N` reads the index is 0 again, with no call of `reset` from outside; and
the index is always below `N`. -/
theorem block_iterator_sequential_read_cycles (bits N : Nat) (hN1 : 1 ≤ N)
    (hN : N < 2 ^ bits) (k : Nat) :
    (block_iterator_sequential.read bits
        (block_iterator_sequential.reads bits k
          (block_iterator_sequential.construct N)).2).1 = k % N ∧
    (block_iterator_sequential.reads bits (k + 1)
        (block_iterator_sequential.construct N)).1.get? k = some (k % N) ∧
    (block_iterator_sequential.reads bits (k + 1)
        (block_iterator_sequential.construct N)).2._i = (k + 1) % N ∧
    (block_iterator_sequential.reads bits N
        (block_iterator_sequential.construct N)).2._i = 0 ∧
    (block_iterator_sequential.reads bits k
        (block_iterator_sequential.construct N)).2._i < N := by
  have hk : k % N < N := Nat.mod_lt _ (by omega)
  have hlen : ∀ (j : Nat) (s : block_iterator_sequential),
      (block_iterator_sequential.reads bits j s).1.length = j := by
    intro j s
    induction j with
    | zero => simp [block_iterator_sequential.reads]
    | succ j ih => simp [block_iterator_sequential.reads, ih]
  refine ⟨?_, ?_, ?_, ?_, ?_⟩
  · rw [block_iterator_sequential.reads_state bits N hN1 hN k,
      block_iterator_sequential.read_in_range bits N (k % N) hN hk]
  · simp only [block_iterator_sequential.reads]
    rw [block_iterator_sequential.reads_state bits N hN1 hN k,
      block_iterator_sequential.read_in_range bits N (k % N) hN hk]
    rw [List.get?_eq_getElem?, List.getElem?_append_right (by rw [hlen])]
    simp [hlen]
  · rw [block_iterator_sequential.reads_state bits N hN1 hN (k + 1)]
  · rw [block_iterator_sequential.reads_state bits N hN1 hN N]
    simp
  · rw [block_iterator_sequential.reads_state bits N hN1 hN k]
    exact hk

/-- C3 at `N = 3`, 32-bit counters, fourth call (`k = 3`): block 0 is requested
again and the index moves to 1. -/
theorem block_iterator_sequential_read_cycles_witness :
    (block_iterator_sequential.read 32
        (block_iterator_sequential.reads 32 3
          (block_iterator_sequential.construct 3)).2).1 = 3 % 3 ∧
    (block_iterator_sequential.reads 32 (3 + 1)
        (block_iterator_sequential.construct 3)).1.get? 3 = some (3 % 3) ∧
    (block_iterator_sequential.reads 32 (3 + 1)
        (block_iterator_sequential.construct 3)).2._i = (3 + 1) % 3 ∧
    (block_iterator_sequential.reads 32 3
        (block_iterator_sequential.construct 3)).2._i = 0 ∧
    (block_iterator_sequential.reads 32 3
        (block_iterator_sequential.construct 3)).2._i < 3 :=
  block_iterator_sequential_read_cycles 32 3 (by decide) (by decide) 3

/-! ## Geometry helpers -/

theorem image.cropbox_max_proportional_aspect (i o : Size2f)
    (how : 0 < o.width) (hoh : 0 < o.height) :
    (image.cropbox_max_proportional i o).width * o.height =
      (image.cropbox_max_proportional i o).height * o.width := by
  have h1 : o.width ≠ 0 := ne_of_gt how
  have h2 : o.height ≠ 0 := ne_of_gt hoh
  unfold image.cropbox_max_proportional
  by_cases h : i.height * (o.width / o.height) ≤ i.width
  · rw [if_pos h]
    field_simp
  · rw [if_neg h]
    field_simp

theorem image.cropbox_max_proportional_fits (i o : Size2f)
    (how : 0 < o.width) (hoh : 0 < o.height) :
    (image.cropbox_max_proportional i o).width ≤ i.width ∧
      (image.cropbox_max_proportional i o).height ≤ i.height := by
  have hr : 0 < o.width / o.height := div_pos how hoh
  unfold image.cropbox_max_proportional
  by_cases h : i.height * (o.width / o.height) ≤ i.width
  · rw [if_pos h]
    exact ⟨h, le_refl _⟩
  · rw [if_neg h]
    refine ⟨le_refl _, ?_⟩
    rw [div_le_iff₀ hr]
    exact le_of_lt (not_le.mp h)

theorem image.cropbox_max_proportional_touches (i o : Size2f) :
    (image.cropbox_max_proportional i o).width = i.width ∨
      (image.cropbox_max_proportional i o).height = i.height := by
  unfold image.cropbox_max_proportional
  by_cases h : i.height * (o.width / o.height) ≤ i.width
  · rw [if_pos h]
    exact Or.inr rfl
  · rw [if_neg h]
    exact Or.inl rfl

/-- C7: for every bounding size `in` and target box `out` with positive sides,
`cropbox_max_proportional(in, out)` has the aspect ratio of `out`, does not exceed
`in` on either side and equals `in` on at least one side; no box of that aspect
ratio that fits in `in` is larger; the result depends only on the aspect ratio of
`out`; and on `in = (100,50)` it gives `(100,50)` for `out = (200,100)` and for
`out = (50,25)`, `(100,25)` for `out = (200,50)`, `(25,50)` for `out = (50,100)` and
`(50,50)` for `out = (10,10)`. -/
theorem cropbox_max_proportional_is_largest_fit :
    (∀ i o : Size2f, 0 < i.width → 0 < i.height → 0 < o.width → 0 < o.height →
      (image.cropbox_max_proportional i o).width * o.height =
          (image.cropbox_max_proportional i o).height * o.width ∧
        (image.cropbox_max_proportional i o).width ≤ i.width ∧
        (image.cropbox_max_proportional i o).height ≤ i.height ∧
        ((image.cropbox_max_proportional i o).width = i.width ∨
          (image.cropbox_max_proportional i o).height = i.height) ∧
        (∀ b : Size2f, b.width * o.height = b.height * o.width →
          b.width ≤ i.width → b.height ≤ i.height →
          b.width ≤ (image.cropbox_max_proportional i o).width ∧
            b.height ≤ (image.cropbox_max_proportional i o).height) ∧
        (∀ o2 : Size2f, 0 < o2.width → 0 < o2.height →
          o.width * o2.height = o2.width * o.height →
          image.cropbox_max_proportional i o2 = image.cropbox_max_proportional i o)) ∧
    image.cropbox_max_proportional ⟨100, 50⟩ ⟨200, 100⟩ = ⟨100, 50⟩ ∧
    image.cropbox_max_proportional ⟨100, 50⟩ ⟨50, 25⟩ = ⟨100, 50⟩ ∧
    image.cropbox_max_proportional ⟨100, 50⟩ ⟨200, 50⟩ = ⟨100, 25⟩ ∧
    image.cropbox_max_proportional ⟨100, 50⟩ ⟨50, 100⟩ = ⟨25, 50⟩ ∧
    image.cropbox_max_proportional ⟨100, 50⟩ ⟨10, 10⟩ = ⟨50, 50⟩ := by
  refine ⟨?_, ?_, ?_, ?_, ?_, ?_⟩
  · intro i o _ _ how hoh
    have hasp := image.cropbox_max_proportional_aspect i o how hoh
    have hfit := image.cropbox_max_proportional_fits i o how hoh
    have htch := image.cropbox_max_proportional_touches i o
    refine ⟨hasp, hfit.1, hfit.2, htch, ?_, ?_⟩
    · intro b hb hbw hbh
      rcases htch with hw | hh
      · refine ⟨by rw [hw]; exact hbw, ?_⟩
        have e1 : b.height * o.width ≤ (image.cropbox_max_proportional i o).height * o.width := by
          rw [← hb, ← hasp, hw]
          exact mul_le_mul_of_nonneg_right hbw (le_of_lt hoh)
        exact le_of_mul_le_mul_right e1 how
      · refine ⟨?_, by rw [hh]; exact hbh⟩
        have e1 : b.width * o.height ≤ (image.cropbox_max_proportional i o).width * o.height := by
          rw [hb, hasp, hh]
          exact mul_le_mul_of_nonneg_right hbh (le_of_lt how)
        exact le_of_mul_le_mul_right e1 hoh
    · intro o2 how2 hoh2 hprop
      have hr : o2.width / o2.height = o.width / o.height := by
        rw [div_eq_div_iff (ne_of_gt hoh2) (ne_of_gt hoh)]
        linarith
      unfold image.cropbox_max_proportional
      simp only [hr]
  all_goals (unfold image.cropbox_max_proportional; norm_num)

/-- C7 at `in = (100,50)`, `out = (200,50)`: aspect ratio kept, inside `in`, and one
side equal to the side of `in`. -/
theorem cropbox_max_proportional_is_largest_fit_witness :
    (image.cropbox_max_proportional ⟨100, 50⟩ ⟨200, 50⟩).width * 50 =
        (image.cropbox_max_proportional ⟨100, 50⟩ ⟨200, 50⟩).height * 200 ∧
      (image.cropbox_max_proportional ⟨100, 50⟩ ⟨200, 50⟩).width ≤ 100 ∧
      (image.cropbox_max_proportional ⟨100, 50⟩ ⟨200, 50⟩).height ≤ 50 ∧
      ((image.cropbox_max_proportional ⟨100, 50⟩ ⟨200, 50⟩).width = 100 ∨
        (image.cropbox_max_proportional ⟨100, 50⟩ ⟨200, 50⟩).height = 50) :=
  have h := cropbox_max_proportional_is_largest_fit.1 ⟨100, 50⟩ ⟨200, 50⟩
    (by norm_num) (by norm_num) (by norm_num) (by norm_num)
  ⟨h.1, h.2.1, h.2.2.1, h.2.2.2.1⟩

/-! ## image::param_factory -/

/-- C4: for every source image size with positive sides, every positive
horizontal-distortion factor, every scale factor in `(0,1]` and every pair of
offset fractions in `[0,1]` (the configuration having positive width and height,
and area scale not requested), `make_params` computes a crop box (the one it
stores, rounded, in the params), and that box, taken as real-valued origin and
size, lies within the source image:
`origin.x >= 0`, `origin.y >= 0`, `origin.x + width <= source.width` and
`origin.y + height <= source.height`. -/
theorem make_params_cropbox_within_source (_cfg : image.config) (_dre : image.draws)
    (in_size : Size2i)
    (hcw : 0 < _cfg.width) (hch : 0 < _cfg.height) (harea : _cfg.do_area_scale = false)
    (hiw : 0 < in_size.width) (hih : 0 < in_size.height)
    (hhd : 0 < _dre.horizontal_distortion)
    (hs0 : 0 < _dre.scale) (hs1 : _dre.scale ≤ 1)
    (hx0 : 0 ≤ _dre.c_off_x) (hx1 : _dre.c_off_x ≤ 1)
    (hy0 : 0 ≤ _dre.c_off_y) (hy1 : _dre.c_off_y ≤ 1) :
    ∃ origin box, image.param_factory.make_cropbox _cfg _dre in_size = .ok (origin, box) ∧
      (∃ p, image.param_factory.make_params _cfg _dre in_size = .ok p ∧
        p.cropbox = { x := cvRound origin.x, y := cvRound origin.y,
                      width := cvRound box.width, height := cvRound box.height }) ∧
      0 ≤ origin.x ∧ 0 ≤ origin.y ∧
      origin.x + box.width ≤ in_size.width ∧
      origin.y + box.height ≤ in_size.height := by
  have hcw' : (0 : ℚ) < _cfg.width := by exact_mod_cast hcw
  have hch' : (0 : ℚ) < _cfg.height := by exact_mod_cast hch
  have hiw' : (0 : ℚ) < in_size.width := by exact_mod_cast hiw
  have hih' : (0 : ℚ) < in_size.height := by exact_mod_cast hih
  have how : 0 < (_cfg.width : ℚ) * _dre.horizontal_distortion := mul_pos hcw' hhd
  obtain ⟨hfw, hfh⟩ := image.cropbox_max_proportional_fits
    ⟨in_size.width, in_size.height⟩ ⟨_cfg.width * _dre.horizontal_distortion, _cfg.height⟩
    how hch'
  have hasp := image.cropbox_max_proportional_aspect
    ⟨in_size.width, in_size.height⟩ ⟨_cfg.width * _dre.horizontal_distortion, _cfg.height⟩
    how hch'
  have htch := image.cropbox_max_proportional_touches
    ⟨in_size.width, in_size.height⟩ ⟨_cfg.width * _dre.horizontal_distortion, _cfg.height⟩
  simp only at hfw hfh hasp htch
  -- the proportional box has non-negative sides
  have hpw : 0 ≤ (image.cropbox_max_proportional ⟨in_size.width, in_size.height⟩
      ⟨_cfg.width * _dre.horizontal_distortion, _cfg.height⟩).width := by
    rcases htch with h | h
    · rw [h]; exact le_of_lt hiw'
    · rw [h] at hasp
      have : 0 < (image.cropbox_max_proportional ⟨in_size.width, in_size.height⟩
          ⟨_cfg.width * _dre.horizontal_distortion, _cfg.height⟩).width * (_cfg.height : ℚ) := by
        rw [hasp]; exact mul_pos hih' how
      exact le_of_lt (pos_of_mul_pos_left this (le_of_lt hch'))
  have hph : 0 ≤ (image.cropbox_max_proportional ⟨in_size.width, in_size.height⟩
      ⟨_cfg.width * _dre.horizontal_distortion, _cfg.height⟩).height := by
    rcases htch with h | h
    · rw [h] at hasp
      have : 0 < (image.cropbox_max_proportional ⟨in_size.width, in_size.height⟩
          ⟨_cfg.width * _dre.horizontal_distortion, _cfg.height⟩).height *
            ((_cfg.width : ℚ) * _dre.horizontal_distortion) := by
        rw [← hasp]; exact mul_pos hiw' hch'
      exact le_of_lt (pos_of_mul_pos_left this (le_of_lt how))
    · rw [h]; exact le_of_lt hih'
  have hbox : image.param_factory.make_cropbox _cfg _dre in_size =
      .ok (image.cropbox_shift ⟨in_size.width, in_size.height⟩
            (image.cropbox_linear_scale
              (image.cropbox_max_proportional ⟨in_size.width, in_size.height⟩
                ⟨_cfg.width * _dre.horizontal_distortion, _cfg.height⟩) _dre.scale)
            _dre.c_off_x _dre.c_off_y,
          image.cropbox_linear_scale
            (image.cropbox_max_proportional ⟨in_size.width, in_size.height⟩
              ⟨_cfg.width * _dre.horizontal_distortion, _cfg.height⟩) _dre.scale) := by
    simp only [image.param_factory.make_cropbox, harea]
    rfl
  refine ⟨_, _, hbox, ?_, ?_, ?_, ?_, ?_⟩
  · unfold image.param_factory.make_params
    rw [hbox]
    exact ⟨_, rfl, rfl⟩
  all_goals simp only [image.cropbox_shift, image.cropbox_linear_scale]
  all_goals generalize (image.cropbox_max_proportional ⟨in_size.width, in_size.height⟩
      ⟨_cfg.width * _dre.horizontal_distortion, _cfg.height⟩).width = pw at *
  all_goals generalize (image.cropbox_max_proportional ⟨in_size.width, in_size.height⟩
      ⟨_cfg.width * _dre.horizontal_distortion, _cfg.height⟩).height = ph at *
  · have : pw * _dre.scale ≤ in_size.width := by nlinarith
    exact mul_nonneg (by linarith) hx0
  · have : ph * _dre.scale ≤ in_size.height := by nlinarith
    exact mul_nonneg (by linarith) hy0
  · have h1 : pw * _dre.scale ≤ in_size.width := by nlinarith
    nlinarith
  · have h1 : ph * _dre.scale ≤ in_size.height := by nlinarith
    nlinarith

/-- C4 at the configuration of `TEST(image,passthrough)` (width 512, height 256), a
300 x 200 source, horizontal distortion 1, scale 1/2 and both offsets 1/4. -/
theorem make_params_cropbox_within_source_witness :
    ∃ origin box,
      image.param_factory.make_cropbox passthrough_config quarter_offset_draws
        { width := 300, height := 200 } = .ok (origin, box) ∧
      (∃ p, image.param_factory.make_params passthrough_config quarter_offset_draws
          { width := 300, height := 200 } = .ok p ∧
        p.cropbox = { x := cvRound origin.x, y := cvRound origin.y,
                      width := cvRound box.width, height := cvRound box.height }) ∧
      0 ≤ origin.x ∧ 0 ≤ origin.y ∧
      origin.x + box.width ≤ ((300 : Int) : ℚ) ∧ origin.y + box.height ≤ ((200 : Int) : ℚ) :=
  make_params_cropbox_within_source _ _ _ (by decide) (by decide) rfl (by decide) (by decide)
    (by norm_num [quarter_offset_draws]) (by norm_num [quarter_offset_draws])
    (by norm_num [quarter_offset_draws]) (by norm_num [quarter_offset_draws])
    (by norm_num [quarter_offset_draws]) (by norm_num [quarter_offset_draws])
    (by norm_num [quarter_offset_draws])

/-! ## image::transformer -/

/-- The image `transform_one` produces from `m` for a crop box `(x0,y0,w,h)` when
rotation, resizing and both jitters are the identity. -/
theorem image.transformer.transform_one_crop (ops : cv_ops) (p : image.params) (m : Mat)
    (x0 y0 w h : Nat)
    (hangle : p.angle = 0) (hph : p.photometric = []) (hl : p.lighting = [])
    (hbox : p.cropbox = { x := x0, y := y0, width := w, height := h })
    (hout : p.output_size = { width := w, height := h })
    (hx : x0 + w ≤ m.cols) (hy : y0 + h ≤ m.rows) :
    image.transformer.transform_one ops p m =
      .ok { rows := h, cols := w, channels := m.channels,
            data := ((m.data.drop y0).take h).map
              (fun row => if p.flip then ((row.drop x0).take w).reverse
                          else (row.drop x0).take w) } := by
  have hroi : Mat.roi m { x := x0, y := y0, width := w, height := h } =
      .ok { rows := h, cols := w, channels := m.channels,
            data := ((m.data.drop y0).take h).map (fun row => (row.drop x0).take w) } := by
    unfold Mat.roi
    have c : (0 : Int) ≤ (x0 : Int) ∧ (0 : Int) ≤ (w : Int) ∧ (x0 : Int) + (w : Int) ≤ (m.cols : Int) ∧
        (0 : Int) ≤ (y0 : Int) ∧ (0 : Int) ≤ (h : Int) ∧ (y0 : Int) + (h : Int) ≤ (m.rows : Int) := by
      refine ⟨by omega, by omega, by omega, by omega, by omega, by omega⟩
    simp only [c, and_self, if_true, Int.toNat_ofNat]
  unfold image.transformer.transform_one
  simp only [image.rotate, hangle, if_true, hbox, hroi, hout, hph, hl, image.resize,
    image.photometric.cbsjitter, image.photometric.lighting, Mat.size, bind, Except.bind,
    pure, Except.pure]
  by_cases hf : p.flip = true
  · simp [hf, cv_flip_horizontal, Function.comp_def]
  · simp [hf]

theorem image.transformer.transform_all_crop (ops : cv_ops) (p : image.params)
    (x0 y0 w h : Nat)
    (hangle : p.angle = 0) (hph : p.photometric = []) (hl : p.lighting = [])
    (hbox : p.cropbox = { x := x0, y := y0, width := w, height := h })
    (hout : p.output_size = { width := w, height := h })
    (l : List Mat) (hin : ∀ m ∈ l, x0 + w ≤ m.cols ∧ y0 + h ≤ m.rows) :
    image.transformer.transform_all ops p l =
      .ok (l.map (fun m : Mat =>
        ({ rows := h, cols := w, channels := m.channels,
           data := ((m.data.drop y0).take h).map
              (fun row => if p.flip then ((row.drop x0).take w).reverse
                          else (row.drop x0).take w) } : Mat))) := by
  induction l with
  | nil => rfl
  | cons m rest ih =>
    have hm := hin m (List.mem_cons_self _ _)
    have hrest := ih (fun m2 h2 => hin m2 (List.mem_cons_of_mem _ h2))
    simp only [image.transformer.transform_all,
      image.transformer.transform_one_crop ops p m x0 y0 w h hangle hph hl hbox hout hm.1 hm.2,
      hrest, bind, Except.bind, pure, Except.pure, List.map_cons]

/-- Images that all have one size pass the size check. -/
theorem image.decoded.all_images_are_same_size_of (l : List Mat) (s : Size2i)
    (h : ∀ m ∈ l, m.size = s) : image.decoded.all_images_are_same_size l = true := by
  cases l with
  | nil => rfl
  | cons m rest =>
    simp only [image.decoded.all_images_are_same_size, List.all_eq_true, beq_iff_eq]
    intro x hx
    rw [h x (List.mem_cons_of_mem _ hx), h m (List.mem_cons_self _ _)]

/-- Pixel `(x, y)` of the cropped (and possibly flipped) image is the source pixel
at the shifted (and possibly mirrored) column. -/
theorem Mat.crop_pixel (m : Mat) (hwf : m.wf) (x0 y0 w h : Nat) (flip : Bool)
    (hx : x0 + w ≤ m.cols) (hy : y0 + h ≤ m.rows) (x y : Nat) (hxw : x < w) (hyh : y < h) :
    Mat.pixel { rows := h, cols := w, channels := m.channels,
                data := ((m.data.drop y0).take h).map
                  (fun row => if flip then ((row.drop x0).take w).reverse
                              else (row.drop x0).take w) } y x =
      m.pixel (y0 + y) (if flip then x0 + w - 1 - x else x0 + x) ∧
    (m.pixel (y0 + y) (if flip then x0 + w - 1 - x else x0 + x)).isSome = true := by
  obtain ⟨hlen, hrows⟩ := hwf
  have hy2 : y0 + y < m.data.length := by omega
  have hrow : m.data[y0 + y]? = some (m.data[y0 + y]) := List.getElem?_eq_getElem hy2
  have hrl : (m.data[y0 + y]).length = m.cols := (hrows _ (List.getElem_mem hy2)).1
  unfold Mat.pixel
  simp only [List.getElem?_map, List.getElem?_take, hyh, if_true, List.getElem?_drop, hrow,
    Option.map_some', Option.some_bind]
  cases flip with
  | false =>
    simp only [Bool.false_eq_true, if_false, List.getElem?_take, hxw, if_true,
      List.getElem?_drop]
    refine ⟨trivial, ?_⟩
    rw [List.getElem?_eq_getElem (by omega)]
    rfl
  | true =>
    simp only [if_true]
    have hl : ((m.data[y0 + y].drop x0).take w).length = w := by
      rw [List.length_take, List.length_drop]
      omega
    rw [List.getElem?_reverse (by omega), hl, List.getElem?_take, if_pos (by omega),
      List.getElem?_drop]
    have e : x0 + (w - 1 - x) = x0 + w - 1 - x := by omega
    rw [e]
    refine ⟨rfl, ?_⟩
    rw [List.getElem?_eq_getElem (by omega)]
    rfl

/-- C5: for every decoded input (well-formed images) and every params with angle 0,
empty photometric and lighting vectors, a crop box `(x0,y0,w,h)` inside each
source image and output size `(w,h)`, `image::transformer::transform` returns one
image per input image, each of size `w x h`, whose pixel at `(x,y)` is the source
pixel at `(x0+x, y0+y)` when flip is off and the source pixel at
`(x0+w-1-x, y0+y)` when flip is on. -/
theorem transform_crop_then_flip (ops : cv_ops) (p : image.params) (d : image.decoded)
    (x0 y0 w h : Nat)
    (hangle : p.angle = 0) (hph : p.photometric = []) (hl : p.lighting = [])
    (hbox : p.cropbox = { x := x0, y := y0, width := w, height := h })
    (hout : p.output_size = { width := w, height := h })
    (hin : ∀ m ∈ d._images, m.wf ∧ x0 + w ≤ m.cols ∧ y0 + h ≤ m.rows) :
    ∃ out, image.transformer.transform ops p d = .ok (some out) ∧
      out.get_image_count = d.get_image_count ∧
      ∀ i src, d.get_image i = some src →
        ∃ o, out.get_image i = some o ∧ o.size = { width := w, height := h } ∧
          ∀ x y, x < w → y < h →
            o.pixel y x = src.pixel (y0 + y) (if p.flip then x0 + w - 1 - x else x0 + x) ∧
            (o.pixel y x).isSome = true := by
  have hall := image.transformer.transform_all_crop ops p x0 y0 w h hangle hph hl hbox hout
    d._images (fun m hm => (hin m hm).2)
  have hsame := image.decoded.all_images_are_same_size_of
    (d._images.map (fun m : Mat =>
      ({ rows := h, cols := w, channels := m.channels,
         data := ((m.data.drop y0).take h).map
            (fun row => if p.flip then ((row.drop x0).take w).reverse
                        else (row.drop x0).take w) } : Mat)))
    { width := w, height := h }
    (by
      intro m hm
      obtain ⟨a, _, rfl⟩ := List.mem_map.mp hm
      rfl)
  refine ⟨{ _images := d._images.map (fun m : Mat =>
      ({ rows := h, cols := w, channels := m.channels,
         data := ((m.data.drop y0).take h).map
            (fun row => if p.flip then ((row.drop x0).take w).reverse
                        else (row.drop x0).take w) } : Mat)) }, ?_, ?_, ?_⟩
  · unfold image.transformer.transform
    simp only [hall, bind, Except.bind, image.decoded.add_list, List.nil_append, hsame,
      if_true, pure, Except.pure]
    rfl
  · simp [image.decoded.get_image_count]
  · intro i src hsrc
    simp only [image.decoded.get_image] at hsrc ⊢
    rw [List.getElem?_map, hsrc]
    refine ⟨_, rfl, rfl, ?_⟩
    intro x y hxw hyh
    have hm : src ∈ d._images := List.mem_iff_getElem?.mpr ⟨i, hsrc⟩
    obtain ⟨hwf, hx, hy⟩ := hin src hm
    have := Mat.crop_pixel src hwf x0 y0 w h p.flip hx hy x y hxw hyh
    exact ⟨this.1, by rw [this.1]; exact this.2⟩

theorem generate_indexed_image_of_wf (rows cols : Nat) :
    (generate_indexed_image_of rows cols).wf := by
  unfold generate_indexed_image_of Mat.wf
  refine ⟨by simp, ?_⟩
  intro r hr
  obtain ⟨row, _, rfl⟩ := List.mem_map.mp hr
  refine ⟨by simp, ?_⟩
  intro p hp
  obtain ⟨col, _, rfl⟩ := List.mem_map.mp hp
  refine ⟨rfl, ?_⟩
  intro v hv
  simp only [List.mem_cons, List.mem_singleton, List.not_mem_nil, or_false] at hv
  rcases hv with rfl | rfl | rfl
  · exact Nat.mod_lt _ (by decide)
  · exact Nat.mod_lt _ (by decide)
  · decide

/-- C5 on the input of `TEST(image,transform_flip)`: the indexed 256 x 256 image,
crop box `(100,150,20,20)`, output size `(20,20)`, flip on. -/
theorem transform_crop_then_flip_witness :
    ∃ out, image.transformer.transform cv_ops.unchanged
        { cropbox := { x := 100, y := 150, width := 20, height := 20 },
          output_size := { width := 20, height := 20 }, angle := 0, flip := true,
          lighting := [], color_noise_std := 0, photometric := [] }
        { _images := [generate_indexed_image] } = .ok (some out) ∧
      out.get_image_count = image.decoded.get_image_count { _images := [generate_indexed_image] } ∧
      ∀ i src, image.decoded.get_image { _images := [generate_indexed_image] } i = some src →
        ∃ o, out.get_image i = some o ∧ o.size = { width := (20 : Nat), height := (20 : Nat) } ∧
          ∀ x y, x < 20 → y < 20 →
            o.pixel y x = src.pixel (150 + y) (if true = true then 100 + 20 - 1 - x else 100 + x) ∧
            (o.pixel y x).isSome = true :=
  transform_crop_then_flip cv_ops.unchanged _ _ 100 150 20 20 rfl rfl rfl rfl rfl
    (by
      intro m hm
      rw [List.mem_singleton.mp hm]
      exact ⟨generate_indexed_image_of_wf 256 256, by decide, by decide⟩)

/-! ## image::decoded -/

theorem image.decoded.all_images_are_same_size_iff (l : List Mat) :
    image.decoded.all_images_are_same_size l = true ↔
      ∀ a ∈ l, ∀ b ∈ l, a.size = b.size := by
  cases l with
  | nil => simp [image.decoded.all_images_are_same_size]
  | cons m rest =>
    simp only [image.decoded.all_images_are_same_size, List.all_eq_true, beq_iff_eq]
    constructor
    · intro h
      have hm : ∀ a ∈ m :: rest, a.size = m.size := by
        intro a ha
        rcases List.mem_cons.mp ha with rfl | ha
        · rfl
        · exact h a ha
      intro a ha b hb
      rw [hm a ha, hm b hb]
    · intro h x hx
      exact h x (List.mem_cons_of_mem _ hx) m (List.mem_cons_self _ _)

/-- C8: for every non-empty Decoded (whose images have the size `s`) and every list
of images containing one whose width or height differs from `s` (in particular a
single such image), `add` returns false and leaves the Decoded unchanged; adding
images that all have the size `s` returns true and appends them; and every
Decoded built from the empty one by calls of `add` holds images of one width and
height. -/
theorem decoded_add_rejects_size_mismatch :
    (∀ (d : image.decoded) (s : Size2i) (images : List Mat),
      d.uniform → d.get_image_size = some s → (∃ m ∈ images, m.size ≠ s) →
      d.add_list images = (false, d)) ∧
    (∀ (d : image.decoded) (s : Size2i) (img : Mat),
      d.uniform → d.get_image_size = some s → img.size ≠ s →
      d.add img = (false, d)) ∧
    (∀ (d : image.decoded) (s : Size2i) (images : List Mat),
      d.uniform → d.get_image_size = some s → (∀ m ∈ images, m.size = s) →
      d.add_list images = (true, { _images := d._images ++ images })) ∧
    (∀ (d : image.decoded) (s : Size2i) (img : Mat),
      d.uniform → d.get_image_size = some s → img.size = s →
      d.add img = (true, { _images := d._images ++ [img] })) ∧
    image.decoded.uniform { _images := [] } ∧
    (∀ (d : image.decoded) (images : List Mat),
      d.uniform → (d.add_list images).2.uniform) ∧
    (∀ (d : image.decoded) (img : Mat), d.uniform → (d.add img).2.uniform) := by
  have hsize : ∀ (d : image.decoded) (s : Size2i), d.uniform → d.get_image_size = some s →
      ∃ m0 ∈ d._images, m0.size = s ∧ ∀ a ∈ d._images, a.size = s := by
    intro d s hu hs
    unfold image.decoded.get_image_size at hs
    cases hd : d._images with
    | nil => simp [hd] at hs
    | cons m0 rest =>
      simp only [hd, List.head?_cons, Option.map_some', Option.some.injEq] at hs
      refine ⟨m0, List.mem_cons_self _ _, hs, ?_⟩
      intro a ha
      rw [← hs]
      exact hu a (hd ▸ ha) m0 (hd ▸ List.mem_cons_self _ _)
  have hrej : ∀ (d : image.decoded) (s : Size2i) (images : List Mat),
      d.uniform → d.get_image_size = some s → (∃ m ∈ images, m.size ≠ s) →
      d.add_list images = (false, d) := by
    intro d s images hu hs ⟨m, hm, hne⟩
    obtain ⟨m0, hm0, hm0s, _⟩ := hsize d s hu hs
    have hnot : image.decoded.all_images_are_same_size (d._images ++ images) ≠ true := by
      intro hall
      rw [image.decoded.all_images_are_same_size_iff] at hall
      have := hall m (List.mem_append_right _ hm) m0 (List.mem_append_left _ hm0)
      exact hne (this.trans hm0s)
    unfold image.decoded.add_list
    rw [if_neg hnot]
  have hacc : ∀ (d : image.decoded) (s : Size2i) (images : List Mat),
      d.uniform → d.get_image_size = some s → (∀ m ∈ images, m.size = s) →
      d.add_list images = (true, { _images := d._images ++ images }) := by
    intro d s images hu hs hall
    obtain ⟨_, _, _, hds⟩ := hsize d s hu hs
    have hok : image.decoded.all_images_are_same_size (d._images ++ images) = true := by
      refine image.decoded.all_images_are_same_size_of _ s ?_
      intro m hm
      rcases List.mem_append.mp hm with h | h
      · exact hds m h
      · exact hall m h
    unfold image.decoded.add_list
    rw [if_pos hok]
  have hinv : ∀ (d : image.decoded) (images : List Mat),
      d.uniform → (d.add_list images).2.uniform := by
    intro d images hu
    unfold image.decoded.add_list
    by_cases hall : image.decoded.all_images_are_same_size (d._images ++ images) = true
    · rw [if_pos hall]
      exact (image.decoded.all_images_are_same_size_iff _).mp hall
    · rw [if_neg hall]
      exact hu
  refine ⟨hrej, ?_, hacc, ?_, ?_, hinv, ?_⟩
  · intro d s img hu hs hne
    exact hrej d s [img] hu hs ⟨img, List.mem_singleton_self _, hne⟩
  · intro d s img hu hs he
    exact hacc d s [img] hu hs (fun m hm => by rw [List.mem_singleton.mp hm]; exact he)
  · intro a ha
    simp at ha
  · intro d img hu
    exact hinv d [img] hu

/-- C8 on the images of `TEST(image, decoded)`, in small: a Decoded holding one
2 x 2 image refuses a 1 x 1 image and is left as it was. -/
theorem decoded_add_rejects_size_mismatch_witness :
    image.decoded.add { _images := [generate_indexed_image_of 2 2] }
        (generate_indexed_image_of 1 1) =
      (false, { _images := [generate_indexed_image_of 2 2] }) :=
  decoded_add_rejects_size_mismatch.2.1 { _images := [generate_indexed_image_of 2 2] }
    { width := 2, height := 2 } (generate_indexed_image_of 1 1)
    (by
      intro a ha b hb
      rw [List.mem_singleton.mp ha, List.mem_singleton.mp hb])
    rfl (by decide)

/-! ## image::loader -/

theorem memory.apply_writes_append (m : memory) (a b : List (Nat × Int)) :
    m.apply_writes (a ++ b) = (m.apply_writes a).apply_writes b := by
  unfold memory.apply_writes
  rw [List.foldl_append]

/-- After a sequence of stores in which every store to `a` stores `v`, and there is
one (or `a` held `v` before), offset `a` holds `v`. -/
theorem memory.apply_writes_eq (a : Nat) (v : Int) (ws : List (Nat × Int)) :
    ∀ m : memory, (∀ u, (a, u) ∈ ws → u = v) → ((a, v) ∈ ws ∨ m a = v) →
      m.apply_writes ws a = v := by
  induction ws with
  | nil =>
    intro m _ h
    rcases h with h | h
    · simp at h
    · exact h
  | cons w rest ih =>
    intro m huniq h
    have hstep : (m.apply_writes (w :: rest)) = (m.write w.1 w.2).apply_writes rest := rfl
    rw [hstep]
    apply ih
    · intro u hu
      exact huniq u (List.mem_cons_of_mem _ hu)
    · by_cases hw : w.1 = a
      · right
        have hmem : (a, w.2) ∈ w :: rest := by
          rw [← hw]
          exact List.mem_cons_self _ _
        have := huniq w.2 hmem
        simp [memory.write, hw, this]
      · rcases h with h | h
        · rcases List.mem_cons.mp h with h2 | h2
          · exact absurd (by rw [← h2]) hw
          · exact Or.inl h2
        · right
          have : ¬ a = w.1 := fun e => hw e.symm
          simp [memory.write, this, h]

theorem from_to_pairs_identity (l : List Nat) :
    from_to_pairs (l.flatMap (fun ch => [ch, ch])) = l.map (fun ch => (ch, ch)) := by
  induction l with
  | nil => rfl
  | cons a rest ih =>
    have e : (a :: rest).flatMap (fun ch => [ch, ch]) =
        a :: a :: rest.flatMap (fun ch => [ch, ch]) := rfl
    rw [e, from_to_pairs, ih, List.map_cons]

theorem locate_channel_single {α : Type} (channels : α → Nat) (a : α) (k : Nat)
    (h : k < channels a) : locate_channel channels [a] k = some (a, k) := by
  simp [locate_channel, h]

theorem locate_channel_planes {α : Type} (channels : α → Nat) (l : List α)
    (h1 : ∀ a ∈ l, channels a = 1) :
    ∀ k, k < l.length → locate_channel channels l k = (l[k]?).map (fun a => (a, 0)) := by
  induction l with
  | nil =>
    intro k hk
    simp at hk
  | cons a rest ih =>
    intro k hk
    have ha : channels a = 1 := h1 a (List.mem_cons_self _ _)
    cases k with
    | zero => simp [locate_channel, ha]
    | succ j =>
      have hj : j < rest.length := by simpa using hk
      have hnot : ¬ j + 1 < 1 := by omega
      rw [locate_channel, ha, if_neg hnot, Nat.add_sub_cancel, List.getElem?_cons_succ]
      exact ih (fun b hb => h1 b (List.mem_cons_of_mem _ hb)) j hj

/-- The digits of a number in a mixed radix are unique. -/
theorem mixed_radix_unique (n a b c d : Nat) (hb : b < n) (hd : d < n)
    (h : a * n + b = c * n + d) : a = c ∧ b = d := by
  have hn : 0 < n := by omega
  have e1 : (a * n + b) / n = a := by
    rw [Nat.add_comm, Nat.add_mul_div_right _ _ hn, Nat.div_eq_of_lt hb, Nat.zero_add]
  have e2 : (c * n + d) / n = c := by
    rw [Nat.add_comm, Nat.add_mul_div_right _ _ hn, Nat.div_eq_of_lt hd, Nat.zero_add]
  have hac : a = c := by rw [← e1, ← e2, h]
  subst hac
  exact ⟨rfl, by omega⟩

theorem mem_copy_channel_writes (ot : output_type) (s : Mat) (sc : Nat) (t : Mat_view)
    (tc : Nat) (a : Nat) (v : Int) :
    (a, v) ∈ copy_channel_writes ot s sc t tc ↔
      ∃ y x, y < s.rows ∧ x < s.cols ∧
        a = t.base + ((y * t.cols + x) * t.channels + tc) * ot.size ∧
        v = ot.convert (s.value y x sc) := by
  unfold copy_channel_writes
  simp only [List.mem_flatMap, List.mem_map, List.mem_range, Prod.mk.injEq]
  constructor
  · rintro ⟨y, hy, x, hx, ha, hv⟩
    exact ⟨y, x, hy, hx, ha.symm, hv.symm⟩
  · rintro ⟨y, x, hy, hx, ha, hv⟩
    exact ⟨y, hy, x, hx, ha.symm, hv.symm⟩

/-- The stores made for image `i`: one per channel and pixel, at the offset of the
layout. -/
theorem image.loader.mem_image_writes (_cfg : image.config) (ot : output_type)
    (image_size i : Nat) (img : Mat) (rows cols : Nat)
    (hr : img.rows = rows) (hc : img.cols = cols) (hch : img.channels = _cfg.channels)
    (hsz : image_size = _cfg.channels * (rows * cols) * ot.size) (a : Nat) (v : Int) :
    (a, v) ∈ image.convert_mix_channels_writes ot [img]
        (image.loader.targets _cfg ot image_size i img).1
        (image.loader.targets _cfg ot image_size i img).2 ↔
      ∃ ch y x, ch < _cfg.channels ∧ y < rows ∧ x < cols ∧
        a = (if _cfg.channel_major then
               i * _cfg.channels * (rows * cols) + ch * (rows * cols) + (y * cols + x)
             else
               i * _cfg.channels * (rows * cols) + (y * cols + x) * _cfg.channels + ch)
            * ot.size ∧
        v = ot.convert (img.value y x ch) := by
  have hpairs : from_to_pairs (image.loader.targets _cfg ot image_size i img).2 =
      (List.range _cfg.channels).map (fun ch => (ch, ch)) := by
    unfold image.loader.targets
    by_cases hcm : _cfg.channel_major = true
    · simp only [hcm, if_true]
      exact from_to_pairs_identity _
    · simp only [hcm, if_false]
      exact from_to_pairs_identity _
  unfold image.convert_mix_channels_writes
  rw [hpairs]
  simp only [List.mem_flatMap, List.mem_map, List.mem_range]
  by_cases hcm : _cfg.channel_major = true
  · -- planar targets
    have hloc : ∀ ch, ch < _cfg.channels →
        locate_channel Mat_view.channels (image.loader.targets _cfg ot image_size i img).1 ch =
          some ({ rows := img.rows, cols := img.cols, channels := 1,
                  base := i * image_size + ch * img.total * ot.size }, 0) := by
      intro ch hlt
      unfold image.loader.targets
      simp only [hcm, if_true]
      rw [locate_channel_planes]
      · rw [List.getElem?_map, List.getElem?_range hlt]
        rfl
      · intro b hb
        obtain ⟨c, _, rfl⟩ := List.mem_map.mp hb
        rfl
      · simpa using hlt
    constructor
    · rintro ⟨ft, ⟨ch, hlt, rfl⟩, hmem⟩
      simp only [locate_channel_single Mat.channels img ch (by rw [hch]; exact hlt),
        hloc ch hlt] at hmem
      obtain ⟨y, x, hy, hx, ha, hv⟩ := (mem_copy_channel_writes _ _ _ _ _ _ _).mp hmem
      refine ⟨ch, y, x, hlt, hr ▸ hy, hc ▸ hx, ?_, hv⟩
      rw [ha, hsz, if_pos hcm]
      simp only [Mat.total, hr, hc]
      ring
    · rintro ⟨ch, y, x, hlt, hy, hx, ha, hv⟩
      refine ⟨(ch, ch), ⟨ch, hlt, rfl⟩, ?_⟩
      simp only [locate_channel_single Mat.channels img ch (by rw [hch]; exact hlt),
        hloc ch hlt]
      refine (mem_copy_channel_writes _ _ _ _ _ _ _).mpr ⟨y, x, hr ▸ hy, hc ▸ hx, ?_, hv⟩
      rw [ha, hsz, if_pos hcm]
      simp only [Mat.total, hr, hc]
      ring
  · -- one interleaved target
    have hloc : ∀ ch, ch < _cfg.channels →
        locate_channel Mat_view.channels (image.loader.targets _cfg ot image_size i img).1 ch =
          some ({ rows := img.rows, cols := img.cols, channels := _cfg.channels,
                  base := i * image_size }, ch) := by
      intro ch hlt
      unfold image.loader.targets
      simp only [hcm, if_false]
      exact locate_channel_single _ _ _ hlt
    constructor
    · rintro ⟨ft, ⟨ch, hlt, rfl⟩, hmem⟩
      simp only [locate_channel_single Mat.channels img ch (by rw [hch]; exact hlt),
        hloc ch hlt] at hmem
      obtain ⟨y, x, hy, hx, ha, hv⟩ := (mem_copy_channel_writes _ _ _ _ _ _ _).mp hmem
      refine ⟨ch, y, x, hlt, hr ▸ hy, hc ▸ hx, ?_, hv⟩
      rw [ha, hsz, if_neg hcm]
      simp only [hc]
      ring
    · rintro ⟨ch, y, x, hlt, hy, hx, ha, hv⟩
      refine ⟨(ch, ch), ⟨ch, hlt, rfl⟩, ?_⟩
      simp only [locate_channel_single Mat.channels img ch (by rw [hch]; exact hlt),
        hloc ch hlt]
      refine (mem_copy_channel_writes _ _ _ _ _ _ _).mpr ⟨y, x, hr ▸ hy, hc ▸ hx, ?_, hv⟩
      rw [ha, hsz, if_neg hcm]
      simp only [hc]
      ring

/-- In a well-formed matrix the unchecked read returns the channel value of the
pixel, an 8-bit number. -/
theorem Mat.value_spec (m : Mat) (hwf : m.wf) (y x c : Nat)
    (hy : y < m.rows) (hx : x < m.cols) (hc : c < m.channels) :
    m.value y x c < 256 ∧
      ∃ px, m.pixel y x = some px ∧ px[c]? = some (m.value y x c) := by
  obtain ⟨hlen, hrows⟩ := hwf
  have hy2 : y < m.data.length := by omega
  obtain ⟨hrl, hpx⟩ := hrows _ (List.getElem_mem hy2)
  have hx2 : x < (m.data[y]).length := by omega
  obtain ⟨hpl, hv⟩ := hpx _ (List.getElem_mem hx2)
  have hc2 : c < ((m.data[y])[x]).length := by omega
  have e : m.value y x c = ((m.data[y])[x])[c] := by
    unfold Mat.value
    rw [List.getD_eq_getElem _ _ hy2, List.getD_eq_getElem _ _ hx2,
      List.getD_eq_getElem _ _ hc2]
  refine ⟨?_, (m.data[y])[x], ?_, ?_⟩
  · rw [e]
    exact hv _ (List.getElem_mem hc2)
  · unfold Mat.pixel
    rw [List.getElem?_eq_getElem hy2, Option.some_bind, List.getElem?_eq_getElem hx2]
  · rw [e, List.getElem?_eq_getElem hc2]

theorem output_type.convert_id (t : output_type) (v : Nat) (hlo : t.lo ≤ 0)
    (hhi : 255 ≤ t.hi) (hv : v < 256) : t.convert v = (v : Int) := by
  unfold output_type.convert
  have h1 : min t.hi (v : Int) = (v : Int) := min_eq_right (by omega)
  rw [h1]
  exact max_eq_right (by omega)

/-- The loop of `load` is the sequence of the stores of the images, in order. -/
theorem image.loader.load_loop_eq (_cfg : image.config) (ot : output_type)
    (image_size : Nat) (input : image.decoded) (l : List Nat) :
    ∀ mem : memory,
      l.foldl (fun mem i =>
        match input.get_image i with
        | some img => image.loader.load_image _cfg ot image_size mem i img
        | none => mem) mem =
      mem.apply_writes (l.flatMap (fun i =>
        match input.get_image i with
        | some img => image.convert_mix_channels_writes ot [img]
            (image.loader.targets _cfg ot image_size i img).1
            (image.loader.targets _cfg ot image_size i img).2
        | none => [])) := by
  induction l with
  | nil => intro mem; rfl
  | cons i rest ih =>
    intro mem
    rw [List.foldl_cons, List.flatMap_cons, memory.apply_writes_append, ih]
    cases input.get_image i with
    | none => rfl
    | some img => rfl

theorem pixel_index_lt (rows cols y x : Nat) (hy : y < rows) (hx : x < cols) :
    y * cols + x < rows * cols := by
  have h1 : (y + 1) * cols ≤ rows * cols := Nat.mul_le_mul_right _ hy
  have h2 : (y + 1) * cols = y * cols + cols := by ring
  omega

/-- The offset of the layout determines image, channel, row and column. -/
theorem image.loader.offset_unique (cm : Bool) (C rows cols es : Nat) (hes : 0 < es)
    (i ch y x j dh z w : Nat)
    (hch : ch < C) (hy : y < rows) (hx : x < cols)
    (hdh : dh < C) (hz : z < rows) (hw : w < cols)
    (h : (if cm = true then i * C * (rows * cols) + ch * (rows * cols) + (y * cols + x)
          else i * C * (rows * cols) + (y * cols + x) * C + ch) * es =
         (if cm = true then j * C * (rows * cols) + dh * (rows * cols) + (z * cols + w)
          else j * C * (rows * cols) + (z * cols + w) * C + dh) * es) :
    i = j ∧ ch = dh ∧ y = z ∧ x = w := by
  have hp := pixel_index_lt rows cols y x hy hx
  have hq := pixel_index_lt rows cols z w hz hw
  have h0 := Nat.eq_of_mul_eq_mul_right hes h
  cases cm with
  | true =>
    simp only [if_true] at h0
    have e1 : (i * C + ch) * (rows * cols) + (y * cols + x) =
        (j * C + dh) * (rows * cols) + (z * cols + w) := by
      have a1 : (i * C + ch) * (rows * cols) = i * C * (rows * cols) + ch * (rows * cols) := by ring
      have a2 : (j * C + dh) * (rows * cols) = j * C * (rows * cols) + dh * (rows * cols) := by ring
      rw [a1, a2]
      exact h0
    obtain ⟨e2, e3⟩ := mixed_radix_unique _ _ _ _ _ hp hq e1
    obtain ⟨e4, e5⟩ := mixed_radix_unique _ _ _ _ _ hch hdh e2
    obtain ⟨e6, e7⟩ := mixed_radix_unique _ _ _ _ _ hx hw e3
    exact ⟨e4, e5, e6, e7⟩
  | false =>
    simp only [Bool.false_eq_true, if_false] at h0
    have e1 : (i * (rows * cols) + (y * cols + x)) * C + ch =
        (j * (rows * cols) + (z * cols + w)) * C + dh := by
      have a1 : (i * (rows * cols) + (y * cols + x)) * C =
          i * C * (rows * cols) + (y * cols + x) * C := by ring
      have a2 : (j * (rows * cols) + (z * cols + w)) * C =
          j * C * (rows * cols) + (z * cols + w) * C := by ring
      rw [a1, a2]
      exact h0
    obtain ⟨e2, e3⟩ := mixed_radix_unique _ _ _ _ _ hch hdh e1
    obtain ⟨e4, e5⟩ := mixed_radix_unique _ _ _ _ _ hp hq e2
    obtain ⟨e6, e7⟩ := mixed_radix_unique _ _ _ _ _ hx hw e5
    exact ⟨e4, e3, e6, e7⟩

/-- C6: for every Decoded of images of one size (`rows x cols`, so `P = rows * cols`
pixels) with `C` = configured channels, and every output element type that can
hold `0..255`: `image::loader::load` returns when the Decoded is not empty, and
afterwards, with `channel_major` set the destination element at index
`i*C*P + ch*P + p` holds the value of channel `ch` of pixel `p = y*cols + x` of
image `i` (planar), and with `channel_major` unset the element at index
`i*C*P + p*C + ch` holds it (interleaved); the value is numerically unchanged.
The element at index `k` starts at byte offset `k * element_size`. -/
theorem loader_load_layout (_cfg : image.config) (st : shape_type) (outbuf : memory)
    (input : image.decoded) (rows cols : Nat)
    (hst : _cfg.shape_type = some st)
    (himgs : ∀ m ∈ input._images,
      m.wf ∧ m.rows = rows ∧ m.cols = cols ∧ m.channels = _cfg.channels)
    (hes : 0 < st.otype.size) (hlo : st.otype.lo ≤ 0) (hhi : 255 ≤ st.otype.hi) :
    (input._images ≠ [] → ∃ out, image.loader.load _cfg outbuf input = some out) ∧
    ∀ out, image.loader.load _cfg outbuf input = some out →
      ∀ i img, input.get_image i = some img →
        ∀ ch y x, ch < _cfg.channels → y < rows → x < cols →
          out ((if _cfg.channel_major then
                  i * _cfg.channels * (rows * cols) + ch * (rows * cols) + (y * cols + x)
                else
                  i * _cfg.channels * (rows * cols) + (y * cols + x) * _cfg.channels + ch)
                * st.otype.size) = (img.value y x ch : Int) ∧
          ∃ px, img.pixel y x = some px ∧ px[ch]? = some (img.value y x ch) := by
  constructor
  · intro hne
    cases hd : input._images with
    | nil => exact absurd hd hne
    | cons m0 rest =>
      have h0 : input.get_image 0 = some m0 := by
        simp [image.decoded.get_image, hd]
      simp only [image.loader.load, hst, h0]
      exact ⟨_, rfl⟩
  · intro out hout i img himg ch y x hch hy hx
    -- the first image fixes the per-image stride
    cases h0 : input.get_image 0 with
    | none => simp [image.loader.load, hst, h0] at hout
    | some img0 =>
      have hmem0 : img0 ∈ input._images := List.mem_iff_getElem?.mpr ⟨0, h0⟩
      obtain ⟨_, hr0, hc0, hch0⟩ := himgs img0 hmem0
      have hmem : img ∈ input._images := List.mem_iff_getElem?.mpr ⟨i, himg⟩
      obtain ⟨hwf, hr, hc, hchn⟩ := himgs img hmem
      have hsz : img0.channels * img0.total * st.otype.size =
          _cfg.channels * (rows * cols) * st.otype.size := by
        simp only [Mat.total, hr0, hc0, hch0]
      simp only [image.loader.load, hst, h0, Option.some.injEq] at hout
      rw [image.loader.load_loop_eq] at hout
      have hval := Mat.value_spec img hwf y x ch (hr ▸ hy) (hc ▸ hx) (hchn ▸ hch)
      refine ⟨?_, hval.2⟩
      rw [← hout, ← output_type.convert_id st.otype (img.value y x ch) hlo hhi hval.1]
      have hi : i < input._images.length := by
        have := (List.getElem?_eq_some.mp himg).1
        exact this
      apply memory.apply_writes_eq
      · -- every store to this offset stores this value
        intro u hu
        obtain ⟨j, _, hj⟩ := List.mem_flatMap.mp hu
        cases hgj : input.get_image j with
        | none => simp [hgj] at hj
        | some imgj =>
          simp only [hgj] at hj
          have hmemj : imgj ∈ input._images := List.mem_iff_getElem?.mpr ⟨j, hgj⟩
          obtain ⟨_, hrj, hcj, hchj⟩ := himgs imgj hmemj
          obtain ⟨dh, z, w, hdh, hz, hw, ha, hv⟩ :=
            (image.loader.mem_image_writes _cfg st.otype _ j imgj rows cols hrj hcj hchj hsz
              _ u).mp hj
          obtain ⟨e1, e2, e3, e4⟩ := image.loader.offset_unique _cfg.channel_major
            _cfg.channels rows cols st.otype.size hes i ch y x j dh z w hch hy hx hdh hz hw ha
          subst e1 e2 e3 e4
          rw [himg] at hgj
          rw [hv, ← Option.some.inj hgj]
      · left
        refine List.mem_flatMap.mpr ⟨i, List.mem_range.mpr hi, ?_⟩
        simp only [himg]
        exact (image.loader.mem_image_writes _cfg st.otype _ i img rows cols hr hc hchn hsz
          _ _).mpr ⟨ch, y, x, hch, hy, hx, rfl, rfl⟩

/-- C6 on the configuration of `TEST(image,convert_split)` (planar, `uint32_t`,
element size 4) and two indexed 2 x 3 images: the element of image 1, channel 0,
row 1, column 2 is at index `1*3*6 + 0*6 + 5 = 23`, byte offset 92, and holds the
column number 2. -/
theorem loader_load_layout_witness :
    ∃ out, image.loader.load convert_split_config (fun _ => 0)
        { _images := [generate_indexed_image_of 2 3, generate_indexed_image_of 2 3] } = some out ∧
      out 92 = 2 :=
  have T := loader_load_layout convert_split_config
    ⟨[3, 10, 10], ⟨4, 4, -2147483648, 2147483647⟩⟩ (fun _ => 0)
    { _images := [generate_indexed_image_of 2 3, generate_indexed_image_of 2 3] } 2 3 rfl
    (by
      intro m hm
      have hm2 : m = generate_indexed_image_of 2 3 := by
        rcases List.mem_cons.mp hm with h | h
        · exact h
        · exact List.mem_singleton.mp h
      rw [hm2]
      exact ⟨generate_indexed_image_of_wf 2 3, rfl, rfl, rfl⟩)
    (by decide) (by decide) (by decide)
  match T.1 (by simp) with
  | ⟨out, h⟩ =>
    ⟨out, h, (T.2 out h 1 (generate_indexed_image_of 2 3) rfl 0 1 2
      (by decide) (by decide) (by decide)).1⟩

/-! ## Conversion to float -/

/-- The binary exponent of a number between two consecutive powers of two. -/
theorem log_two_of_bounds (a : ℚ) (e : Int) (h1 : (2 : ℚ) ^ e ≤ a)
    (h2 : a < (2 : ℚ) ^ (e + 1)) : Int.log 2 a = e := by
  have ha : 0 < a := lt_of_lt_of_le (by positivity) h1
  have l1 : e ≤ Int.log 2 a :=
    (Int.zpow_le_iff_le_log (b := 2) (by norm_num) ha (x := e)).mp (by exact_mod_cast h1)
  have l2 : Int.log 2 a < e + 1 :=
    (Int.lt_zpow_iff_log_lt (b := 2) (by norm_num) ha (x := e + 1)).mp
      (by exact_mod_cast h2)
  omega

/-- A number less than 1/2 away from an integer rounds to that integer. -/
theorem cvRound_of_near (n : Int) (x : ℚ) (h1 : (n : ℚ) - 1/2 < x)
    (h2 : x < (n : ℚ) + 1/2) : cvRound x = n := by
  unfold cvRound
  by_cases hx : (n : ℚ) ≤ x
  · have hf : ⌊x⌋ = n := by
      rw [Int.floor_eq_iff]
      constructor <;> linarith
    simp only [hf]
    rw [if_pos (by linarith)]
  · have hx2 : x < (n : ℚ) := not_le.mp hx
    have hf : ⌊x⌋ = n - 1 := by
      rw [Int.floor_eq_iff]
      push_cast
      constructor <;> linarith
    simp only [hf]
    push_cast
    rw [if_neg (by linarith), if_pos (by linarith)]
    ring

/-- The float nearest to a positive number of binary exponent `e` (in the normal
range) that lies less than half a unit in the last place from `n * 2 ^ (e - 23)`. -/
theorem to_float_of_pos (q : ℚ) (e n : Int) (hq : 0 < q)
    (h1 : (2 : ℚ) ^ e ≤ q) (h2 : q < (2 : ℚ) ^ (e + 1)) (he : -126 ≤ e)
    (hn1 : (n : ℚ) - 1/2 < q / (2 : ℚ) ^ (e - 23))
    (hn2 : q / (2 : ℚ) ^ (e - 23) < (n : ℚ) + 1/2) :
    to_float q = (n : ℚ) * (2 : ℚ) ^ (e - 23) := by
  have hl : Int.log 2 q = e := log_two_of_bounds q e h1 h2
  unfold to_float
  simp only [abs_of_pos hq, hl, max_eq_left he]
  rw [cvRound_of_near n _ hn1 hn2, if_neg (not_lt.mpr (le_of_lt hq))]

theorem to_float_zero : to_float 0 = 0 := by
  unfold to_float
  simp [cvRound]

theorem to_float_one : to_float 1 = 1 := by
  rw [to_float_of_pos 1 0 8388608 (by norm_num) (by norm_num) (by norm_num) (by norm_num)
    (by norm_num) (by norm_num)]
  norm_num

/-- The scale 0.875 of `TEST(image, multi_crop)` is a `float`. -/
theorem to_float_seven_eighths : to_float (7/8) = 7/8 := by
  rw [to_float_of_pos (7/8) (-1) 14680064 (by norm_num) (by norm_num) (by norm_num)
    (by norm_num) (by norm_num) (by norm_num)]
  norm_num

/-- The number 0.99999999 lies between the floats `1 - 2 ^ (-24)` and 1, nearer
to 1. -/
theorem to_float_near_one : to_float (99999999/100000000) = 1 := by
  rw [to_float_of_pos (99999999/100000000) (-1) 16777216 (by norm_num) (by norm_num)
    (by norm_num) (by norm_num) (by norm_num) (by norm_num)]
  norm_num

/-! ## multicrop::config and multicrop::transformer -/

/-- A successful construction is: parse, derive, shape type found, validate passed. -/
theorem multicrop.config.construct_ok_iff (otypes : String → Option output_type)
    (d : multicrop.document) (cfg : multicrop.config) :
    multicrop.config.config otypes (some d) = .ok cfg ↔
      ∃ c st, multicrop.config.parse d = .ok c ∧
        add_shape_type otypes [(multicrop.config.derive c).num_views]
          (multicrop.config.derive c).type_string = .ok st ∧
        cfg = { multicrop.config.derive c with shape_type := some st } ∧
        multicrop.config.validate cfg = .ok () := by
  unfold multicrop.config.config
  constructor
  · intro h
    cases hp : multicrop.config.parse d with
    | error e => simp [hp, bind, Except.bind] at h
    | ok c =>
      cases hs : add_shape_type otypes [(multicrop.config.derive c).num_views]
          (multicrop.config.derive c).type_string with
      | error e => simp [hp, hs, bind, Except.bind] at h
      | ok st =>
        cases hv : multicrop.config.validate
            { multicrop.config.derive c with shape_type := some st } with
        | error e => simp [hp, hs, hv, bind, Except.bind] at h
        | ok u =>
          simp [hp, hs, hv, bind, Except.bind, pure, Except.pure] at h
          exact ⟨c, st, rfl, hs, h.symm, by rw [← h]; exact hv⟩
  · rintro ⟨c, st, hp, hs, rfl, hv⟩
    simp [hp, hs, hv, bind, Except.bind, pure, Except.pure]

theorem multicrop.config.validate_passes_iff (c : multicrop.config) :
    multicrop.config.validate c = .ok () ↔
      (c.crops_per_scale = 1 ∨ c.crops_per_scale = 5) ∧
        ∀ s ∈ c.multicrop_scales, 0 < s ∧ s < 1 := by
  unfold multicrop.config.validate
  by_cases h1 : c.crops_per_scale ≠ 5 ∧ c.crops_per_scale ≠ 1
  · rw [if_pos h1]
    simp only [reduceCtorEq, false_iff, not_and]
    intro h
    rcases h with h | h
    · exact absurd h h1.2
    · exact absurd h h1.1
  · rw [if_neg h1]
    have hc : c.crops_per_scale = 1 ∨ c.crops_per_scale = 5 := by omega
    by_cases h2 : c.multicrop_scales.all (fun s => decide (0 < s) && decide (s < 1)) = true
    · rw [if_pos h2]
      simp only [true_iff]
      refine ⟨hc, ?_⟩
      intro s hs
      have := List.all_eq_true.mp h2 s hs
      simpa using this
    · rw [if_neg h2]
      simp only [reduceCtorEq, false_iff, not_and]
      intro _ hall
      apply h2
      rw [List.all_eq_true]
      intro s hs
      have := hall s hs
      simp [this.1, this.2]

theorem multicrop.config.parse_offsets (d : multicrop.document) (c : multicrop.config)
    (h : multicrop.config.parse d = .ok c) : c.offsets = [] := by
  unfold multicrop.config.parse at h
  cases hh : d.height with
  | none => simp [hh] at h
  | some hv =>
    cases hw : d.width with
    | none => simp [hh, hw] at h
    | some wv =>
      cases hs : d.multicrop_scales with
      | none => simp [hh, hw, hs] at h
      | some sv =>
        simp only [hh, hw, hs, Except.ok.injEq] at h
        rw [← h]

/-- What the derivation leaves in the fields the view count depends on. -/
theorem multicrop.config.derive_fields (c : multicrop.config) :
    (multicrop.config.derive c).crops_per_scale = c.crops_per_scale ∧
      (multicrop.config.derive c).multicrop_scales = c.multicrop_scales ∧
      (multicrop.config.derive c).include_flips = c.include_flips ∧
      (multicrop.config.derive c).offsets =
        (if c.crops_per_scale = 5 then
          c.offsets ++ [⟨1/2, 1/2⟩] ++ [⟨0, 0⟩, ⟨0, 1⟩, ⟨1, 0⟩, ⟨1, 1⟩]
        else c.offsets ++ [⟨1/2, 1/2⟩]) := by
  unfold multicrop.config.derive
  by_cases h1 : c.flip = true <;> by_cases h2 : c.crops_per_scale = 5 <;> simp [h1, h2]

theorem List.length_flatMap_of_const {α β : Type} (l : List α) (f : α → List β) (k : Nat)
    (h : ∀ a ∈ l, (f a).length = k) : (l.flatMap f).length = l.length * k := by
  induction l with
  | nil => simp
  | cons a rest ih =>
    rw [List.flatMap_cons, List.length_append, h a (List.mem_cons_self _ _),
      ih (fun b hb => h b (List.mem_cons_of_mem _ hb)), List.length_cons]
    ring

/-- The number of views the multicrop transform returns. -/
theorem multicrop.transformer.transform_count (view : ℚ → Point2f → Mat → Mat)
    (_cfg : multicrop.config) (input : image.decoded) (hne : input._images ≠ []) :
    ∃ out, multicrop.transformer.transform view _cfg input = some out ∧
      out.get_image_count =
        _cfg.multicrop_scales.length * _cfg.offsets.length *
          (if _cfg.include_flips then 2 else 1) := by
  cases hd : input._images with
  | nil => exact absurd hd hne
  | cons src rest =>
    have h0 : input.get_image 0 = some src := by
      simp [image.decoded.get_image, hd]
    refine ⟨{ _images := _cfg.multicrop_scales.flatMap (fun s =>
      _cfg.offsets.flatMap (fun o =>
        if _cfg.include_flips then [view s o src, cv_flip_horizontal (view s o src)]
        else [view s o src])) }, ?_, ?_⟩
    · simp only [multicrop.transformer.transform, h0]
    simp only [image.decoded.get_image_count]
    rw [List.length_flatMap_of_const _ _
      (_cfg.offsets.length * (if _cfg.include_flips then 2 else 1)), Nat.mul_assoc]
    intro s _
    apply List.length_flatMap_of_const
    intro o _
    by_cases hf : _cfg.include_flips = true <;> simp [hf]

/-- Sufficient conditions for the construction to succeed, with the value built. -/
theorem multicrop.config.construct_ok_of (otypes : String → Option output_type)
    (d : multicrop.document) (c : multicrop.config) (t : output_type)
    (hp : multicrop.config.parse d = .ok c)
    (ht : otypes (multicrop.config.derive c).type_string = some t)
    (hcr : c.crops_per_scale = 1 ∨ c.crops_per_scale = 5)
    (hs : ∀ s ∈ c.multicrop_scales, 0 < s ∧ s < 1) :
    multicrop.config.config otypes (some d) =
      .ok { multicrop.config.derive c with
            shape_type := some ⟨[(multicrop.config.derive c).num_views], t⟩ } := by
  refine (multicrop.config.construct_ok_iff otypes d _).mpr
    ⟨c, ⟨[(multicrop.config.derive c).num_views], t⟩, hp, ?_, rfl, ?_⟩
  · unfold add_shape_type
    rw [ht]
  · rw [multicrop.config.validate_passes_iff]
    obtain ⟨h1, h2, _, _⟩ := multicrop.config.derive_fields c
    simp only [h1, h2]
    exact ⟨hcr, hs⟩

/-- What a successful construction establishes: the count of crops is 1 or 5, the
offsets are the canonical ones, and the shape holds `num_views`. -/
theorem multicrop.config.config_ok_facts (otypes : String → Option output_type)
    (d : multicrop.document) (cfg : multicrop.config)
    (hok : multicrop.config.config otypes (some d) = .ok cfg) :
    (cfg.crops_per_scale = 1 ∨ cfg.crops_per_scale = 5) ∧
      (∀ s ∈ cfg.multicrop_scales, 0 < s ∧ s < 1) ∧
      cfg.offsets =
        (if cfg.crops_per_scale = 5 then
          [⟨1/2, 1/2⟩, ⟨0, 0⟩, ⟨0, 1⟩, ⟨1, 0⟩, ⟨1, 1⟩]
        else [⟨1/2, 1/2⟩]) ∧
      ∃ st, cfg.shape_type = some st ∧ st.shape = [cfg.num_views] := by
  obtain ⟨c, st, hp, hs, hcfg, hv⟩ := (multicrop.config.construct_ok_iff otypes d cfg).mp hok
  obtain ⟨hcr, hsc⟩ := (multicrop.config.validate_passes_iff cfg).mp hv
  obtain ⟨h1, h2, h3, h4⟩ := multicrop.config.derive_fields c
  have hoff := multicrop.config.parse_offsets d c hp
  have e1 : cfg.crops_per_scale = c.crops_per_scale := by rw [hcfg]; exact h1
  have e4 : cfg.offsets = (multicrop.config.derive c).offsets := by rw [hcfg]
  refine ⟨hcr, hsc, ?_, st, by rw [hcfg], ?_⟩
  · rw [e4, h4, hoff, e1]
    by_cases h5 : c.crops_per_scale = 5 <;> simp [h5]
  · unfold add_shape_type at hs
    cases ho : otypes (multicrop.config.derive c).type_string with
    | none => simp [ho] at hs
    | some t =>
      simp only [ho, Except.ok.injEq] at hs
      rw [← hs, hcfg]
      rfl

theorem multicrop.config.num_views_arith (n : Nat) (c : Int) (k : Int) (kn : Nat)
    (hc : 0 ≤ c) (hk : k = (kn : Int)) (hfit : n * c.toNat * kn < 2 ^ 32) :
    ((c * (n : Int) * k) % 2 ^ 32).toNat = n * c.toNat * kn := by
  have e : c * (n : Int) * k = ((n * c.toNat * kn : Nat) : Int) := by
    rw [hk]
    push_cast
    rw [Int.toNat_of_nonneg hc]
    ring
  rw [e, Int.emod_eq_of_lt (Int.natCast_nonneg _) (by exact_mod_cast hfit), Int.toNat_natCast]

/-- The fields parsed from a document that gives only height, width, the scale
7/8 and the two local options: the scale is stored as it is. -/
theorem multicrop.config.parse_seven_eighths (h w : Nat) (crops : Option Int)
    (flips : Option Bool) :
    multicrop.config.parse
        { height := some h, width := some w, multicrop_scales := some [7/8],
          crops_per_scale := crops, include_flips := flips } =
      .ok { multicrop_scales := [7/8], crops_per_scale := crops.getD 5,
            include_flips := flips.getD true, height := h, width := w, seed := 0,
            type_string := "uint8_t", do_area_scale := false, channel_major := true,
            channels := 3, scale := ⟨1, 1⟩, angle := ⟨0, 0⟩, lighting := ⟨0, 0⟩,
            horizontal_distortion := ⟨1, 1⟩, photometric := ⟨0, 0⟩,
            crop_offset := ⟨1/2, 1/2⟩, flip_distribution := ⟨0⟩, flip := false,
            offsets := [], output_size := ⟨0, 0⟩, shape_type := none } := by
  have hm : List.map to_float [(7/8 : ℚ)] = [7/8] := by
    rw [List.map_cons, List.map_nil, to_float_seven_eighths]
  unfold multicrop.config.parse
  simp only [hm]
  rfl

/-- The two test documents construct, and the constructed configurations. -/
theorem multi_crop_center_document_ok :
    multicrop.config.config test_otypes (some multi_crop_center_document) =
      .ok multi_crop_center_config :=
  multicrop.config.construct_ok_of test_otypes multi_crop_center_document
    (multi_crop_parsed 1 true) ⟨0, 1, 0, 255⟩
    (multicrop.config.parse_seven_eighths 224 224 (some 1) none) (by decide) (Or.inl rfl)
    (by intro s hs; rw [List.mem_singleton.mp hs]; norm_num)

theorem multi_crop_no_flip_document_ok :
    multicrop.config.config test_otypes (some multi_crop_no_flip_document) =
      .ok multi_crop_no_flip_config :=
  multicrop.config.construct_ok_of test_otypes multi_crop_no_flip_document
    (multi_crop_parsed 5 false) ⟨0, 1, 0, 255⟩
    (multicrop.config.parse_seven_eighths 224 224 none (some false)) (by decide) (Or.inr rfl)
    (by intro s hs; rw [List.mem_singleton.mp hs]; norm_num)

/-- C9: for every valid multicrop configuration (whose view count fits the 32-bit
`num_views`), the view count stored in the derived output shape equals
(number of `multicrop_scales`) * `crops_per_scale` * (2 if `include_flips` else 1),
and this is the number of views the multicrop transform returns; it is 2 for one
scale, `crops_per_scale = 1`, flips on, and 5 for one scale, `crops_per_scale = 5`,
flips off (the documents of `TEST(image, multi_crop)`). -/
theorem multicrop_view_count :
    (∀ (otypes : String → Option output_type) (d : multicrop.document)
        (cfg : multicrop.config),
      multicrop.config.config otypes (some d) = .ok cfg →
      cfg.multicrop_scales.length * cfg.crops_per_scale.toNat *
          (if cfg.include_flips then 2 else 1) < 2 ^ 32 →
      (∃ st, cfg.shape_type = some st ∧
        st.shape = [cfg.multicrop_scales.length * cfg.crops_per_scale.toNat *
          (if cfg.include_flips then 2 else 1)]) ∧
      (∀ (view : ℚ → Point2f → Mat → Mat) (input : image.decoded), input._images ≠ [] →
        ∃ out, multicrop.transformer.transform view cfg input = some out ∧
          out.get_image_count = cfg.multicrop_scales.length * cfg.crops_per_scale.toNat *
            (if cfg.include_flips then 2 else 1))) ∧
    (∃ cfg, multicrop.config.config test_otypes (some multi_crop_center_document) = .ok cfg ∧
      cfg.shape_type.map shape_type.shape = some [2] ∧
      ∀ view : ℚ → Point2f → Mat → Mat,
        (multicrop.transformer.transform view cfg
          { _images := [generate_indexed_image] }).map image.decoded.get_image_count
          = some 2) ∧
    (∃ cfg, multicrop.config.config test_otypes (some multi_crop_no_flip_document) = .ok cfg ∧
      cfg.shape_type.map shape_type.shape = some [5] ∧
      ∀ view : ℚ → Point2f → Mat → Mat,
        (multicrop.transformer.transform view cfg
          { _images := [generate_indexed_image] }).map image.decoded.get_image_count
          = some 5) := by
  have key : ∀ (otypes : String → Option output_type) (d : multicrop.document)
      (cfg : multicrop.config),
      multicrop.config.config otypes (some d) = .ok cfg →
      cfg.multicrop_scales.length * cfg.crops_per_scale.toNat *
          (if cfg.include_flips then 2 else 1) < 2 ^ 32 →
      (∃ st, cfg.shape_type = some st ∧
        st.shape = [cfg.multicrop_scales.length * cfg.crops_per_scale.toNat *
          (if cfg.include_flips then 2 else 1)]) ∧
      (∀ (view : ℚ → Point2f → Mat → Mat) (input : image.decoded), input._images ≠ [] →
        ∃ out, multicrop.transformer.transform view cfg input = some out ∧
          out.get_image_count = cfg.multicrop_scales.length * cfg.crops_per_scale.toNat *
            (if cfg.include_flips then 2 else 1)) := by
    intro otypes d cfg hok hfit
    obtain ⟨hcr, _, hoff, st, hst, hshape⟩ := multicrop.config.config_ok_facts otypes d cfg hok
    have hlen : cfg.offsets.length = cfg.crops_per_scale.toNat := by
      rw [hoff]
      rcases hcr with h | h <;> simp [h]
    have hc0 : 0 ≤ cfg.crops_per_scale := by omega
    have hk : (if cfg.include_flips = true then (2 : Int) else 1) =
        ((if cfg.include_flips = true then 2 else 1 : Nat) : Int) := by
      by_cases hf : cfg.include_flips = true <;> simp [hf]
    constructor
    · refine ⟨st, hst, ?_⟩
      rw [hshape]
      congr 1
      exact multicrop.config.num_views_arith _ _ _ _ hc0 hk hfit
    · intro view input hne
      obtain ⟨out, ho, hc⟩ := multicrop.transformer.transform_count view cfg input hne
      exact ⟨out, ho, by rw [hc, hlen]⟩
  refine ⟨key, ⟨_, multi_crop_center_document_ok, ?_, ?_⟩,
    ⟨_, multi_crop_no_flip_document_ok, ?_, ?_⟩⟩
  · simp [multi_crop_center_config, multi_crop_no_flip_config, multicrop.config.num_views,
      multicrop.config.derive, multi_crop_parsed]
  · intro view
    obtain ⟨out, ho, hc⟩ := multicrop.transformer.transform_count view
      multi_crop_center_config
      { _images := [generate_indexed_image] } (by simp)
    rw [ho, Option.map_some', hc]
    simp [multi_crop_center_config, multi_crop_no_flip_config, multicrop.config.derive,
      multi_crop_parsed]
  · simp [multi_crop_center_config, multi_crop_no_flip_config, multicrop.config.num_views,
      multicrop.config.derive, multi_crop_parsed]
  · intro view
    obtain ⟨out, ho, hc⟩ := multicrop.transformer.transform_count view
      multi_crop_no_flip_config
      { _images := [generate_indexed_image] } (by simp)
    rw [ho, Option.map_some', hc]
    simp [multi_crop_center_config, multi_crop_no_flip_config, multicrop.config.derive,
      multi_crop_parsed]

/-- C9 at the first document of `TEST(image, multi_crop)`: the shape holds
`1 * 1 * 2` views. -/
theorem multicrop_view_count_witness :
    ∃ st, multi_crop_center_config.shape_type = some st ∧
      st.shape = [multi_crop_center_config.multicrop_scales.length *
        multi_crop_center_config.crops_per_scale.toNat *
        (if multi_crop_center_config.include_flips then 2 else 1)] :=
  (multicrop_view_count.1 test_otypes multi_crop_center_document multi_crop_center_config
    multi_crop_center_document_ok
    (by simp [multi_crop_center_config, multicrop.config.derive, multi_crop_parsed])).1

/-- C10: for every valid multicrop configuration the derived list of normalized
`(x,y)` offsets is exactly `[(0.5,0.5)]` when `crops_per_scale = 1` and exactly
`[(0.5,0.5), (0,0), (0,1), (1,0), (1,1)]` when `crops_per_scale = 5` (center,
north-west, south-west, north-east, south-east, in that order), one of the two
being the case; so the number of offsets equals `crops_per_scale`, and (flips
aside) the views of each scale are the crops at these offsets in that order. -/
theorem multicrop_offsets_fixed_order (otypes : String → Option output_type)
    (d : multicrop.document) (cfg : multicrop.config)
    (hok : multicrop.config.config otypes (some d) = .ok cfg) :
    (cfg.crops_per_scale = 1 ∨ cfg.crops_per_scale = 5) ∧
    (cfg.crops_per_scale = 1 → cfg.offsets = [⟨1/2, 1/2⟩]) ∧
    (cfg.crops_per_scale = 5 →
      cfg.offsets = [⟨1/2, 1/2⟩, ⟨0, 0⟩, ⟨0, 1⟩, ⟨1, 0⟩, ⟨1, 1⟩]) ∧
    (cfg.offsets.length : Int) = cfg.crops_per_scale ∧
    (∀ (view : ℚ → Point2f → Mat → Mat) (input : image.decoded) (src : Mat),
      input.get_image 0 = some src → cfg.include_flips = false →
      multicrop.transformer.transform view cfg input =
        some { _images := cfg.multicrop_scales.flatMap (fun s =>
          cfg.offsets.map (fun o => view s o src)) }) := by
  obtain ⟨hcr, _, hoff, _⟩ := multicrop.config.config_ok_facts otypes d cfg hok
  refine ⟨hcr, ?_, ?_, ?_, ?_⟩
  · intro h
    rw [hoff, h]
    rfl
  · intro h
    rw [hoff, h]
    rfl
  · rw [hoff]
    rcases hcr with h | h <;> simp [h]
  · intro view input src hsrc hf
    simp only [multicrop.transformer.transform, hsrc, hf, Bool.false_eq_true, if_false,
      Option.some.injEq, image.decoded.mk.injEq]
    congr 1
    funext s
    induction cfg.offsets with
    | nil => rfl
    | cons o rest ih => rw [List.flatMap_cons, ih, List.map_cons]; rfl

/-- C10 at the second document of `TEST(image, multi_crop)` (five crops per scale):
the offsets are center, NW, SW, NE, SE. -/
theorem multicrop_offsets_fixed_order_witness :
    multi_crop_no_flip_config.offsets = [⟨1/2, 1/2⟩, ⟨0, 0⟩, ⟨0, 1⟩, ⟨1, 0⟩, ⟨1, 1⟩] :=
  (multicrop_offsets_fixed_order test_otypes multi_crop_no_flip_document
    multi_crop_no_flip_config multi_crop_no_flip_document_ok).2.2.1 rfl

/-- The parsed fields of a document whose three required fields are present. -/
theorem multicrop.config.parse_ok_of_required (d : multicrop.document) (h w : Nat)
    (scales : List ℚ) (hh : d.height = some h) (hw : d.width = some w)
    (hs : d.multicrop_scales = some scales) :
    ∃ c, multicrop.config.parse d = .ok c ∧ c.multicrop_scales = scales.map to_float ∧
      c.crops_per_scale = d.crops_per_scale.getD 5 ∧
      c.type_string = d.type_string.getD "uint8_t" := by
  unfold multicrop.config.parse
  simp only [hh, hw, hs]
  exact ⟨_, rfl, rfl, rfl, rfl⟩

/-- When the construction of a `multicrop::config` raises an error, for a document
whose three required fields are present: the element type is unknown, or the
count of crops is not 1 or 5, or a stored scale is not strictly between 0 and 1. -/
theorem multicrop.config.construct_error_iff (otypes : String → Option output_type)
    (d : multicrop.document) (h w : Nat) (scales : List ℚ)
    (hh : d.height = some h) (hw : d.width = some w)
    (hs : d.multicrop_scales = some scales) :
    (∃ e, multicrop.config.config otypes (some d) = .error e) ↔
      (otypes (d.type_string.getD "uint8_t") = none ∨
        (d.crops_per_scale.getD 5 ≠ 1 ∧ d.crops_per_scale.getD 5 ≠ 5) ∨
        ∃ s ∈ scales, ¬ (0 < to_float s ∧ to_float s < 1)) := by
  obtain ⟨c, hp, hcs, hcc, hct⟩ := multicrop.config.parse_ok_of_required d h w scales hh hw hs
  obtain ⟨h1, h2, _, _⟩ := multicrop.config.derive_fields c
  have hts : (multicrop.config.derive c).type_string = c.type_string := by
    unfold multicrop.config.derive
    by_cases a1 : c.flip = true <;> by_cases a2 : c.crops_per_scale = 5 <;> simp [a1, a2]
  constructor
  · rintro ⟨e, he⟩
    by_contra hgood
    cases hty : otypes (d.type_string.getD "uint8_t") with
    | none => exact hgood (Or.inl hty)
    | some t =>
      have hcr : c.crops_per_scale = 1 ∨ c.crops_per_scale = 5 := by
        rw [hcc]
        by_contra hn
        exact hgood (Or.inr (Or.inl ⟨fun e1 => hn (Or.inl e1), fun e5 => hn (Or.inr e5)⟩))
      have hsc : ∀ s ∈ c.multicrop_scales, 0 < s ∧ s < 1 := by
        intro s hsm
        rw [hcs] at hsm
        obtain ⟨s0, hs0, rfl⟩ := List.mem_map.mp hsm
        by_contra hn
        exact hgood (Or.inr (Or.inr ⟨s0, hs0, hn⟩))
      have hok := multicrop.config.construct_ok_of otypes d c t hp
        (by rw [hts, hct]; exact hty) hcr hsc
      rw [hok] at he
      cases he
  · intro hbad
    cases hres : multicrop.config.config otypes (some d) with
    | error e => exact ⟨e, rfl⟩
    | ok cfg =>
      exfalso
      obtain ⟨c2, st, hp2, hst, hcfg, hv⟩ :=
        (multicrop.config.construct_ok_iff otypes d cfg).mp hres
      have hc : c2 = c := by
        rw [hp] at hp2
        exact (Except.ok.inj hp2).symm
      subst hc
      obtain ⟨hcr, hsc⟩ := (multicrop.config.validate_passes_iff cfg).mp hv
      have e1 : cfg.crops_per_scale = c2.crops_per_scale := by rw [hcfg]; exact h1
      have e2 : cfg.multicrop_scales = c2.multicrop_scales := by rw [hcfg]; exact h2
      rw [e1, hcc] at hcr
      rw [e2, hcs] at hsc
      rcases hbad with hnone | ⟨n1, n5⟩ | ⟨s, hsm, hn⟩
      · unfold add_shape_type at hst
        rw [hts, hct, hnone] at hst
        cases hst
      · rcases hcr with a | a
        · exact n1 a
        · exact n5 a
      · exact hn (hsc (to_float s) (List.mem_map_of_mem to_float hsm))

/-- C11, as stated, fails in both directions of its "only if". The document with
height 224, width 224, the scale 0.875, one crop per scale and the `type_string`
`no_such_type` raises an error, although its count of crops is 1 and its scale
lies strictly between 0 and 1: the element type is looked up before `validate`
runs. The document with the scale 0.99999999 (and the default `type_string`)
raises an error, although that scale lies strictly between 0 and 1: the `float`
that stores it is 1. -/
theorem multicrop_config_rejects_outside_stated_cases :
    ((∃ e, multicrop.config.config test_otypes
        (some { height := some 224, width := some 224, multicrop_scales := some [7/8],
                crops_per_scale := some 1, type_string := some "no_such_type" })
          = .error e) ∧
      ¬ (((1 : Int) ≠ 1 ∧ (1 : Int) ≠ 5) ∨ ∃ s ∈ [(7/8 : ℚ)], ¬ (0 < s ∧ s < 1))) ∧
    ((∃ e, multicrop.config.config test_otypes
        (some { height := some 224, width := some 224,
                multicrop_scales := some [99999999/100000000],
                crops_per_scale := some 1 }) = .error e) ∧
      ¬ (((1 : Int) ≠ 1 ∧ (1 : Int) ≠ 5) ∨
          ∃ s ∈ [(99999999/100000000 : ℚ)], ¬ (0 < s ∧ s < 1))) := by
  refine ⟨⟨?_, ?_⟩, ⟨?_, ?_⟩⟩
  · exact (multicrop.config.construct_error_iff test_otypes
      { height := some 224, width := some 224, multicrop_scales := some [7/8],
        crops_per_scale := some 1, type_string := some "no_such_type" }
      224 224 [7/8] rfl rfl rfl).mpr (Or.inl (by decide))
  · rintro (⟨h1, _⟩ | ⟨s, hs, hn⟩)
    · exact h1 rfl
    · rw [List.mem_singleton.mp hs] at hn
      exact hn (by norm_num)
  · exact (multicrop.config.construct_error_iff test_otypes
      { height := some 224, width := some 224,
        multicrop_scales := some [99999999/100000000], crops_per_scale := some 1 }
      224 224 [99999999/100000000] rfl rfl rfl).mpr
      (Or.inr (Or.inr ⟨99999999/100000000, List.mem_singleton_self _, by
        rw [to_float_near_one]
        norm_num⟩))
  · rintro (⟨h1, _⟩ | ⟨s, hs, hn⟩)
    · exact h1 rfl
    · rw [List.mem_singleton.mp hs] at hn
      exact hn (by norm_num)

/-- C11, amended: for every multicrop document whose required fields are present
and well-typed, constructing `multicrop::config` raises an error if and only if its
`type_string` (given, or the default `uint8_t`) names no known element type, or
`crops_per_scale` (given, or the default 5) is neither 1 nor 5, or some value `s`
in `multicrop_scales`, as the `float` that stores it, fails `0 < s < 1`; the end
points 0 and 1 are rejected. -/
theorem multicrop_config_rejects_iff (otypes : String → Option output_type)
    (d : multicrop.document) (h w : Nat) (scales : List ℚ)
    (hh : d.height = some h) (hw : d.width = some w)
    (hs : d.multicrop_scales = some scales) :
    ((∃ e, multicrop.config.config otypes (some d) = .error e) ↔
      (otypes (d.type_string.getD "uint8_t") = none ∨
        (d.crops_per_scale.getD 5 ≠ 1 ∧ d.crops_per_scale.getD 5 ≠ 5) ∨
        ∃ s ∈ scales, ¬ (0 < to_float s ∧ to_float s < 1))) ∧
    ((0 : ℚ) ∈ scales ∨ (1 : ℚ) ∈ scales →
      ∃ e, multicrop.config.config otypes (some d) = .error e) := by
  have hiff := multicrop.config.construct_error_iff otypes d h w scales hh hw hs
  refine ⟨hiff, ?_⟩
  intro hend
  apply hiff.mpr
  right
  right
  rcases hend with h0 | h1
  · exact ⟨0, h0, by rw [to_float_zero]; norm_num⟩
  · exact ⟨1, h1, by rw [to_float_one]; norm_num⟩

/-- C11 amended, at the first document of `TEST(image, multi_crop)` changed in one
entry: with the scale replaced by the end point 1 the construction raises an
error, and so it does with three crops per scale. -/
theorem multicrop_config_rejects_iff_witness :
    (∃ e, multicrop.config.config test_otypes
      (some { height := some 224, width := some 224, multicrop_scales := some [1],
              crops_per_scale := some 1 }) = .error e) ∧
    (∃ e, multicrop.config.config test_otypes
      (some { height := some 224, width := some 224, multicrop_scales := some [7/8],
              crops_per_scale := some 3 }) = .error e) :=
  ⟨(multicrop_config_rejects_iff test_otypes
      { height := some 224, width := some 224, multicrop_scales := some [1],
        crops_per_scale := some 1 }
      224 224 [1] rfl rfl rfl).2 (Or.inr (List.mem_singleton_self _)),
    (multicrop_config_rejects_iff test_otypes
      { height := some 224, width := some 224, multicrop_scales := some [7/8],
        crops_per_scale := some 3 }
      224 224 [7/8] rfl rfl rfl).1.mpr (Or.inr (Or.inl ⟨by decide, by decide⟩))⟩

/-! ## image::config: parsed and derived fields -/

theorem add_shape_type_ok_iff (otypes : String → Option output_type) (shape : List Nat)
    (ts : String) (st : shape_type) :
    add_shape_type otypes shape ts = .ok st ↔
      ∃ t, otypes ts = some t ∧ st = { shape := shape, otype := t } := by
  unfold add_shape_type
  cases h : otypes ts with
  | none => simp
  | some t =>
    simp only [Except.ok.injEq, Option.some.injEq, exists_eq_left']
    exact eq_comm

/-- What the derivation step computes. -/
theorem image.config.derive_eq (c : image.config) :
    (image.config.derive c).1 =
        { c with
          flip_distribution := if c.flip_enable then ⟨1/2⟩ else c.flip_distribution
          crop_offset := if c.center then c.crop_offset else ⟨0, 1⟩ } ∧
      (image.config.derive c).2 =
        (if c.channel_major then [c.channels, c.height, c.width]
         else [c.height, c.width, c.channels]) := by
  unfold image.config.derive
  cases c with
  | mk h w s ts das cm ch sc an li hd ph co fd fe ce st =>
    cases fe <;> cases ce <;> exact ⟨rfl, rfl⟩

theorem image.config.parse_ok_value (d : image.document) (c : image.config)
    (hp : image.config.parse d = .ok c) :
    ∃ h w, d.height = some h ∧ d.width = some w ∧
      c =
        { height := h
          width := w
          seed := d.seed.getD 0
          type_string := d.type_string.getD "uint8_t"
          do_area_scale := d.do_area_scale.getD false
          channel_major := d.channel_major.getD true
          channels := d.channels.getD 3
          scale := d.scale.getD ⟨1, 1⟩
          angle := d.angle.getD ⟨0, 0⟩
          lighting := d.lighting.getD ⟨0, 0⟩
          horizontal_distortion := d.horizontal_distortion.getD ⟨1, 1⟩
          photometric := d.photometric.getD ⟨0, 0⟩
          crop_offset := d.crop_offset.getD ⟨1/2, 1/2⟩
          flip_distribution := ⟨0⟩
          flip_enable := d.flip_enable.getD false
          center := d.center.getD true
          shape_type := none } := by
  unfold image.config.parse at hp
  cases hh : d.height with
  | none => simp [hh] at hp
  | some h =>
    cases hw : d.width with
    | none => simp [hh, hw] at hp
    | some w =>
      simp only [hh, hw, Except.ok.injEq] at hp
      exact ⟨h, w, rfl, rfl, hp.symm⟩

/-- The value of a constructed `image::config`, field by field, in terms of the
document: parsed fields hold the document's entry or the default, the flip
distribution and the crop offset are as the derivation leaves them. -/
theorem image.config.config_ok_value (otypes : String → Option output_type)
    (d : image.document) (cfg : image.config)
    (hok : image.config.config otypes (some d) = .ok cfg) :
    ∃ h w st, d.height = some h ∧ d.width = some w ∧
      otypes (d.type_string.getD "uint8_t") = some st.otype ∧
      st.shape = (if d.channel_major.getD true then [d.channels.getD 3, h, w]
                  else [h, w, d.channels.getD 3]) ∧
      cfg =
        { height := h
          width := w
          seed := d.seed.getD 0
          type_string := d.type_string.getD "uint8_t"
          do_area_scale := d.do_area_scale.getD false
          channel_major := d.channel_major.getD true
          channels := d.channels.getD 3
          scale := d.scale.getD ⟨1, 1⟩
          angle := d.angle.getD ⟨0, 0⟩
          lighting := d.lighting.getD ⟨0, 0⟩
          horizontal_distortion := d.horizontal_distortion.getD ⟨1, 1⟩
          photometric := d.photometric.getD ⟨0, 0⟩
          crop_offset := if d.center.getD true then d.crop_offset.getD ⟨1/2, 1/2⟩ else ⟨0, 1⟩
          flip_distribution := if d.flip_enable.getD false then ⟨1/2⟩ else ⟨0⟩
          flip_enable := d.flip_enable.getD false
          center := d.center.getD true
          shape_type := some st } := by
  obtain ⟨c, st, hp, hs, hcfg, _⟩ := (image.config.config_ok_iff otypes d cfg).mp hok
  obtain ⟨h, w, hh, hw, hc⟩ := image.config.parse_ok_value d c hp
  obtain ⟨hd1, hd2⟩ := image.config.derive_eq c
  obtain ⟨t, ht, hst⟩ := (add_shape_type_ok_iff otypes _ _ st).mp hs
  rw [hd1] at ht hcfg
  rw [hd2] at hst
  refine ⟨h, w, st, hh, hw, ?_, ?_, ?_⟩
  · rw [hst]
    simp only
    rw [← ht, hc]
  · rw [hst]
    simp only
    rw [hc]
  · rw [hcfg, hc]

/-- C12, as stated, fails for the crop offset: the document with height 30, width
30 and `center` false has no `crop_offset`, and the configuration constructed
from it holds the crop offset `[0,1]`, not the default `[0.5,0.5]`. -/
theorem image_config_absent_crop_offset_not_default :
    ({ height := some 30, width := some 30, center := some false } :
        image.document).crop_offset = none ∧
    ∃ cfg, image.config.config test_otypes
        (some { height := some 30, width := some 30, center := some false }) = .ok cfg ∧
      cfg.crop_offset = ⟨0, 1⟩ ∧ cfg.crop_offset ≠ ⟨1/2, 1/2⟩ := by
  have hok := image.config.config_ok_of test_otypes
    { height := some 30, width := some 30, center := some false }
    { height := 30, width := 30, seed := 0, type_string := "uint8_t",
      do_area_scale := false, channel_major := true, channels := 3, scale := ⟨1, 1⟩,
      angle := ⟨0, 0⟩, lighting := ⟨0, 0⟩, horizontal_distortion := ⟨1, 1⟩,
      photometric := ⟨0, 0⟩, crop_offset := ⟨1/2, 1/2⟩, flip_distribution := ⟨0⟩,
      flip_enable := false, center := false, shape_type := none }
    ⟨0, 1, 0, 255⟩ rfl (by decide) (by norm_num [image.config.derive]) (by decide)
    (by decide)
  refine ⟨rfl, _, hok, rfl, ?_⟩
  simp [image.config.derive]

/-- C12, amended: for every configuration document that lacks the required field
`height` or the required field `width`, constructing `image::config` raises an
error; and for every document, the constructed configuration holds, for each
optional field that is absent, that field's default (seed 0, `uint8_t`, channels
3, channel_major true, do_area_scale false, scale `[1,1]`, angle `[0,0]`, lighting
`(0,0)`, horizontal distortion `[1,1]`, photometric `[0,0]`, flip_enable false and
with it the flip probability 0, center true), except for the crop offset: when
`crop_offset` is absent, the constructed crop offset is the default `[0.5,0.5]`
if center crop is requested (`center` absent or true), and is `[0,1]` if center
crop is not requested (`center` false). -/
theorem image_config_required_and_defaults (otypes : String → Option output_type)
    (d : image.document) :
    (d.height = none ∨ d.width = none →
      ∃ e, image.config.config otypes (some d) = .error e) ∧
    (∀ cfg, image.config.config otypes (some d) = .ok cfg →
      (d.seed = none → cfg.seed = 0) ∧
      (d.type_string = none → cfg.type_string = "uint8_t") ∧
      (d.channels = none → cfg.channels = 3) ∧
      (d.channel_major = none → cfg.channel_major = true) ∧
      (d.do_area_scale = none → cfg.do_area_scale = false) ∧
      (d.scale = none → cfg.scale = ⟨1, 1⟩) ∧
      (d.angle = none → cfg.angle = ⟨0, 0⟩) ∧
      (d.lighting = none → cfg.lighting = ⟨0, 0⟩) ∧
      (d.horizontal_distortion = none → cfg.horizontal_distortion = ⟨1, 1⟩) ∧
      (d.photometric = none → cfg.photometric = ⟨0, 0⟩) ∧
      (d.flip_enable = none → cfg.flip_enable = false ∧ cfg.flip_distribution = ⟨0⟩) ∧
      (d.center = none → cfg.center = true) ∧
      (d.crop_offset = none → (d.center = none ∨ d.center = some true) →
        cfg.crop_offset = ⟨1/2, 1/2⟩) ∧
      (d.crop_offset = none → d.center = some false → cfg.crop_offset = ⟨0, 1⟩)) := by
  constructor
  · intro hmiss
    cases hres : image.config.config otypes (some d) with
    | error e => exact ⟨e, rfl⟩
    | ok cfg =>
      exfalso
      obtain ⟨h, w, _, hh, hw, _⟩ := image.config.config_ok_value otypes d cfg hres
      rcases hmiss with hm | hm
      · rw [hm] at hh; cases hh
      · rw [hm] at hw; cases hw
  · intro cfg hok
    obtain ⟨h, w, st, _, _, _, _, hcfg⟩ := image.config.config_ok_value otypes d cfg hok
    rw [hcfg]
    refine ⟨?_, ?_, ?_, ?_, ?_, ?_, ?_, ?_, ?_, ?_, ?_, ?_, ?_, ?_⟩
    · intro hn; simp [hn]
    · intro hn; simp [hn]
    · intro hn; simp [hn]
    · intro hn; simp [hn]
    · intro hn; simp [hn]
    · intro hn; simp [hn]
    · intro hn; simp [hn]
    · intro hn; simp [hn]
    · intro hn; simp [hn]
    · intro hn; simp [hn]
    · intro hn; simp [hn]
    · intro hn; simp [hn]
    · intro hn hc
      rcases hc with hc | hc <;> simp [hn, hc]
    · intro hn hc
      simp [hc]

/-- C12 amended, on the documents of two tests. The document of
`TEST(image, missing_config_arg)` has no `height` and the construction raises an
error. The document of `TEST(image, config)` constructs, and the fields it leaves
out hold their defaults, as the test expects: do_area_scale false, channel_major
true, photometric `[0,0]`, and (center crop being requested by default) crop
offset `[0.5,0.5]`. -/
theorem image_config_required_and_defaults_witness :
    (∃ e, image.config.config test_otypes
      (some { width := some 30, channels := some 1, angle := some ⟨-20, 20⟩,
              scale := some ⟨1/5, 4/5⟩, lighting := some ⟨0, 1/10⟩,
              horizontal_distortion := some ⟨3/4, 133/100⟩,
              flip_enable := some false }) = .error e) ∧
    (∃ cfg, image.config.config test_otypes
        (some { height := some 30, width := some 30, channels := some 3,
                angle := some ⟨-20, 20⟩, scale := some ⟨1/5, 4/5⟩,
                lighting := some ⟨0, 1/10⟩, horizontal_distortion := some ⟨3/4, 133/100⟩,
                flip_enable := some false }) = .ok cfg ∧
      cfg.do_area_scale = false ∧ cfg.channel_major = true ∧
      cfg.photometric = ⟨0, 0⟩ ∧ cfg.crop_offset = ⟨1/2, 1/2⟩) :=
  have hok := image.config.config_ok_of test_otypes
    { height := some 30, width := some 30, channels := some 3,
      angle := some ⟨-20, 20⟩, scale := some ⟨1/5, 4/5⟩,
      lighting := some ⟨0, 1/10⟩, horizontal_distortion := some ⟨3/4, 133/100⟩,
      flip_enable := some false }
    { height := 30, width := 30, seed := 0, type_string := "uint8_t",
      do_area_scale := false, channel_major := true, channels := 3, scale := ⟨1/5, 4/5⟩,
      angle := ⟨-20, 20⟩, lighting := ⟨0, 1/10⟩, horizontal_distortion := ⟨3/4, 133/100⟩,
      photometric := ⟨0, 0⟩, crop_offset := ⟨1/2, 1/2⟩, flip_distribution := ⟨0⟩,
      flip_enable := false, center := true, shape_type := none }
    ⟨0, 1, 0, 255⟩ rfl (by decide) (by norm_num [image.config.derive]) (by decide)
    (by decide)
  have h := (image_config_required_and_defaults test_otypes
    { height := some 30, width := some 30, channels := some 3,
      angle := some ⟨-20, 20⟩, scale := some ⟨1/5, 4/5⟩,
      lighting := some ⟨0, 1/10⟩, horizontal_distortion := some ⟨3/4, 133/100⟩,
      flip_enable := some false }).2 _ hok
  ⟨(image_config_required_and_defaults test_otypes
      { width := some 30, channels := some 1, angle := some ⟨-20, 20⟩,
        scale := some ⟨1/5, 4/5⟩, lighting := some ⟨0, 1/10⟩,
        horizontal_distortion := some ⟨3/4, 133/100⟩,
        flip_enable := some false }).1 (Or.inl rfl),
    ⟨_, hok, h.2.2.2.2.1 rfl, h.2.2.2.1 rfl, h.2.2.2.2.2.2.2.2.2.1 rfl,
      h.2.2.2.2.2.2.2.2.2.2.2.2.1 rfl (Or.inl rfl)⟩⟩

/-! ## image::param_factory: the params returned -/

/-- The result of `make_params`, field by field. -/
theorem image.param_factory.make_params_value (_cfg : image.config) (_dre : image.draws)
    (in_size : Size2i) :
    image.param_factory.make_params _cfg _dre in_size =
      if _cfg.do_area_scale then
        .error (.runtime_error "area scale not implemented")
      else
        .ok
          { cropbox :=
              { x := cvRound (image.cropbox_shift ⟨in_size.width, in_size.height⟩
                  (image.cropbox_linear_scale
                    (image.cropbox_max_proportional ⟨in_size.width, in_size.height⟩
                      ⟨_cfg.width * _dre.horizontal_distortion, _cfg.height⟩) _dre.scale)
                  _dre.c_off_x _dre.c_off_y).x
                y := cvRound (image.cropbox_shift ⟨in_size.width, in_size.height⟩
                  (image.cropbox_linear_scale
                    (image.cropbox_max_proportional ⟨in_size.width, in_size.height⟩
                      ⟨_cfg.width * _dre.horizontal_distortion, _cfg.height⟩) _dre.scale)
                  _dre.c_off_x _dre.c_off_y).y
                width := cvRound (image.cropbox_linear_scale
                    (image.cropbox_max_proportional ⟨in_size.width, in_size.height⟩
                      ⟨_cfg.width * _dre.horizontal_distortion, _cfg.height⟩) _dre.scale).width
                height := cvRound (image.cropbox_linear_scale
                    (image.cropbox_max_proportional ⟨in_size.width, in_size.height⟩
                      ⟨_cfg.width * _dre.horizontal_distortion, _cfg.height⟩) _dre.scale).height }
            output_size := { width := _cfg.width, height := _cfg.height }
            angle := _dre.angle
            flip := _dre.flip
            lighting :=
              if _cfg.lighting.stddev ≠ 0 then
                [_dre.lighting.1, _dre.lighting.2.1, _dre.lighting.2.2]
              else []
            color_noise_std := if _cfg.lighting.stddev ≠ 0 then _cfg.lighting.stddev else 0
            photometric :=
              if _cfg.photometric.a ≠ _cfg.photometric.b then
                [_dre.photometric.1, _dre.photometric.2.1, _dre.photometric.2.2]
              else [] } := by
  unfold image.param_factory.make_params image.param_factory.make_cropbox
  by_cases ha : _cfg.do_area_scale = true
  · simp only [ha, if_true]
    rfl
  · simp only [ha, if_false]
    by_cases hl : _cfg.lighting.stddev = 0 <;>
      by_cases hph : _cfg.photometric.a = _cfg.photometric.b <;>
      simp [hl, hph, bind, Except.bind, pure, Except.pure]

/-- C13: for every successfully constructed `image::config`, the derived flip
distribution is a Bernoulli with probability exactly 0.5 when the flip-enabled
flag is set and exactly 0 when it is not; so with flips disabled no params that
`make_params` returns, whatever the draws the distributions can give, has its
flip flag set. -/
theorem image_config_flip_distribution (otypes : String → Option output_type)
    (d : image.document) (cfg : image.config)
    (hok : image.config.config otypes (some d) = .ok cfg) :
    cfg.flip_enable = d.flip_enable.getD false ∧
    (cfg.flip_enable = true → cfg.flip_distribution = ⟨1/2⟩) ∧
    (cfg.flip_enable = false → cfg.flip_distribution = ⟨0⟩) ∧
    (cfg.flip_enable = false →
      ∀ (dre : image.draws) (in_size : Size2i) (p : image.params),
        dre.admissible cfg →
        image.param_factory.make_params cfg dre in_size = .ok p → p.flip = false) := by
  obtain ⟨h, w, st, _, _, _, _, hcfg⟩ := image.config.config_ok_value otypes d cfg hok
  have h1 : cfg.flip_enable = d.flip_enable.getD false := by rw [hcfg]
  have h2 : cfg.flip_distribution = if d.flip_enable.getD false then ⟨1/2⟩ else ⟨0⟩ := by
    rw [hcfg]
  refine ⟨h1, ?_, ?_, ?_⟩
  · intro he
    rw [h2, ← h1, he]
    rfl
  · intro he
    rw [h2, ← h1, he]
    rfl
  · intro he dre in_size p hadm hp
    have hdist : cfg.flip_distribution = ⟨0⟩ := by
      rw [h2, ← h1, he]
      rfl
    rw [image.param_factory.make_params_value] at hp
    by_cases ha : cfg.do_area_scale = true
    · rw [if_pos ha] at hp
      cases hp
    · rw [if_neg ha] at hp
      have hflip : p.flip = dre.flip := by
        rw [← Except.ok.inj hp]
      rw [hflip]
      have hcan := hadm.2.1
      rw [hdist] at hcan
      cases hb : dre.flip with
      | false => rfl
      | true =>
        exfalso
        have := hcan.1 hb
        simp at this

/-- C13 on the document of `TEST(image, config)` (`flip_enable` false): the flip
probability of the constructed configuration is 0. -/
theorem image_config_flip_distribution_witness :
    ∃ cfg, image.config.config test_otypes
        (some { height := some 30, width := some 30, channels := some 3,
                angle := some ⟨-20, 20⟩, scale := some ⟨1/5, 4/5⟩,
                lighting := some ⟨0, 1/10⟩, horizontal_distortion := some ⟨3/4, 133/100⟩,
                flip_enable := some false }) = .ok cfg ∧
      cfg.flip_distribution = ⟨0⟩ :=
  have hok := image.config.config_ok_of test_otypes
    { height := some 30, width := some 30, channels := some 3,
      angle := some ⟨-20, 20⟩, scale := some ⟨1/5, 4/5⟩,
      lighting := some ⟨0, 1/10⟩, horizontal_distortion := some ⟨3/4, 133/100⟩,
      flip_enable := some false }
    { height := 30, width := 30, seed := 0, type_string := "uint8_t",
      do_area_scale := false, channel_major := true, channels := 3, scale := ⟨1/5, 4/5⟩,
      angle := ⟨-20, 20⟩, lighting := ⟨0, 1/10⟩, horizontal_distortion := ⟨3/4, 133/100⟩,
      photometric := ⟨0, 0⟩, crop_offset := ⟨1/2, 1/2⟩, flip_distribution := ⟨0⟩,
      flip_enable := false, center := true, shape_type := none }
    ⟨0, 1, 0, 255⟩ rfl (by decide) (by norm_num [image.config.derive]) (by decide)
    (by decide)
  ⟨_, hok, (image_config_flip_distribution test_otypes _ _ hok).2.2.1 rfl⟩

/-- C14, as stated, fails when center crop is requested: the crop offset
`[0.2,0.8]` that the document supplies is kept, it is not replaced by the
constant 0.5. -/
theorem image_config_center_keeps_supplied_crop_offset :
    ∃ cfg, image.config.config test_otypes
        (some { height := some 30, width := some 30, crop_offset := some ⟨1/5, 4/5⟩,
                center := some true }) = .ok cfg ∧
      cfg.center = true ∧ cfg.crop_offset = ⟨1/5, 4/5⟩ ∧ cfg.crop_offset ≠ ⟨1/2, 1/2⟩ := by
  have hok := image.config.config_ok_of test_otypes
    { height := some 30, width := some 30, crop_offset := some ⟨1/5, 4/5⟩,
      center := some true }
    { height := 30, width := 30, seed := 0, type_string := "uint8_t",
      do_area_scale := false, channel_major := true, channels := 3, scale := ⟨1, 1⟩,
      angle := ⟨0, 0⟩, lighting := ⟨0, 0⟩, horizontal_distortion := ⟨1, 1⟩,
      photometric := ⟨0, 0⟩, crop_offset := ⟨1/5, 4/5⟩, flip_distribution := ⟨0⟩,
      flip_enable := false, center := true, shape_type := none }
    ⟨0, 1, 0, 255⟩ rfl (by decide) (by norm_num [image.config.derive]) (by decide)
    (by decide)
  refine ⟨_, hok, rfl, rfl, ?_⟩
  simp [image.config.derive]

/-- C14, amended: for every successfully constructed `image::config`, if center
crop is not requested the crop-offset distribution is uniform on `[0,1]` (lower
bound 0, upper bound 1) whatever the document supplied for `crop_offset`; if
center crop is requested (the default) it is the distribution the document
supplied for `crop_offset`, and the constant 0.5 (lower bound = upper bound =
0.5) when the document supplied none. -/
theorem image_config_crop_offset_derivation (otypes : String → Option output_type)
    (d : image.document) (cfg : image.config)
    (hok : image.config.config otypes (some d) = .ok cfg) :
    cfg.center = d.center.getD true ∧
    (cfg.center = false → cfg.crop_offset = ⟨0, 1⟩) ∧
    (cfg.center = true → cfg.crop_offset = d.crop_offset.getD ⟨1/2, 1/2⟩) ∧
    (cfg.center = true → d.crop_offset = none → cfg.crop_offset = ⟨1/2, 1/2⟩) := by
  obtain ⟨h, w, st, _, _, _, _, hcfg⟩ := image.config.config_ok_value otypes d cfg hok
  have h1 : cfg.center = d.center.getD true := by rw [hcfg]
  have h2 : cfg.crop_offset =
      if d.center.getD true then d.crop_offset.getD ⟨1/2, 1/2⟩ else ⟨0, 1⟩ := by
    rw [hcfg]
  refine ⟨h1, ?_, ?_, ?_⟩
  · intro hc
    rw [h2, ← h1, hc]
    rfl
  · intro hc
    rw [h2, ← h1, hc]
    rfl
  · intro hc hn
    rw [h2, ← h1, hc, hn]
    rfl

/-- C14 amended, on a document that does not request center crop and supplies a
crop offset: the constructed configuration holds `[0,1]`. -/
theorem image_config_crop_offset_derivation_witness :
    ∃ cfg, image.config.config test_otypes
        (some { height := some 30, width := some 30, crop_offset := some ⟨1/5, 4/5⟩,
                center := some false }) = .ok cfg ∧
      cfg.crop_offset = ⟨0, 1⟩ :=
  have hok := image.config.config_ok_of test_otypes
    { height := some 30, width := some 30, crop_offset := some ⟨1/5, 4/5⟩,
      center := some false }
    { height := 30, width := 30, seed := 0, type_string := "uint8_t",
      do_area_scale := false, channel_major := true, channels := 3, scale := ⟨1, 1⟩,
      angle := ⟨0, 0⟩, lighting := ⟨0, 0⟩, horizontal_distortion := ⟨1, 1⟩,
      photometric := ⟨0, 0⟩, crop_offset := ⟨1/5, 4/5⟩, flip_distribution := ⟨0⟩,
      flip_enable := false, center := false, shape_type := none }
    ⟨0, 1, 0, 255⟩ rfl (by decide) (by norm_num [image.config.derive]) (by decide)
    (by decide)
  ⟨_, hok, (image_config_crop_offset_derivation test_otypes _ _ hok).2.1 rfl⟩

/-- C15: for every successfully constructed `image::config`, the derived output
shape is the triple `(channels, height, width)` when `channel_major` is set and
`(height, width, channels)` when it is not; in both cases the product of its
entries is `channels * height * width`. -/
theorem image_config_output_shape (otypes : String → Option output_type)
    (d : image.document) (cfg : image.config)
    (hok : image.config.config otypes (some d) = .ok cfg) :
    ∃ st, cfg.shape_type = some st ∧
      (cfg.channel_major = true → st.shape = [cfg.channels, cfg.height, cfg.width]) ∧
      (cfg.channel_major = false → st.shape = [cfg.height, cfg.width, cfg.channels]) ∧
      st.shape.prod = cfg.channels * cfg.height * cfg.width := by
  obtain ⟨h, w, st, _, _, _, hshape, hcfg⟩ := image.config.config_ok_value otypes d cfg hok
  have e1 : cfg.shape_type = some st := by rw [hcfg]
  have e2 : cfg.channel_major = d.channel_major.getD true := by rw [hcfg]
  have e3 : cfg.channels = d.channels.getD 3 := by rw [hcfg]
  have e4 : cfg.height = h := by rw [hcfg]
  have e5 : cfg.width = w := by rw [hcfg]
  refine ⟨st, e1, ?_, ?_, ?_⟩
  · intro hm
    rw [hshape, ← e2, hm, e3, e4, e5]
    rfl
  · intro hm
    rw [hshape, ← e2, hm, e3, e4, e5]
    rfl
  · rw [hshape, e3, e4, e5]
    by_cases hm : d.channel_major.getD true = true
    · rw [if_pos hm]
      simp only [List.prod_cons, List.prod_nil]
      ring
    · rw [if_neg hm]
      simp only [List.prod_cons, List.prod_nil]
      ring

/-- C15 on the configuration of `TEST(image,noconvert_nosplit)` (width 10, height
10, 3 channels, channel-minor): the shape is `(10, 10, 3)`. -/
theorem image_config_output_shape_witness :
    ∃ cfg st, image.config.config test_otypes
        (some { height := some 10, width := some 10, channels := some 3,
                channel_major := some false, type_string := some "uint8_t" }) = .ok cfg ∧
      cfg.shape_type = some st ∧ st.shape = [10, 10, 3] ∧ st.shape.prod = 300 :=
  have hok := image.config.config_ok_of test_otypes
    { height := some 10, width := some 10, channels := some 3,
      channel_major := some false, type_string := some "uint8_t" }
    { height := 10, width := 10, seed := 0, type_string := "uint8_t",
      do_area_scale := false, channel_major := false, channels := 3, scale := ⟨1, 1⟩,
      angle := ⟨0, 0⟩, lighting := ⟨0, 0⟩, horizontal_distortion := ⟨1, 1⟩,
      photometric := ⟨0, 0⟩, crop_offset := ⟨1/2, 1/2⟩, flip_distribution := ⟨0⟩,
      flip_enable := false, center := true, shape_type := none }
    ⟨0, 1, 0, 255⟩ rfl (by decide) (by norm_num [image.config.derive]) (by decide)
    (by decide)
  match image_config_output_shape test_otypes _ _ hok with
  | ⟨st, h1, _, h3, h4⟩ => ⟨_, st, hok, h1, h3 rfl, h4⟩

/-- The documents from which an `image::config` constructs: both required fields
present, a known element type, positive width and height, and ordered crop-offset
bounds when center crop keeps them. -/
theorem image.config.config_ok_iff_document (otypes : String → Option output_type)
    (d : image.document) :
    (∃ cfg, image.config.config otypes (some d) = .ok cfg) ↔
      ∃ h w t, d.height = some h ∧ d.width = some w ∧
        otypes (d.type_string.getD "uint8_t") = some t ∧ 0 < w ∧ 0 < h ∧
        (d.center.getD true = true →
          (d.crop_offset.getD ⟨1/2, 1/2⟩).a ≤ (d.crop_offset.getD ⟨1/2, 1/2⟩).b) := by
  constructor
  · rintro ⟨cfg, hok⟩
    obtain ⟨h, w, st, hh, hw, ht, _, hcfg⟩ := image.config.config_ok_value otypes d cfg hok
    obtain ⟨_, _, _, _, _, hv⟩ := (image.config.config_ok_iff otypes d cfg).mp hok
    obtain ⟨hco, hpw, hph⟩ := (image.config.validate_ok_iff cfg).mp hv
    rw [hcfg] at hco hpw hph
    refine ⟨h, w, st.otype, hh, hw, ht, hpw, hph, ?_⟩
    intro hc
    simpa [hc] using hco
  · rintro ⟨h, w, t, hh, hw, ht, hpw, hph, hco⟩
    have hp : image.config.parse d = .ok
        { height := h
          width := w
          seed := d.seed.getD 0
          type_string := d.type_string.getD "uint8_t"
          do_area_scale := d.do_area_scale.getD false
          channel_major := d.channel_major.getD true
          channels := d.channels.getD 3
          scale := d.scale.getD ⟨1, 1⟩
          angle := d.angle.getD ⟨0, 0⟩
          lighting := d.lighting.getD ⟨0, 0⟩
          horizontal_distortion := d.horizontal_distortion.getD ⟨1, 1⟩
          photometric := d.photometric.getD ⟨0, 0⟩
          crop_offset := d.crop_offset.getD ⟨1/2, 1/2⟩
          flip_distribution := ⟨0⟩
          flip_enable := d.flip_enable.getD false
          center := d.center.getD true
          shape_type := none } := by
      unfold image.config.parse
      simp only [hh, hw]
    refine ⟨_, image.config.config_ok_of otypes d _ t hp ?_ ?_ hpw hph⟩
    · rw [(image.config.derive_eq _).1]
      exact ht
    · rw [(image.config.derive_eq _).1]
      by_cases hc : d.center.getD true = true
      · simp only [hc, if_true]
        exact hco hc
      · simp only [hc]
        norm_num

/-- C16: for every otherwise valid document that requests area scale
(`do_area_scale` true), constructing `image::config` succeeds (whether a document
constructs does not depend on `do_area_scale`), and every call of `make_params`
with that configuration, for every input size and every outcome of the draws,
raises an error and returns no params; when area scale is not requested
`make_params` never raises an error. -/
theorem make_params_area_scale_unsupported :
    (∀ (otypes : String → Option output_type) (d : image.document) (b : Option Bool),
      (∃ cfg, image.config.config otypes (some { d with do_area_scale := b }) = .ok cfg) ↔
        (∃ cfg, image.config.config otypes (some d) = .ok cfg)) ∧
    (∀ (otypes : String → Option output_type) (d : image.document) (cfg : image.config),
      image.config.config otypes (some d) = .ok cfg →
      (cfg.do_area_scale = true ↔ d.do_area_scale = some true) ∧
      (d.do_area_scale = some true →
        ∀ (dre : image.draws) (in_size : Size2i),
          image.param_factory.make_params cfg dre in_size =
            .error (.runtime_error "area scale not implemented")) ∧
      (d.do_area_scale ≠ some true →
        ∀ (dre : image.draws) (in_size : Size2i),
          ∃ p, image.param_factory.make_params cfg dre in_size = .ok p)) := by
  constructor
  · intro otypes d b
    rw [image.config.config_ok_iff_document, image.config.config_ok_iff_document]
  · intro otypes d cfg hok
    obtain ⟨h, w, st, _, _, _, _, hcfg⟩ := image.config.config_ok_value otypes d cfg hok
    have hda : cfg.do_area_scale = d.do_area_scale.getD false := by rw [hcfg]
    have hiff : cfg.do_area_scale = true ↔ d.do_area_scale = some true := by
      rw [hda]
      cases hd : d.do_area_scale with
      | none => simp
      | some v => simp
    refine ⟨hiff, ?_, ?_⟩
    · intro hreq dre in_size
      rw [image.param_factory.make_params_value, if_pos (hiff.mpr hreq)]
    · intro hreq dre in_size
      have hn : ¬ cfg.do_area_scale = true := fun e => hreq (hiff.mp e)
      rw [image.param_factory.make_params_value, if_neg hn]
      exact ⟨_, rfl⟩

/-- C16 on the configuration of `TEST(image,passthrough)` with area scale
requested: the document constructs and `make_params` raises the error. -/
theorem make_params_area_scale_unsupported_witness :
    ∃ cfg, image.config.config test_otypes
        (some { height := some 256, width := some 512, do_area_scale := some true })
          = .ok cfg ∧
      image.param_factory.make_params cfg quarter_offset_draws { width := 512, height := 256 } =
        .error (.runtime_error "area scale not implemented") :=
  have hok := image.config.config_ok_of test_otypes
    { height := some 256, width := some 512, do_area_scale := some true }
    { height := 256, width := 512, seed := 0, type_string := "uint8_t",
      do_area_scale := true, channel_major := true, channels := 3, scale := ⟨1, 1⟩,
      angle := ⟨0, 0⟩, lighting := ⟨0, 0⟩, horizontal_distortion := ⟨1, 1⟩,
      photometric := ⟨0, 0⟩, crop_offset := ⟨1/2, 1/2⟩, flip_distribution := ⟨0⟩,
      flip_enable := false, center := true, shape_type := none }
    ⟨0, 1, 0, 255⟩ rfl (by decide) (by norm_num [image.config.derive]) (by decide)
    (by decide)
  ⟨_, hok, (make_params_area_scale_unsupported.2 test_otypes _ _ hok).2.1 rfl
    quarter_offset_draws { width := 512, height := 256 }⟩

/-! ## block_iterator_sequential: reset -/

/-- C19: for every state `(index, count)` of `block_iterator_sequential`, `reset`
yields the state `(0, count)`: it sets the index to 0 whatever it was, leaves the
block count unchanged, requests no block from the loader, and is idempotent. -/
theorem block_iterator_sequential_reset_idempotent (bits : Nat)
    (s : block_iterator_sequential) :
    s.reset = { _count := s._count, _i := 0 } ∧
    s.reset._i = 0 ∧
    s.reset._count = s._count ∧
    s.reset.reset = s.reset ∧
    block_iterator_sequential.perform bits .reset s = ([], s.reset) :=
  ⟨rfl, rfl, rfl, rfl, rfl⟩

/-- C20: for every configuration and input size on which `make_params` succeeds,
each jitter vector of the returned params has length 0 or 3: the lighting vector
has exactly 3 entries (the three draws) and the stored standard deviation equals
the lighting distribution's standard deviation if that standard deviation is
non-zero, and is empty otherwise; the photometric vector has exactly 3 entries
(the three draws) if the photometric distribution's lower and upper bounds
differ, and is empty otherwise. -/
theorem make_params_jitter_vectors (_cfg : image.config) (_dre : image.draws)
    (in_size : Size2i) (p : image.params)
    (hok : image.param_factory.make_params _cfg _dre in_size = .ok p) :
    (p.lighting.length = 0 ∨ p.lighting.length = 3) ∧
    (p.photometric.length = 0 ∨ p.photometric.length = 3) ∧
    (_cfg.lighting.stddev ≠ 0 →
      p.lighting.length = 3 ∧
        p.lighting = [_dre.lighting.1, _dre.lighting.2.1, _dre.lighting.2.2] ∧
        p.color_noise_std = _cfg.lighting.stddev) ∧
    (_cfg.lighting.stddev = 0 → p.lighting = []) ∧
    (_cfg.photometric.a ≠ _cfg.photometric.b →
      p.photometric.length = 3 ∧
        p.photometric = [_dre.photometric.1, _dre.photometric.2.1, _dre.photometric.2.2]) ∧
    (_cfg.photometric.a = _cfg.photometric.b → p.photometric = []) := by
  rw [image.param_factory.make_params_value] at hok
  by_cases ha : _cfg.do_area_scale = true
  · rw [if_pos ha] at hok
    cases hok
  · rw [if_neg ha] at hok
    have hp := Except.ok.inj hok
    have hl : p.lighting = if _cfg.lighting.stddev ≠ 0 then
        [_dre.lighting.1, _dre.lighting.2.1, _dre.lighting.2.2] else [] := by rw [← hp]
    have hs : p.color_noise_std =
        if _cfg.lighting.stddev ≠ 0 then _cfg.lighting.stddev else 0 := by rw [← hp]
    have hph : p.photometric = if _cfg.photometric.a ≠ _cfg.photometric.b then
        [_dre.photometric.1, _dre.photometric.2.1, _dre.photometric.2.2] else [] := by
      rw [← hp]
    refine ⟨?_, ?_, ?_, ?_, ?_, ?_⟩
    · rw [hl]
      by_cases h0 : _cfg.lighting.stddev = 0
      · left; simp [h0]
      · right; simp [h0]
    · rw [hph]
      by_cases h0 : _cfg.photometric.a = _cfg.photometric.b
      · left; simp [h0]
      · right; simp [h0]
    · intro h0
      rw [hl, hs, if_pos h0, if_pos h0]
      exact ⟨rfl, rfl, rfl⟩
    · intro h0
      rw [hl, if_neg (not_not.mpr h0)]
    · intro h0
      rw [hph, if_pos h0]
      exact ⟨rfl, rfl⟩
    · intro h0
      rw [hph, if_neg (not_not.mpr h0)]

/-- C20 on two configurations. Under `jitter_config` (lighting standard deviation
0.1, photometric bounds -0.1 and 0.1) `make_params` succeeds, the lighting vector
holds the three lighting draws, the stored standard deviation is 0.1, and the
photometric vector holds the three photometric draws. Under the configuration of
`TEST(image,passthrough)` both distributions are degenerate and both vectors are
empty. -/
theorem make_params_jitter_vectors_witness :
    (∃ p, image.param_factory.make_params jitter_config jitter_draws
        { width := 300, height := 200 } = .ok p ∧
      p.lighting = [1/20, -3/100, 1/50] ∧ p.lighting.length = 3 ∧
      p.color_noise_std = 1/10 ∧
      p.photometric = [1/20, -1/20, 0] ∧ p.photometric.length = 3) ∧
    (∃ p, image.param_factory.make_params passthrough_config quarter_offset_draws
        { width := 300, height := 200 } = .ok p ∧
      p.lighting = [] ∧ p.photometric = []) :=
  have hv1 := image.param_factory.make_params_value jitter_config jitter_draws
    { width := 300, height := 200 }
  have hok1 : image.param_factory.make_params jitter_config jitter_draws
      { width := 300, height := 200 } = .ok _ := hv1.trans (if_neg (by decide))
  have h1 := make_params_jitter_vectors jitter_config jitter_draws
    { width := 300, height := 200 } _ hok1
  have hl : jitter_config.lighting.stddev ≠ 0 := by norm_num [jitter_config]
  have hph : jitter_config.photometric.a ≠ jitter_config.photometric.b := by
    norm_num [jitter_config]
  have hv := image.param_factory.make_params_value passthrough_config quarter_offset_draws
    { width := 300, height := 200 }
  have hok : image.param_factory.make_params passthrough_config quarter_offset_draws
      { width := 300, height := 200 } = .ok _ := hv.trans (if_neg (by decide))
  have h := make_params_jitter_vectors passthrough_config quarter_offset_draws
    { width := 300, height := 200 } _ hok
  ⟨⟨_, hok1, (h1.2.2.1 hl).2.1, (h1.2.2.1 hl).1, (h1.2.2.1 hl).2.2,
      (h1.2.2.2.2.1 hph).2, (h1.2.2.2.2.1 hph).1⟩,
    ⟨_, hok, h.2.2.2.1 rfl, h.2.2.2.2.2 rfl⟩⟩

/-! ## Scale-shape helper -/

/-- Rounding a non-negative number: the result is within 1/2 of it and does not
pass an integer bound that the number does not pass. -/
theorem round_half_away_nonneg (x : ℚ) (hx : 0 ≤ x) :
    |((round_half_away x : Int) : ℚ) - x| ≤ 1/2 ∧
      ∀ M : Int, x ≤ (M : ℚ) → round_half_away x ≤ M := by
  unfold round_half_away
  rw [if_pos hx]
  have h1 : ((⌊x + 1/2⌋ : Int) : ℚ) ≤ x + 1/2 := Int.floor_le _
  have h2 : x + 1/2 < ((⌊x + 1/2⌋ : Int) : ℚ) + 1 := Int.lt_floor_add_one _
  constructor
  · rw [abs_le]
    constructor <;> linarith
  · intro M hM
    have h3 : ⌊x + 1/2⌋ < M + 1 := by
      rw [Int.floor_lt]
      push_cast
      linarith
    omega

theorem round_half_away_intCast (n : Int) (hn : 0 ≤ n) : round_half_away (n : ℚ) = n := by
  unfold round_half_away
  have h0 : (0 : ℚ) ≤ (n : ℚ) := by exact_mod_cast hn
  rw [if_pos h0, Int.floor_eq_iff]
  constructor <;> linarith

/-- C18: for every size with positive sides and every `0 < min_size <= max_size`,
`calculate_scale_shape` returns the factor `s = min_size / (shorter side)` when
`s * (longer side) <= max_size` and `s = max_size / (longer side)` otherwise,
together with the size whose sides are the original sides times `s` rounded to
the nearest integer (within 1/2 of the exact product); so the returned longer
side never exceeds `max_size`; and for size `(500,375)`, min 600, max 1000 the
result is `s = 1.6` and size `(800,600)`. -/
theorem calculate_scale_shape_bounded :
    (∀ (size : Size2i) (min_size max_size : Int),
      0 < size.width → 0 < size.height → 0 < min_size → min_size ≤ max_size →
      (((min_size : ℚ) / ((min size.width size.height : Int) : ℚ)) *
            ((max size.width size.height : Int) : ℚ) ≤ (max_size : ℚ) →
        (image.calculate_scale_shape size min_size max_size).1 =
          (min_size : ℚ) / ((min size.width size.height : Int) : ℚ)) ∧
      (¬ ((min_size : ℚ) / ((min size.width size.height : Int) : ℚ)) *
            ((max size.width size.height : Int) : ℚ) ≤ (max_size : ℚ) →
        (image.calculate_scale_shape size min_size max_size).1 =
          (max_size : ℚ) / ((max size.width size.height : Int) : ℚ)) ∧
      (image.calculate_scale_shape size min_size max_size).2 =
        { width := round_half_away ((size.width : ℚ) *
            (image.calculate_scale_shape size min_size max_size).1),
          height := round_half_away ((size.height : ℚ) *
            (image.calculate_scale_shape size min_size max_size).1) } ∧
      |(((image.calculate_scale_shape size min_size max_size).2.width : Int) : ℚ) -
          (size.width : ℚ) * (image.calculate_scale_shape size min_size max_size).1| ≤ 1/2 ∧
      |(((image.calculate_scale_shape size min_size max_size).2.height : Int) : ℚ) -
          (size.height : ℚ) * (image.calculate_scale_shape size min_size max_size).1| ≤ 1/2 ∧
      max (image.calculate_scale_shape size min_size max_size).2.width
          (image.calculate_scale_shape size min_size max_size).2.height ≤ max_size) ∧
    image.calculate_scale_shape ⟨500, 375⟩ 600 1000 = (8/5, ⟨800, 600⟩) := by
  have key : ∀ (size : Size2i) (min_size max_size : Int),
      0 < size.width → 0 < size.height → 0 < min_size → min_size ≤ max_size →
      (((min_size : ℚ) / ((min size.width size.height : Int) : ℚ)) *
            ((max size.width size.height : Int) : ℚ) ≤ (max_size : ℚ) →
        (image.calculate_scale_shape size min_size max_size).1 =
          (min_size : ℚ) / ((min size.width size.height : Int) : ℚ)) ∧
      (¬ ((min_size : ℚ) / ((min size.width size.height : Int) : ℚ)) *
            ((max size.width size.height : Int) : ℚ) ≤ (max_size : ℚ) →
        (image.calculate_scale_shape size min_size max_size).1 =
          (max_size : ℚ) / ((max size.width size.height : Int) : ℚ)) ∧
      (image.calculate_scale_shape size min_size max_size).2 =
        { width := round_half_away ((size.width : ℚ) *
            (image.calculate_scale_shape size min_size max_size).1),
          height := round_half_away ((size.height : ℚ) *
            (image.calculate_scale_shape size min_size max_size).1) } ∧
      |(((image.calculate_scale_shape size min_size max_size).2.width : Int) : ℚ) -
          (size.width : ℚ) * (image.calculate_scale_shape size min_size max_size).1| ≤ 1/2 ∧
      |(((image.calculate_scale_shape size min_size max_size).2.height : Int) : ℚ) -
          (size.height : ℚ) * (image.calculate_scale_shape size min_size max_size).1| ≤ 1/2 ∧
      max (image.calculate_scale_shape size min_size max_size).2.width
          (image.calculate_scale_shape size min_size max_size).2.height ≤ max_size := by
    intro size min_size max_size hw hh hmin hmm
    have ha : (0 : ℚ) < ((min size.width size.height : Int) : ℚ) := by
      exact_mod_cast lt_min hw hh
    have hb : (0 : ℚ) < ((max size.width size.height : Int) : ℚ) := by
      exact_mod_cast lt_of_lt_of_le hw (le_max_left _ _)
    have hwq : (0 : ℚ) < (size.width : ℚ) := by exact_mod_cast hw
    have hhq : (0 : ℚ) < (size.height : ℚ) := by exact_mod_cast hh
    have hwb : (size.width : ℚ) ≤ ((max size.width size.height : Int) : ℚ) := by
      exact_mod_cast le_max_left _ _
    have hhb : (size.height : ℚ) ≤ ((max size.width size.height : Int) : ℚ) := by
      exact_mod_cast le_max_right _ _
    have hminq : (0 : ℚ) < (min_size : ℚ) := by exact_mod_cast hmin
    have hmaxq : (0 : ℚ) < (max_size : ℚ) := by exact_mod_cast lt_of_lt_of_le hmin hmm
    -- the scale, its sign and the bound on the scaled longer side
    have hs1 : ((min_size : ℚ) / ((min size.width size.height : Int) : ℚ)) *
          ((max size.width size.height : Int) : ℚ) ≤ (max_size : ℚ) →
        (image.calculate_scale_shape size min_size max_size).1 =
          (min_size : ℚ) / ((min size.width size.height : Int) : ℚ) := by
      intro hle
      unfold image.calculate_scale_shape
      simp only
      rw [if_neg (not_lt.mpr hle)]
    have hs2 : ¬ ((min_size : ℚ) / ((min size.width size.height : Int) : ℚ)) *
          ((max size.width size.height : Int) : ℚ) ≤ (max_size : ℚ) →
        (image.calculate_scale_shape size min_size max_size).1 =
          (max_size : ℚ) / ((max size.width size.height : Int) : ℚ) := by
      intro hgt
      unfold image.calculate_scale_shape
      simp only
      rw [if_pos (not_le.mp hgt)]
    have hpos : 0 < (image.calculate_scale_shape size min_size max_size).1 ∧
        (image.calculate_scale_shape size min_size max_size).1 *
          ((max size.width size.height : Int) : ℚ) ≤ (max_size : ℚ) := by
      by_cases hle : ((min_size : ℚ) / ((min size.width size.height : Int) : ℚ)) *
          ((max size.width size.height : Int) : ℚ) ≤ (max_size : ℚ)
      · rw [hs1 hle]
        exact ⟨div_pos hminq ha, hle⟩
      · rw [hs2 hle]
        refine ⟨div_pos hmaxq hb, ?_⟩
        rw [div_mul_cancel₀ _ (ne_of_gt hb)]
    have hsize : (image.calculate_scale_shape size min_size max_size).2 =
        { width := round_half_away ((size.width : ℚ) *
            (image.calculate_scale_shape size min_size max_size).1),
          height := round_half_away ((size.height : ℚ) *
            (image.calculate_scale_shape size min_size max_size).1) } := rfl
    generalize (image.calculate_scale_shape size min_size max_size).1 = s at *
    have hxw : 0 ≤ (size.width : ℚ) * s := le_of_lt (mul_pos hwq hpos.1)
    have hxh : 0 ≤ (size.height : ℚ) * s := le_of_lt (mul_pos hhq hpos.1)
    have hbw : (size.width : ℚ) * s ≤ (max_size : ℚ) := by nlinarith [hpos.1, hpos.2]
    have hbh : (size.height : ℚ) * s ≤ (max_size : ℚ) := by nlinarith [hpos.1, hpos.2]
    refine ⟨hs1, hs2, hsize, ?_, ?_, ?_⟩
    · rw [hsize]
      exact (round_half_away_nonneg _ hxw).1
    · rw [hsize]
      exact (round_half_away_nonneg _ hxh).1
    · rw [hsize]
      exact max_le ((round_half_away_nonneg _ hxw).2 _ hbw)
        ((round_half_away_nonneg _ hxh).2 _ hbh)
  refine ⟨key, ?_⟩
  obtain ⟨h1, _, h3, _⟩ := key ⟨500, 375⟩ 600 1000 (by decide) (by decide) (by decide)
    (by decide)
  have hs : (image.calculate_scale_shape ⟨500, 375⟩ 600 1000).1 = 8/5 := by
    rw [h1 (by norm_num)]
    norm_num
  have e1 : ((500 : Int) : ℚ) * (8/5) = ((800 : Int) : ℚ) := by norm_num
  have e2 : ((375 : Int) : ℚ) * (8/5) = ((600 : Int) : ℚ) := by norm_num
  rw [hs] at h3
  simp only at h3
  rw [e1, e2, round_half_away_intCast 800 (by decide),
    round_half_away_intCast 600 (by decide)] at h3
  exact Prod.ext hs h3

/-- C18 on the input of `TEST(image,calculate_scale_shape)`: the longer side of the
result does not exceed 1000. -/
theorem calculate_scale_shape_bounded_witness :
    max (image.calculate_scale_shape ⟨500, 375⟩ 600 1000).2.width
        (image.calculate_scale_shape ⟨500, 375⟩ 600 1000).2.height ≤ 1000 :=
  (calculate_scale_shape_bounded.1 ⟨500, 375⟩ 600 1000 (by decide) (by decide) (by decide)
    (by decide)).2.2.2.2.2

/-! ## Passthrough -/

theorem cvRound_intCast (n : Int) : cvRound (n : ℚ) = n := by
  unfold cvRound
  simp only [Int.floor_intCast, sub_self]
  norm_num

/-- The crop box for a source of the configured size, scale 1, no distortion: the
whole source. -/
theorem image.cropbox_of_same_size (W H x y : ℚ) (hH : 0 < H) :
    image.cropbox_linear_scale (image.cropbox_max_proportional ⟨W, H⟩ ⟨W * 1, H⟩) 1 = ⟨W, H⟩ ∧
      image.cropbox_shift ⟨W, H⟩
        (image.cropbox_linear_scale (image.cropbox_max_proportional ⟨W, H⟩ ⟨W * 1, H⟩) 1)
        x y = ⟨0, 0⟩ := by
  have hne : H ≠ 0 := ne_of_gt hH
  have hc : H * (W * 1 / H) = W := by field_simp
  have h1 : image.cropbox_max_proportional ⟨W, H⟩ ⟨W * 1, H⟩ = ⟨W, H⟩ := by
    unfold image.cropbox_max_proportional
    simp only [hc, le_refl, if_true]
  have h2 : image.cropbox_linear_scale (image.cropbox_max_proportional ⟨W, H⟩ ⟨W * 1, H⟩) 1
      = ⟨W, H⟩ := by
    rw [h1]
    unfold image.cropbox_linear_scale
    simp
  refine ⟨h2, ?_⟩
  rw [h2]
  unfold image.cropbox_shift
  simp

/-- With the whole image as crop box, the image's own size as output size, no
rotation, no jitter and no flip, `transform` returns its input. -/
theorem image.transformer.transform_whole (ops : cv_ops) (w h : Nat)
    (input : image.decoded)
    (hin : ∀ m ∈ input._images, m.wf ∧ m.cols = w ∧ m.rows = h) :
    image.transformer.transform ops
        { cropbox := { x := 0, y := 0, width := w, height := h },
          output_size := { width := w, height := h }, angle := 0, flip := false,
          lighting := [], color_noise_std := 0, photometric := [] }
        input = .ok (some input) := by
  have hall := image.transformer.transform_all_crop ops
    { cropbox := { x := 0, y := 0, width := w, height := h },
      output_size := { width := w, height := h }, angle := 0, flip := false,
      lighting := [], color_noise_std := 0, photometric := [] }
    0 0 w h rfl rfl rfl (by simp) rfl input._images
    (fun m hm => ⟨by have := (hin m hm).2.1; omega, by have := (hin m hm).2.2; omega⟩)
  have hid : input._images.map (fun m : Mat =>
      ({ rows := h, cols := w, channels := m.channels,
         data := ((m.data.drop 0).take h).map
            (fun row => if false = true then ((row.drop 0).take w).reverse
                        else (row.drop 0).take w) } : Mat)) = input._images := by
    have hpoint : ∀ m ∈ input._images,
        ({ rows := h, cols := w, channels := m.channels,
           data := ((m.data.drop 0).take h).map
              (fun row => if false = true then ((row.drop 0).take w).reverse
                          else (row.drop 0).take w) } : Mat) = m := by
      intro m hm
      obtain ⟨⟨hlen, hrows⟩, hc, hr⟩ := hin m hm
      have hd : ((m.data.drop 0).take h).map
          (fun row => if false = true then ((row.drop 0).take w).reverse
                      else (row.drop 0).take w) = m.data := by
        rw [List.drop_zero, List.take_of_length_le (by omega)]
        conv_rhs => rw [← List.map_id m.data]
        apply List.map_congr_left
        intro row hrow
        have hrl := (hrows row hrow).1
        simp only [Bool.false_eq_true, if_false, List.drop_zero, id]
        exact List.take_of_length_le (by omega)
      rw [hd, ← hc, ← hr]
    conv_rhs => rw [← List.map_id input._images]
    exact List.map_congr_left (fun m hm => hpoint m hm)
  have hsame := image.decoded.all_images_are_same_size_of input._images
    { width := w, height := h }
    (by
      intro m hm
      obtain ⟨_, hc, hr⟩ := hin m hm
      unfold Mat.size
      rw [hc, hr])
  unfold image.transformer.transform
  rw [hall]
  simp only [hid, bind, Except.bind, image.decoded.add_list, List.nil_append, hsame,
    if_true, pure, Except.pure]
  rfl

/-- C17: for every configuration that gives only width and height (all
distributions at their defaults), every outcome of the draws those distributions
can give and every source whose size is exactly width x height, `make_params`
returns angle 0, flip off, output size `(width, height)`, crop box with origin
`(0,0)` and size `(width, height)`, and empty lighting and photometric vectors;
and `transform` with those params returns images equal pixel for pixel to the
source images. -/
theorem passthrough_returns_source (otypes : String → Option output_type) (w h : Nat)
    (cfg : image.config)
    (hok : image.config.config otypes (some { height := some h, width := some w }) = .ok cfg)
    (dre : image.draws) (hadm : dre.admissible cfg) :
    image.param_factory.make_params cfg dre { width := w, height := h } =
      .ok { cropbox := { x := 0, y := 0, width := w, height := h },
            output_size := { width := w, height := h }, angle := 0, flip := false,
            lighting := [], color_noise_std := 0, photometric := [] } ∧
    ∀ (ops : cv_ops) (input : image.decoded),
      (∀ m ∈ input._images, m.wf ∧ m.cols = w ∧ m.rows = h) →
      image.transformer.transform ops
          { cropbox := { x := 0, y := 0, width := w, height := h },
            output_size := { width := w, height := h }, angle := 0, flip := false,
            lighting := [], color_noise_std := 0, photometric := [] }
          input = .ok (some input) := by
  refine ⟨?_, fun ops input hin => image.transformer.transform_whole ops w h input hin⟩
  obtain ⟨h', w', st, hh, hw, _, _, hcfg⟩ := image.config.config_ok_value otypes _ cfg hok
  simp only [Option.some.injEq] at hh hw
  subst hh hw
  obtain ⟨h2, w2, _, hh2, hw2, _, hwpos, hhpos, _⟩ :=
    (image.config.config_ok_iff_document otypes _).mp ⟨cfg, hok⟩
  simp only [Option.some.injEq] at hh2 hw2
  subst hh2 hw2
  obtain ⟨hang, hflip, hscale, hhd, hcx, hcy, _, _, _⟩ := hadm
  rw [hcfg] at hang hflip hscale hhd hcx hcy
  simp only [Option.getD_none, if_true, Bool.false_eq_true, if_false,
    uniform_distribution.can_draw, bernoulli_distribution.can_draw] at hang hflip hscale hhd hcx hcy
  have e_angle : dre.angle = 0 := le_antisymm hang.2 hang.1
  have e_flip : dre.flip = false := by
    cases hb : dre.flip with
    | false => rfl
    | true => exact absurd (hflip.1 hb) (lt_irrefl _)
  have e_scale : dre.scale = 1 := le_antisymm hscale.2 hscale.1
  have e_hd : dre.horizontal_distortion = 1 := le_antisymm hhd.2 hhd.1
  rw [image.param_factory.make_params_value, hcfg]
  simp only [Option.getD_none, Bool.false_eq_true, if_false, ne_eq, not_true_eq_false,
    e_angle, e_flip, e_scale, e_hd, Int.cast_natCast]
  have hH : (0 : ℚ) < (h : ℚ) := by exact_mod_cast hhpos
  obtain ⟨g1, g2⟩ := image.cropbox_of_same_size (w : ℚ) (h : ℚ) dre.c_off_x dre.c_off_y hH
  rw [g2, g1]
  have r0 : cvRound (0 : ℚ) = 0 := by
    have := cvRound_intCast 0
    simpa using this
  have rwid : cvRound (w : ℚ) = (w : Int) := by
    have := cvRound_intCast (w : Int)
    simpa using this
  have rhgt : cvRound (h : ℚ) = (h : Int) := by
    have := cvRound_intCast (h : Int)
    simpa using this
  simp only [r0, rwid, rhgt]

theorem passthrough_config_ok :
    image.config.config test_otypes (some { height := some 256, width := some 512 }) =
      .ok passthrough_config :=
  image.config.config_ok_of test_otypes { height := some 256, width := some 512 }
    { height := 256, width := 512, seed := 0, type_string := "uint8_t",
      do_area_scale := false, channel_major := true, channels := 3, scale := ⟨1, 1⟩,
      angle := ⟨0, 0⟩, lighting := ⟨0, 0⟩, horizontal_distortion := ⟨1, 1⟩,
      photometric := ⟨0, 0⟩, crop_offset := ⟨1/2, 1/2⟩, flip_distribution := ⟨0⟩,
      flip_enable := false, center := true, shape_type := none }
    ⟨0, 1, 0, 255⟩ rfl (by decide) (by norm_num [image.config.derive]) (by decide)
    (by decide)

theorem passthrough_draws_admissible : passthrough_draws.admissible passthrough_config := by
  unfold image.draws.admissible uniform_distribution.can_draw
    bernoulli_distribution.can_draw passthrough_draws passthrough_config
  norm_num

/-- C17 on `TEST(image,passthrough)`: width 512, height 256 and the indexed
256 x 512 image. -/
theorem passthrough_returns_source_witness :
    image.param_factory.make_params passthrough_config passthrough_draws
        { width := (512 : Nat), height := (256 : Nat) } =
      .ok { cropbox := { x := 0, y := 0, width := (512 : Nat), height := (256 : Nat) },
            output_size := { width := (512 : Nat), height := (256 : Nat) },
            angle := 0, flip := false,
            lighting := [], color_noise_std := 0, photometric := [] } ∧
    image.transformer.transform cv_ops.unchanged
        { cropbox := { x := 0, y := 0, width := (512 : Nat), height := (256 : Nat) },
          output_size := { width := (512 : Nat), height := (256 : Nat) },
          angle := 0, flip := false,
          lighting := [], color_noise_std := 0, photometric := [] }
        { _images := [generate_indexed_image_of 256 512] } =
      .ok (some { _images := [generate_indexed_image_of 256 512] }) :=
  have T := passthrough_returns_source test_otypes 512 256 passthrough_config
    passthrough_config_ok passthrough_draws passthrough_draws_admissible
  ⟨T.1, T.2 cv_ops.unchanged { _images := [generate_indexed_image_of 256 512] }
    (by
      intro m hm
      rw [List.mem_singleton.mp hm]
      exact ⟨generate_indexed_image_of_wf 256 512, rfl, rfl⟩)⟩

/-! ## multicrop::config: output size -/

/-- The output size of a constructed `multicrop::config`: its width is the
configured height and its height the configured width. -/
theorem multicrop.config.output_size_value (otypes : String → Option output_type)
    (d : multicrop.document) (cfg : multicrop.config)
    (hok : multicrop.config.config otypes (some d) = .ok cfg) :
    cfg.output_size = { width := cfg.height, height := cfg.width } := by
  obtain ⟨c, st, _, _, hcfg, _⟩ := (multicrop.config.construct_ok_iff otypes d cfg).mp hok
  rw [hcfg]
  unfold multicrop.config.derive
  by_cases h1 : c.flip = true <;> by_cases h2 : c.crops_per_scale = 5 <;> simp [h1, h2]

/-- C21 fails on the code: the document with width 224, height 112 and the scale
7/8 is valid and constructs a configuration with `width = 224` and `height = 112`,
whose derived output size has width 112 and height 224 (line 86 passes
`height, width` to `cv::Size2i`, which takes width first). -/
theorem multicrop_output_size_swapped :
    ∃ cfg, multicrop.config.config test_otypes
        (some { height := some 112, width := some 224, multicrop_scales := some [7/8] })
          = .ok cfg ∧
      cfg.width = 224 ∧ cfg.height = 112 ∧
      cfg.output_size = { width := 112, height := 224 } ∧
      cfg.output_size.width ≠ (cfg.width : Int) ∧
      cfg.output_size.height ≠ (cfg.height : Int) := by
  have hok := multicrop.config.construct_ok_of test_otypes
    { height := some 112, width := some 224, multicrop_scales := some [7/8] }
    { multicrop_scales := [7/8], crops_per_scale := 5, include_flips := true,
      height := 112, width := 224, seed := 0, type_string := "uint8_t",
      do_area_scale := false, channel_major := true, channels := 3, scale := ⟨1, 1⟩,
      angle := ⟨0, 0⟩, lighting := ⟨0, 0⟩, horizontal_distortion := ⟨1, 1⟩,
      photometric := ⟨0, 0⟩, crop_offset := ⟨1/2, 1/2⟩, flip_distribution := ⟨0⟩,
      flip := false, offsets := [], output_size := ⟨0, 0⟩, shape_type := none }
    ⟨0, 1, 0, 255⟩ (multicrop.config.parse_seven_eighths 112 224 none none) (by decide)
    (Or.inr rfl) (by intro s hs; rw [List.mem_singleton.mp hs]; norm_num)
  have hsz := multicrop.config.output_size_value test_otypes _ _ hok
  refine ⟨_, hok, rfl, rfl, ?_, ?_, ?_⟩
  · rw [hsz]
    rfl
  · rw [hsz]
    decide
  · rw [hsz]
    decide

/-! ## NDSBatchLoader -/

/-- The stream after a transfer: every chunk followed by a newline byte. -/
theorem curl_deliver_value (chunks : List (List Nat)) :
    ∀ stream : List Nat,
      curl_deliver chunks stream = stream ++ chunks.flatMap (fun chunk => chunk ++ [10]) := by
  induction chunks with
  | nil =>
    intro stream
    simp [curl_deliver]
  | cons c rest ih =>
    intro stream
    have hstep : curl_deliver (c :: rest) stream =
        curl_deliver rest (write_data c 1 c.length stream).2 := rfl
    rw [hstep, ih]
    simp [write_data, List.flatMap_cons]

/-- After a successful `get` the stream is longer than the body by one byte per
chunk. -/
theorem NDSBatchLoader.get_length (chunks : List (List Nat)) (stream : List Nat) :
    ∃ out, NDSBatchLoader.get chunks true stream = .ok out ∧
      out = stream ++ chunks.flatMap (fun chunk => chunk ++ [10]) ∧
      out.length = stream.length + chunks.flatten.length + chunks.length := by
  refine ⟨curl_deliver chunks stream, rfl, curl_deliver_value chunks stream, ?_⟩
  rw [curl_deliver_value, List.length_append]
  have : (chunks.flatMap (fun chunk => chunk ++ [10])).length =
      chunks.flatten.length + chunks.length := by
    induction chunks with
    | nil => rfl
    | cons c rest ih =>
      rw [List.flatMap_cons, List.length_append, ih, List.flatten_cons, List.length_append,
        List.length_append]
      simp only [List.length_cons, List.length_nil]
      omega
  omega

/-- C22 fails on the code: a response body of the two bytes `ab`, handed to
`write_data` as one chunk during a successful `get` into an empty stream, leaves
the three bytes `ab\n` in the stream, not the body. -/
theorem write_data_appends_newline :
    NDSBatchLoader.get [[97, 98]] true [] = .ok [97, 98, 10] ∧
    write_data [97, 98] 1 2 [] = (2, [97, 98, 10]) ∧
    ([97, 98, 10] : List Nat) ≠ List.flatten [[97, 98]] := by
  refine ⟨rfl, rfl, by decide⟩

end nervana
